import Mathlib

/-!
Verification development for the MURMC64 virtual 1541 disk drive
(`src/rp2350/d64_drive.c`).  The C code is shallowly embedded: byte arrays
(sectors, channel buffers) become `List Nat` with `List.getD`/`List.set`,
the in-RAM BAM mirrors become functions `Nat → Nat` (byte index → byte
value) updated pointwise, the disk-image backing store becomes a sector map
`Nat → Nat → List Nat` (justified by the proved injectivity of the
track/sector → offset mapping on 256-byte-aligned accesses), machine bytes
are `Nat` values `< 256` with explicit `% 256` where C `uint8_t` overflow
can occur, and C loops become fuel-indexed recursions with fuel large
enough to cover every terminating C execution.  Host file I/O is modelled
as reliable (spec §5 assumes the storage layer reliable); the pointer
aliasing of the BAM into the drive RAM is replaced by named fields as the
spec's design notes themselves prescribe.
-/

set_option maxRecDepth 10000

namespace D64

/-! ## Geometry tables (d64_drive.c lines 35-54) -/

/-- `num_sectors[41]`: sectors per track, tracks 1-17 have 21, 18-24 have 19,
25-30 have 18, 31-40 have 17; index 0 unused (0). -/
def numSectors (track : Nat) : Nat :=
  if track = 0 then 0
  else if track ≤ 17 then 21
  else if track ≤ 24 then 19
  else if track ≤ 30 then 18
  else if track ≤ 40 then 17
  else 0

/-- `accum_num_sectors[41]`: the precomputed accumulated-sector table,
verbatim from the source. -/
def accumNumSectorsTable : List Nat :=
  [0,
   0,21,42,63,84,105,126,147,168,189,210,231,252,273,294,315,336,
   357,376,395,414,433,452,471,
   490,508,526,544,562,580,
   598,615,632,649,666,
   683,700,717,734,751]

/-- `accum_num_sectors[track]` (reads past the table give 0, which the C
code never does for valid tracks). -/
def accumNumSectors (track : Nat) : Nat :=
  accumNumSectorsTable.getD track 0

/-! ## Constants from d64_drive.h -/

def DIR_TRACK : Nat := 18
def D81_DIR_TRACK : Nat := 40
def D81_NUM_TRACKS : Nat := 80
def D81_SECTORS_PER_TRACK : Nat := 40
def D81_INTERLEAVE : Nat := 1
def DIR_INTERLEAVE : Nat := 3
def DATA_INTERLEAVE : Nat := 10
def NUM_SECTORS_35 : Nat := 683
def NUM_SECTORS_40 : Nat := 768
def NUM_SECTORS_D81 : Nat := 3200
def D64_SIZE_35 : Nat := NUM_SECTORS_35 * 256      -- 174848
def D64_SIZE_35_ERR : Nat := NUM_SECTORS_35 * 257  -- 175531
def D64_SIZE_40 : Nat := NUM_SECTORS_40 * 256      -- 196608
def D64_SIZE_40_ERR : Nat := NUM_SECTORS_40 * 257  -- 197376
def D81_SIZE : Nat := NUM_SECTORS_D81 * 256                    -- 819200
def D81_SIZE_ERR : Nat := NUM_SECTORS_D81 * 256 + NUM_SECTORS_D81  -- 822400

/-- C64 status codes returned to the KERNAL (iec.h). -/
def ST_OK : Nat := 0x00
def ST_READ_TIMEOUT : Nat := 0x02
def ST_TIMEOUT : Nat := 0x03
def ST_EOF : Nat := 0x40
def ST_NOTPRESENT : Nat := 0x80

/-- 1541 error codes (iec.h `iec_error_t`). -/
inductive IecError
  | ERR_OK | ERR_SCRATCHED | ERR_UNIMPLEMENTED
  | ERR_READ20 | ERR_READ21 | ERR_READ22 | ERR_READ23 | ERR_READ24
  | ERR_WRITE25 | ERR_WRITEPROTECT | ERR_READ27 | ERR_WRITE28 | ERR_DISKID
  | ERR_SYNTAX30 | ERR_SYNTAX31 | ERR_SYNTAX32 | ERR_SYNTAX33 | ERR_SYNTAX34
  | ERR_WRITEFILEOPEN | ERR_FILENOTOPEN | ERR_FILENOTFOUND | ERR_FILEEXISTS
  | ERR_FILETYPE | ERR_NOBLOCK | ERR_ILLEGALTS | ERR_NOCHANNEL
  | ERR_DIRERROR | ERR_DISKFULL | ERR_STARTUP | ERR_NOTREADY
  deriving Repr, DecidableEq

/-- Drive LED states (iec.h `iec_led_t`). -/
inductive DrvLed
  | off | on | errorOff | errorOn | errorFlash
  deriving Repr, DecidableEq

/-- Channel modes (iec.h `iec_chmod_t`). -/
inductive ChMod
  | free | command | directory | file | rel | direct
  deriving Repr, DecidableEq

/-- Image types (d64_drive.h `image_type_t`). -/
inductive ImageType
  | d64 | x64 | d81
  deriving Repr, DecidableEq

/-! ## Error message formatting (d64_drive.c lines 59-90, 182-202) -/

/-- Decimal rendering of the `%02d` printf conversion for a non-negative
argument: at least two digits, zero padded. -/
def fmt02 (n : Nat) : List Nat :=
  if n < 10 then [48, 48 + n]
  else ((Nat.digits 10 n).reverse).map (fun d => 48 + d)

/-- The fixed `"NN,MESSAGE,"` prefix of each entry of `error_messages`,
as ASCII byte lists (text shown in the comments). -/
def errPrefix : IecError → List Nat
  | .ERR_OK            => [48,48,44,79,75,44]                      -- "00,OK,"
  | .ERR_SCRATCHED     => [48,49,44,70,73,76,69,83,32,83,67,82,65,84,67,72,69,68,44] -- "01,FILES SCRATCHED,"
  | .ERR_UNIMPLEMENTED => [48,51,44,85,78,73,77,80,76,69,77,69,78,84,69,68,44] -- "03,UNIMPLEMENTED,"
  | .ERR_READ20        => [50,48,44,82,69,65,68,32,69,82,82,79,82,44] -- "20,READ ERROR,"
  | .ERR_READ21        => [50,49,44,82,69,65,68,32,69,82,82,79,82,44] -- "21,READ ERROR,"
  | .ERR_READ22        => [50,50,44,82,69,65,68,32,69,82,82,79,82,44] -- "22,READ ERROR,"
  | .ERR_READ23        => [50,51,44,82,69,65,68,32,69,82,82,79,82,44] -- "23,READ ERROR,"
  | .ERR_READ24        => [50,52,44,82,69,65,68,32,69,82,82,79,82,44] -- "24,READ ERROR,"
  | .ERR_WRITE25       => [50,53,44,87,82,73,84,69,32,69,82,82,79,82,44] -- "25,WRITE ERROR,"
  | .ERR_WRITEPROTECT  => [50,54,44,87,82,73,84,69,32,80,82,79,84,69,67,84,32,79,78,44] -- "26,WRITE PROTECT ON,"
  | .ERR_READ27        => [50,55,44,82,69,65,68,32,69,82,82,79,82,44] -- "27,READ ERROR,"
  | .ERR_WRITE28       => [50,56,44,87,82,73,84,69,32,69,82,82,79,82,44] -- "28,WRITE ERROR,"
  | .ERR_DISKID        => [50,57,44,68,73,83,75,32,73,68,32,77,73,83,77,65,84,67,72,44] -- "29,DISK ID MISMATCH,"
  | .ERR_SYNTAX30      => [51,48,44,83,89,78,84,65,88,32,69,82,82,79,82,44] -- "30,SYNTAX ERROR,"
  | .ERR_SYNTAX31      => [51,49,44,83,89,78,84,65,88,32,69,82,82,79,82,44] -- "31,SYNTAX ERROR,"
  | .ERR_SYNTAX32      => [51,50,44,83,89,78,84,65,88,32,69,82,82,79,82,44] -- "32,SYNTAX ERROR,"
  | .ERR_SYNTAX33      => [51,51,44,83,89,78,84,65,88,32,69,82,82,79,82,44] -- "33,SYNTAX ERROR,"
  | .ERR_SYNTAX34      => [51,52,44,83,89,78,84,65,88,32,69,82,82,79,82,44] -- "34,SYNTAX ERROR,"
  | .ERR_WRITEFILEOPEN => [54,48,44,87,82,73,84,69,32,70,73,76,69,32,79,80,69,78,44] -- "60,WRITE FILE OPEN,"
  | .ERR_FILENOTOPEN   => [54,49,44,70,73,76,69,32,78,79,84,32,79,80,69,78,44] -- "61,FILE NOT OPEN,"
  | .ERR_FILENOTFOUND  => [54,50,44,70,73,76,69,32,78,79,84,32,70,79,85,78,68,44] -- "62,FILE NOT FOUND,"
  | .ERR_FILEEXISTS    => [54,51,44,70,73,76,69,32,69,88,73,83,84,83,44] -- "63,FILE EXISTS,"
  | .ERR_FILETYPE      => [54,52,44,70,73,76,69,32,84,89,80,69,32,77,73,83,77,65,84,67,72,44] -- "64,FILE TYPE MISMATCH,"
  | .ERR_NOBLOCK       => [54,53,44,78,79,32,66,76,79,67,75,44] -- "65,NO BLOCK,"
  | .ERR_ILLEGALTS     => [54,54,44,73,76,76,69,71,65,76,32,84,82,65,67,75,32,79,82,32,83,69,67,84,79,82,44] -- "66,ILLEGAL TRACK OR SECTOR,"
  | .ERR_NOCHANNEL     => [55,48,44,78,79,32,67,72,65,78,78,69,76,44] -- "70,NO CHANNEL,"
  | .ERR_DIRERROR      => [55,49,44,68,73,82,32,69,82,82,79,82,44] -- "71,DIR ERROR,"
  | .ERR_DISKFULL      => [55,50,44,68,73,83,75,32,70,85,76,76,44] -- "72,DISK FULL,"
  | .ERR_STARTUP       => [55,51,44,77,85,82,77,67,54,52,32,86,73,82,84,85,65,76,32,49,53,52,49,44] -- "73,MURMC64 VIRTUAL 1541,"
  | .ERR_NOTREADY      => [55,52,44,68,82,73,86,69,32,78,79,84,32,82,69,65,68,89,44] -- "74,DRIVE NOT READY,"

/-- `snprintf(error_buf, ..., error_messages[error], track, sector)`:
the message prefix, the two `%02d` fields separated by a comma, and a
trailing CR.  The C call sites always pass non-negative track/sector, so
the `Int.toNat` coercion is exact there. -/
def errMessage (e : IecError) (track sector : Int) : List Nat :=
  errPrefix e ++ fmt02 track.toNat ++ [44] ++ fmt02 sector.toNat ++ [13]

/-! ## Offset mapping (d64_drive.c lines 143-169) -/

/-- `d64_sectors_per_track`. -/
def d64_sectors_per_track (track : Int) : Nat :=
  if track < 1 ∨ track > 40 then 0 else numSectors track.toNat

def INVALID_OFFSET : Nat := 0xFFFFFFFF

/-- Image file descriptor (d64_drive.h `image_file_desc_t`). -/
structure ImageFileDesc where
  type : ImageType := .d64
  header_size : Nat := 0
  num_tracks : Nat := 35
  id1 : Nat := 0
  id2 : Nat := 0
  error_info : Nat → Nat := fun _ => 1
  has_error_info : Bool := false

/-- `d64_offset_from_ts`: track/sector to byte offset, `0xFFFFFFFF` when out
of range.  `(x << 8)` is written `x * 256`. -/
def d64_offset_from_ts (desc : ImageFileDesc) (track sector : Int) : Nat :=
  if desc.type = .d81 then
    if track < 1 ∨ track > (D81_NUM_TRACKS : Int) ∨ sector < 0 ∨
        sector ≥ (D81_SECTORS_PER_TRACK : Int) then
      INVALID_OFFSET
    else
      ((track - 1).toNat * D81_SECTORS_PER_TRACK + sector.toNat) * 256 + desc.header_size
  else
    if track < 1 ∨ track > (desc.num_tracks : Int) ∨ sector < 0 ∨
        sector ≥ (numSectors track.toNat : Int) then
      INVALID_OFFSET
    else
      (accumNumSectors track.toNat + sector.toNat) * 256 + desc.header_size

/-- `conv_job_error` (d64_drive.c lines 102-119) composed with the `& 0x0f`
mask of `d64_conv_error_info`. -/
def conv_job_error (j : Nat) : IecError :=
  match j with
  | 2 => .ERR_READ20
  | 3 => .ERR_READ21
  | 4 => .ERR_READ22
  | 5 => .ERR_READ23
  | 6 => .ERR_READ24
  | 7 => .ERR_WRITE25
  | 8 => .ERR_WRITEPROTECT
  | 9 => .ERR_READ27
  | 10 => .ERR_WRITE28
  | 11 => .ERR_DISKID
  | 15 => .ERR_NOTREADY
  | _ => .ERR_OK

/-- `d64_conv_error_info`. -/
def d64_conv_error_info (e : Nat) : IecError := conv_job_error (e % 16)

/-! ## The BAM mirrors and bit-level operations (d64_drive.c lines 660-906) -/

/-- Pointwise update of a byte-array-as-function. -/
def updByte (f : Nat → Nat) (i v : Nat) : Nat → Nat :=
  fun j => if j = i then v else f j

/-- The in-RAM BAM mirrors: `drive->bam` (256 bytes at `ram+0x700`) and
`drive->bam2` (second D81 BAM sector), with their dirty flags. -/
structure BamState where
  bam : Nat → Nat
  bam2 : Nat → Nat
  bam_dirty : Bool
  bam2_dirty : Bool

/-- `is_block_free`: bit lookup.  D81 entries are 6 bytes starting at
offset 16 (tracks 1-40 in `bam`, 41-80 in `bam2`); D64/X64 entries are 4
bytes starting at offset `BAM_BITMAP = 4`.  Byte 0 of an entry is the free
count, the bitmap starts at byte 1 (`sector / 8 + 1`). -/
def is_block_free (ty : ImageType) (st : BamState) (track sector : Int) : Bool :=
  if ty = .d81 then
    let arr := if track ≤ 40 then st.bam else st.bam2
    let bt : Int := if track ≤ 40 then track else track - 40
    let p := 16 + (bt - 1).toNat * 6
    Nat.testBit (arr (p + (sector.toNat / 8 + 1))) (sector.toNat % 8)
  else
    let p := 4 + (track - 1).toNat * 4
    Nat.testBit (st.bam (p + (sector.toNat / 8 + 1))) (sector.toNat % 8)

/-- `num_free_blocks`: the per-track free count byte. -/
def num_free_blocks (ty : ImageType) (st : BamState) (track : Int) : Nat :=
  if ty = .d81 then
    let arr := if track ≤ 40 then st.bam else st.bam2
    let bt : Int := if track ≤ 40 then track else track - 40
    arr (16 + (bt - 1).toNat * 6)
  else
    st.bam (4 + (track - 1).toNat * 4)

/-- `alloc_block`: validate, and if the bit is set clear it and decrement
the free count (a `uint8_t`, hence the `% 256` wraps); `ERR_NOBLOCK` if the
block is already allocated.  Note the D64 branch validates `track > 35`
even for 40-track images, exactly as in the source. -/
def alloc_block (ty : ImageType) (st : BamState) (track sector : Int) :
    BamState × IecError :=
  if ty = .d81 then
    if track < 1 ∨ track > (D81_NUM_TRACKS : Int) ∨ sector < 0 ∨
        sector ≥ (D81_SECTORS_PER_TRACK : Int) then
      (st, .ERR_ILLEGALTS)
    else
      let useFirst := track ≤ 40
      let arr := if useFirst then st.bam else st.bam2
      let bt : Int := if useFirst then track else track - 40
      let p := 16 + (bt - 1).toNat * 6
      let byteIdx := sector.toNat / 8 + 1
      let bit := sector.toNat % 8
      if Nat.testBit (arr (p + byteIdx)) bit then
        let arr1 := updByte arr (p + byteIdx) ((arr (p + byteIdx)) &&& (255 ^^^ (1 <<< bit)))
        let arr2 := updByte arr1 p ((arr1 p + 255) % 256)
        if useFirst then ({ st with bam := arr2, bam_dirty := true }, .ERR_OK)
        else ({ st with bam2 := arr2, bam2_dirty := true }, .ERR_OK)
      else (st, .ERR_NOBLOCK)
  else
    if track < 1 ∨ track > 35 ∨ sector < 0 ∨ sector ≥ (numSectors track.toNat : Int) then
      (st, .ERR_ILLEGALTS)
    else
      let p := 4 + (track - 1).toNat * 4
      let byteIdx := sector.toNat / 8 + 1
      let bit := sector.toNat % 8
      if Nat.testBit (st.bam (p + byteIdx)) bit then
        let arr1 := updByte st.bam (p + byteIdx) ((st.bam (p + byteIdx)) &&& (255 ^^^ (1 <<< bit)))
        let arr2 := updByte arr1 p ((arr1 p + 255) % 256)
        ({ st with bam := arr2, bam_dirty := true }, .ERR_OK)
      else (st, .ERR_NOBLOCK)

/-- `free_block`: validate, and if the bit is clear set it and increment
the free count; already-free blocks are a silent no-op (`ERR_OK`). -/
def free_block (ty : ImageType) (st : BamState) (track sector : Int) :
    BamState × IecError :=
  if ty = .d81 then
    if track < 1 ∨ track > (D81_NUM_TRACKS : Int) ∨ sector < 0 ∨
        sector ≥ (D81_SECTORS_PER_TRACK : Int) then
      (st, .ERR_ILLEGALTS)
    else
      let useFirst := track ≤ 40
      let arr := if useFirst then st.bam else st.bam2
      let bt : Int := if useFirst then track else track - 40
      let p := 16 + (bt - 1).toNat * 6
      let byteIdx := sector.toNat / 8 + 1
      let bit := sector.toNat % 8
      if Nat.testBit (arr (p + byteIdx)) bit then (st, .ERR_OK)
      else
        let arr1 := updByte arr (p + byteIdx) ((arr (p + byteIdx)) ||| (1 <<< bit))
        let arr2 := updByte arr1 p ((arr1 p + 1) % 256)
        if useFirst then ({ st with bam := arr2, bam_dirty := true }, .ERR_OK)
        else ({ st with bam2 := arr2, bam2_dirty := true }, .ERR_OK)
  else
    if track < 1 ∨ track > 35 ∨ sector < 0 ∨ sector ≥ (numSectors track.toNat : Int) then
      (st, .ERR_ILLEGALTS)
    else
      let p := 4 + (track - 1).toNat * 4
      let byteIdx := sector.toNat / 8 + 1
      let bit := sector.toNat % 8
      if Nat.testBit (st.bam (p + byteIdx)) bit then (st, .ERR_OK)
      else
        let arr1 := updByte st.bam (p + byteIdx) ((st.bam (p + byteIdx)) ||| (1 <<< bit))
        let arr2 := updByte arr1 p ((arr1 p + 1) % 256)
        ({ st with bam := arr2, bam_dirty := true }, .ERR_OK)

/-! ## alloc_next_block (d64_drive.c lines 839-906) -/

/-- The track walk of `alloc_next_block` (the `while (num_free_blocks == 0)`
loop).  `none` is fuel exhaustion (no C counterpart; the C loop always
terminates, see the claim C5 theorem), `some none` is the `DISKFULL`
outcome, `some (some (t, s))` the found track (`s` is reset to 0 whenever
the walk flips to the other side of the directory track). -/
def walkTrack (ty : ImageType) (st : BamState) (dirT maxT : Int) :
    Nat → Int → Int → Bool → Option (Option (Int × Int))
  | 0, _, _, _ => none
  | fuel+1, t, s, side =>
    if num_free_blocks ty st t = 0 then
      if t = dirT then some none
      else if t > dirT then
        if t + 1 > maxT then
          if side then some none
          else walkTrack ty st dirT maxT fuel (dirT - 1) 0 true
        else walkTrack ty st dirT maxT fuel (t + 1) s side
      else
        if t - 1 < 1 then
          if side then some none
          else walkTrack ty st dirT maxT fuel (dirT + 1) 0 true
        else walkTrack ty st dirT maxT fuel (t - 1) s side
    else some (some (t, s))

/-- The free-sector probe of `alloc_next_block` (the `count < num` loop):
up to `num` sectors are probed starting at `s`, stepping forward with
wraparound; `none` means no free sector among them (`DIRERROR`). -/
def probeSector (ty : ImageType) (st : BamState) (t num : Int) :
    Nat → Int → Option Int
  | 0, _ => none
  | fuel+1, s =>
    if is_block_free ty st t s then some s
    else
      let s1 := s + 1
      probeSector ty st t num fuel (if s1 ≥ num then 0 else s1)

/-- Result of `alloc_next_block`: success with the updated BAM and the
chosen block, or failure with the error (and its track/sector context), or
fuel exhaustion of the modelled track walk (unreachable; see claim C5). -/
inductive AllocResult
  | ok (st : BamState) (track sector : Int)
  | fail (e : IecError) (track sector : Int)
  | fuelOut

/-- `alloc_next_block`.  After the walk the start sector is advanced by the
interleave with the source's wrap adjustment (`s -= num; if (s) s--;`), the
probe looks for a free sector, and the found block is allocated (the
`alloc_block` return value is ignored, as in the source). -/
def alloc_next_block (ty : ImageType) (st : BamState)
    (track sector interleave : Int) : AllocResult :=
  let dirT : Int := if ty = .d81 then (D81_DIR_TRACK : Int) else (DIR_TRACK : Int)
  let maxT : Int := if ty = .d81 then (D81_NUM_TRACKS : Int) else 35
  match walkTrack ty st dirT maxT (2 * maxT.toNat + 4) track sector false with
  | none => .fuelOut
  | some none => .fail .ERR_DISKFULL 0 0
  | some (some (t, s)) =>
    let num : Int := if ty = .d81 then (D81_SECTORS_PER_TRACK : Int)
                     else (numSectors t.toNat : Int)
    let s1 := s + interleave
    let s2 := if s1 ≥ num then (if s1 - num ≠ 0 then s1 - num - 1 else s1 - num) else s1
    match probeSector ty st t num num.toNat s2 with
    | some sf =>
      let r := alloc_block ty st t sf
      .ok r.1 t sf
    | none => .fail .ERR_DIRERROR t s2

/-! ## The drive state (d64_drive.h `struct iec_drive`, `channel_desc_t`) -/

/-- File type codes (iec.h `iec_ftype_t`) as the numeric values the C code
stores into directory entries: DEL=0, SEQ=1, PRG=2, USR=3, REL=4. -/
def FTYPE_DEL : Nat := 0
def FTYPE_SEQ : Nat := 1
def FTYPE_PRG : Nat := 2
def FTYPE_USR : Nat := 3
def FTYPE_REL : Nat := 4

/-- File modes (iec.h `iec_fmode_t`): READ=0, WRITE=1, APPEND=2, M=3. -/
def FMODE_READ : Nat := 0
def FMODE_WRITE : Nat := 1
def FMODE_APPEND : Nat := 2
def FMODE_M : Nat := 3

/-- Channel descriptor.  `buf` owns the channel's 256-byte work-buffer
content (the C code points into the shared drive RAM; a work buffer is
owned by at most one channel at a time, which the spec states as an
invariant, so ownership is modelled directly), `buf_pos` is the offset of
`buf_ptr` from `buf`.  A freshly assigned buffer's unobservable stale RAM
content is modelled as zeros. -/
structure ChannelDesc where
  mode : ChMod := .free
  writing : Bool := false
  buf_num : Nat := 0
  buf : List Nat := []
  buf_pos : Nat := 0
  buf_len : Nat := 0
  track : Int := 0
  sector : Int := 0
  num_blocks : Nat := 0
  dir_track : Int := 0
  dir_sector : Int := 0
  entry : Nat := 0

def updCh (f : Nat → ChannelDesc) (i : Nat) (c : ChannelDesc) : Nat → ChannelDesc :=
  fun j => if j = i then c else f j

def updBoolF (f : Nat → Bool) (i : Nat) (v : Bool) : Nat → Bool :=
  fun j => if j = i then v else f j

/-- Update one 256-byte sector of the sector-addressed disk image. -/
def upd2 (f : Nat → Nat → List Nat) (t s : Nat) (v : List Nat) : Nat → Nat → List Nat :=
  fun a b => if a = t ∧ b = s then v else f a b

/-- Set consecutive list elements starting at `start`. -/
def lsetRange (l : List Nat) (start : Nat) : List Nat → List Nat
  | [] => l
  | v :: vs => lsetRange (l.set start v) (start + 1) vs

/-- `memset(l + start, v, count)`. -/
def lfill (l : List Nat) (start : Nat) : Nat → Nat → List Nat
  | 0, _ => l
  | count+1, v => lfill (l.set start v) (start + 1) count v

/-- The drive.  The disk image backing store is a sector map plus the host
file size (used for the short-read check of `f_read`); `error_pos` is the
offset of `error_ptr` inside `error_buf`; `cmd_len` is `cmd_buf.length`. -/
structure Drive where
  led : DrvLed := .off
  ready : Bool := false
  error_buf : List Nat := []
  error_pos : Nat := 0
  error_len : Nat := 0
  current_error : IecError := .ERR_OK
  cmd_buf : List Nat := []
  file_open : Bool := false
  file_size : Nat := 0
  desc : ImageFileDesc := {}
  write_protected : Bool := true
  disk : Nat → Nat → List Nat := fun _ _ => []
  dir : List Nat := List.replicate 256 0
  bams : BamState := { bam := fun _ => 0, bam2 := fun _ => 0,
                       bam_dirty := false, bam2_dirty := false }
  ch : Nat → ChannelDesc := fun _ => {}
  buf_free : Nat → Bool := fun _ => true

/-- `d64_drive_set_error` (lines 182-202): format the message, reset the
error cursor, and derive the LED state. -/
def d64_drive_set_error (d : Drive) (e : IecError) (track sector : Int) : Drive :=
  let msg := errMessage e track sector
  let led1 :=
    if e ≠ .ERR_OK ∧ e ≠ .ERR_SCRATCHED then
      if e = .ERR_STARTUP then DrvLed.off else DrvLed.errorFlash
    else if d.led = .errorFlash then DrvLed.off else d.led
  { d with error_buf := msg, error_pos := 0, error_len := msg.length,
           current_error := e, led := led1 }

/-- `read_sector` (lines 531-570).  The host `f_lseek`/`f_read` pair is
modelled as reliable except for the short-read check against the file
size; the per-sector error info is consulted exactly as in the source
(including its use of `accum_num_sectors` for any image type). -/
def read_sector (d : Drive) (track sector : Int) : Drive × Option (List Nat) :=
  if ¬ d.file_open then (d64_drive_set_error d .ERR_NOTREADY track sector, none)
  else
    let off := d64_offset_from_ts d.desc track sector
    if off = INVALID_OFFSET then (d64_drive_set_error d .ERR_ILLEGALTS track sector, none)
    else if d.file_size < off + 256 then
      (d64_drive_set_error d .ERR_READ22 track sector, none)
    else
      let buf := d.disk track.toNat sector.toNat
      if d.desc.has_error_info then
        let e := d64_conv_error_info (d.desc.error_info (accumNumSectors track.toNat + sector.toNat))
        if e ≠ .ERR_OK then (d64_drive_set_error d e track sector, none)
        else (d, some buf)
      else (d, some buf)

/-- `write_sector` (lines 575-609).  A successful write stores the first
256 buffer bytes at the sector and may extend the host file. -/
def write_sector (d : Drive) (track sector : Int) (buf : List Nat) : Drive × Bool :=
  if ¬ d.file_open then (d64_drive_set_error d .ERR_NOTREADY track sector, false)
  else if d.write_protected then
    (d64_drive_set_error d .ERR_WRITEPROTECT track sector, false)
  else
    let off := d64_offset_from_ts d.desc track sector
    if off = INVALID_OFFSET then (d64_drive_set_error d .ERR_ILLEGALTS track sector, false)
    else
      ({ d with disk := upd2 d.disk track.toNat sector.toNat (buf.take 256),
                file_size := max d.file_size (off + 256) }, true)

/-- `alloc_buffer` (lines 614-632): `want = -1` scans buffers 3,2,1,0. -/
def alloc_buffer (d : Drive) (want : Int) : Drive × Int :=
  if want = -1 then
    if d.buf_free 3 then ({ d with buf_free := updBoolF d.buf_free 3 false }, 3)
    else if d.buf_free 2 then ({ d with buf_free := updBoolF d.buf_free 2 false }, 2)
    else if d.buf_free 1 then ({ d with buf_free := updBoolF d.buf_free 1 false }, 1)
    else if d.buf_free 0 then ({ d with buf_free := updBoolF d.buf_free 0 false }, 0)
    else (d, -1)
  else if want < 4 ∧ d.buf_free want.toNat then
    ({ d with buf_free := updBoolF d.buf_free want.toNat false }, want)
  else (d, -1)

/-- `free_buffer` (lines 637-642). -/
def free_buffer (d : Drive) (buf : Nat) : Drive :=
  if buf < 4 then { d with buf_free := updBoolF d.buf_free buf true } else d

/-- Drive-level wrappers around the BAM operations. -/
def drive_free_block (d : Drive) (track sector : Int) : Drive × IecError :=
  let r := free_block d.desc.type d.bams track sector
  ({ d with bams := r.1 }, r.2)

def drive_alloc_block (d : Drive) (track sector : Int) : Drive × IecError :=
  let r := alloc_block d.desc.type d.bams track sector
  ({ d with bams := r.1 }, r.2)

/-- `alloc_next_block` at drive level: on failure the error is set on the
drive (the `fuelOut` case has no C counterpart and leaves the drive
unchanged; claim C5 proves it unreachable for in-range starting tracks). -/
def drive_alloc_next_block (d : Drive) (track sector interleave : Int) :
    Drive × Bool × Int × Int :=
  match alloc_next_block d.desc.type d.bams track sector interleave with
  | .ok st t s => ({ d with bams := st }, true, t, s)
  | .fail e t s => (d64_drive_set_error d e t s, false, track, sector)
  | .fuelOut => (d, false, track, sector)

/-- `free_block_chain` (lines 823-834): free blocks following the 2-byte
sector links until `free_block` rejects the track/sector (track 0 at chain
end).  The fuel bounds the loop, which in C would not terminate on a
cyclic chain; every call site passes fuel 4000, more than any acyclic
chain of a mounted image can need. -/
def free_block_chain (d : Drive) : Nat → Int → Int → Drive × Bool
  | 0, _, _ => (d, false)
  | fuel+1, track, sector =>
    let r := drive_free_block d track sector
    if r.2 = .ERR_OK then
      match read_sector r.1 track sector with
      | (d2, none) => (d2, false)
      | (d2, some buf) =>
        free_block_chain d2 fuel ((buf.getD 0 0 : Nat) : Int) ((buf.getD 1 0 : Nat) : Int)
    else (r.1, true)

/-! ## Channel close (d64_drive.c lines 1522-1587) -/

/-- Free a channel's buffer and mark the channel free. -/
def release_channel (d : Drive) (channel : Nat) : Drive :=
  let c := d.ch channel
  let d1 := free_buffer d c.buf_num
  { d1 with ch := updCh d1.ch channel { c with buf := [], mode := .free } }

/-- The `CHMOD_FILE` close branch (lines 1538-1575). -/
def close_file_channel (d : Drive) (channel : Nat) : Drive :=
  let c := d.ch channel
  if c.writing then
    let (buf1, len1) := if c.buf_len = 2 then (c.buf.set 2 13, 3) else (c.buf, c.buf_len)
    let buf2 := (buf1.set 0 0).set 1 (len1 - 1)
    let c1 := { c with buf := buf2, buf_len := len1 }
    let d1 := { d with ch := updCh d.ch channel c1 }
    match write_sector d1 c1.track c1.sector buf2 with
    | (d2, false) => release_channel d2 channel
    | (d2, true) =>
      let (d3, rd) := read_sector d2 c1.dir_track c1.dir_sector
      let dir1 := match rd with | some b => b | none => d3.dir
      let base := 2 + c1.entry * 32
      let dir2 := dir1.set base ((dir1.getD base 0) ||| 0x80)
      let dir3 := (dir2.set (base + 28) (c1.num_blocks % 256)).set (base + 29)
                    ((c1.num_blocks / 256) % 256)
      let d4 := { d3 with dir := dir3 }
      if dir3.getD (base + 26) 0 ≠ 0 then
        let (d5, _) := free_block_chain d4 4000 ((dir3.getD (base + 1) 0 : Nat) : Int)
                        ((dir3.getD (base + 2) 0 : Nat) : Int)
        let dir4 := ((((dir3.set (base + 1) (dir3.getD (base + 26) 0)).set (base + 2)
                        (dir3.getD (base + 27) 0)).set (base + 26) 0).set (base + 27) 0)
        let d6 := { d5 with dir := dir4 }
        let (d7, _) := write_sector d6 c1.dir_track c1.dir_sector dir4
        release_channel d7 channel
      else
        let (d7, _) := write_sector d4 c1.dir_track c1.dir_sector dir3
        release_channel d7 channel
  else release_channel d channel

/-- Close a non-command channel (the COMMAND case is handled by the
dispatcher `d64_drive_close`; only channel 15 is ever in COMMAND mode). -/
def close_ch_basic (d : Drive) (channel : Nat) : Drive :=
  match (d.ch channel).mode with
  | .free => d
  | .command => d
  | .direct => release_channel d channel
  | .file => close_file_channel d channel
  | .directory =>
    { d with ch := updCh d.ch channel { (d.ch channel) with buf := [], mode := .free } }
  | .rel => d

/-- `close_all_channels` (lines 647-655): channels 0-14, 16, 17. -/
def close_all_channels (d : Drive) : Drive :=
  let d1 := (List.range 15).foldl (fun dd i => close_ch_basic dd i) d
  let d2 := close_ch_basic (close_ch_basic d1 16) 17
  { d2 with cmd_buf := [] }

/-- `d64_drive_close`. -/
def d64_drive_close (d : Drive) (channel : Nat) : Drive × Nat :=
  if (d.ch channel).mode = .command then (close_all_channels d, ST_OK)
  else (close_ch_basic d channel, ST_OK)

/-! ## Pattern matching and directory search (lines 911-988) -/

/-- The loop of `match`: `c` is the position in the name, `pi` the position
in the pattern (the C code advances both pointers together).  After the
pattern is exhausted the result is `*n == 0xa0 || c == 16`; the name
accessor faithfully reaches one byte past the 16-byte name field when
`c = 16` (the side-sector track byte in a directory entry). -/
def match_go (p : List Nat) (n : Nat → Nat) : Nat → Nat → Nat → Bool
  | 0, c, _ => (n c = 0xa0) || (c = 16)
  | rem+1, c, pi =>
    if p.getD pi 0 = 42 then true
    else if p.getD pi 0 ≠ n c ∧ p.getD pi 0 ≠ 63 then false
    else match_go p n rem (c + 1) (pi + 1)

/-- `match` (lines 911-922): CBM pattern match, `*` matches the rest, `?`
one character; patterns longer than 16 are truncated. -/
def match_pat (p : List Nat) (p_len : Nat) (n : Nat → Nat) : Bool :=
  match_go p n (min p_len 16) 0 0

/-- The `while (num_dir_blocks < max_dir_sectors)` loop of `find_file`
(lines 946-975).  State: current `drive->dir` content, entry index, the
out-parameters `dir_track`/`dir_sector`, and the block counter.  One C
iteration increments the entry, possibly reads the next directory block
(returning false at a track-0 link or a read error), and tests the entry
against the pattern.  Fuel 200 exceeds the at most `9 * max + 9`
iterations of any C execution. -/
def find_file_loop (pattern : List Nat) (p_len maxDirSec : Nat) :
    Nat → Drive → Nat → Nat → Int → Int → Drive × Bool × Int × Int × Nat
  | 0, d, _, e, dt, ds => (d, false, dt, ds, e)
  | fuel+1, d, nblocks, e, dt, ds =>
    if nblocks ≥ maxDirSec then (d, false, dt, ds, e)
    else
      let e1 := e + 1
      if e1 ≥ 8 then
        if d.dir.getD 0 0 = 0 then (d, false, dt, ds, e1)
        else
          let dt1 : Int := (d.dir.getD 0 0 : Nat)
          let ds1 : Int := (d.dir.getD 1 0 : Nat)
          match read_sector d dt1 ds1 with
          | (d2, none) => (d2, false, dt1, ds1, e1)
          | (d2, some blk) =>
            let d3 := { d2 with dir := blk }
            if (blk.getD 2 0 &&& 0x3f) ≠ 0 ∧
                match_pat pattern p_len (fun k => blk.getD (2 + 3 + k) 0) = true then
              (d3, true, dt1, ds1, 0)
            else find_file_loop pattern p_len maxDirSec fuel d3 (nblocks + 1) 0 dt1 ds1
      else
        if (d.dir.getD (2 + e1 * 32) 0 &&& 0x3f) ≠ 0 ∧
            match_pat pattern p_len (fun k => d.dir.getD (2 + e1 * 32 + 3 + k) 0) = true then
          (d, true, dt, ds, e1)
        else find_file_loop pattern p_len maxDirSec fuel d nblocks e1 dt ds

/-- `find_file` (lines 927-976). -/
def find_file (d : Drive) (pattern : List Nat) (p_len : Nat) (entry : Nat)
    (dt ds : Int) (cont : Bool) : Drive × Bool × Int × Int × Nat :=
  let fdt : Nat := if d.desc.type = .d81 then D81_DIR_TRACK else DIR_TRACK
  let fds : Nat := if d.desc.type = .d81 then 3 else 1
  let maxDirSec : Nat :=
    if d.desc.type = .d81 then D81_SECTORS_PER_TRACK else numSectors DIR_TRACK
  if cont then find_file_loop pattern p_len maxDirSec 200 d 0 entry dt ds
  else
    let d1 := { d with dir := (d.dir.set 0 fdt).set 1 fds }
    find_file_loop pattern p_len maxDirSec 200 d1 0 8 dt ds

def find_first_file (d : Drive) (pattern : List Nat) (p_len : Nat) :
    Drive × Bool × Int × Int × Nat :=
  find_file d pattern p_len 0 0 0 false

def find_next_file (d : Drive) (pattern : List Nat) (p_len : Nat) (entry : Nat)
    (dt ds : Int) : Drive × Bool × Int × Int × Nat :=
  find_file d pattern p_len entry dt ds true

/-! ## Directory entry allocation and file creation (lines 993-1118) -/

inductive DirScanOut
  | failed (d : Drive)
  | found (d : Drive) (track sector : Int) (entry : Nat)
  | chainEnd (d : Drive) (track sector : Int)

/-- The `while (dir[0])` scan of `alloc_dir_entry`: read each directory
block (recording it in the `track`/`sector` out-parameters) and look for a
zero-type entry slot. -/
def alloc_dir_entry_scan : Nat → Drive → Int → Int → DirScanOut
  | 0, d, _, _ => .failed d
  | fuel+1, d, ct, cs =>
    if d.dir.getD 0 0 = 0 then .chainEnd d ct cs
    else
      let t1 : Int := (d.dir.getD 0 0 : Nat)
      let s1 : Int := (d.dir.getD 1 0 : Nat)
      match read_sector d t1 s1 with
      | (d2, none) => .failed d2
      | (d2, some blk) =>
        let d3 := { d2 with dir := blk }
        match (List.range 8).find? (fun e => blk.getD (2 + e * 32) 0 = 0) with
        | some e => .found d3 t1 s1 e
        | none => alloc_dir_entry_scan fuel d3 t1 s1

/-- `alloc_dir_entry` (lines 993-1032): scan for a free slot; if the chain
is exhausted, allocate a fresh directory block with the directory
interleave, link it from the old tail and zero-initialize it. -/
def alloc_dir_entry (d : Drive) : Drive × Option (Int × Int × Nat) :=
  let fdt : Nat := if d.desc.type = .d81 then D81_DIR_TRACK else DIR_TRACK
  let fds : Nat := if d.desc.type = .d81 then 3 else 1
  let d0 := { d with dir := (d.dir.set 0 fdt).set 1 fds }
  match alloc_dir_entry_scan 200 d0 0 0 with
  | .failed d1 => (d1, none)
  | .found d1 t s e => (d1, some (t, s, e))
  | .chainEnd d1 lt ls =>
    let il : Int := if d.desc.type = .d81 then (D81_INTERLEAVE : Nat) else DIR_INTERLEAVE
    let r := drive_alloc_next_block d1 lt ls il
    let d2 := r.1
    if ¬ r.2.1 then (d2, none)
    else
      let t := r.2.2.1
      let s := r.2.2.2
      let dirW := (d2.dir.set 0 t.toNat).set 1 s.toNat
      let d3 := { d2 with dir := dirW }
      let (d4, _) := write_sector d3 lt ls dirW
      let newDir := (List.replicate 256 0).set 1 255
      let d5 := { d4 with dir := newDir }
      let (d6, _) := write_sector d5 t s newDir
      (d6, some (t, s, 0))

/-- `open_file_ts` (lines 1037-1055). -/
def open_file_ts (d : Drive) (channel : Nat) (track sector : Int) : Drive × Nat :=
  let (d1, buf) := alloc_buffer d (-1)
  if buf = -1 then (d64_drive_set_error d1 .ERR_NOCHANNEL 0 0, ST_OK)
  else
    let nbuf := ((List.replicate 256 0).set 0 track.toNat).set 1 sector.toNat
    let c1 := { (d1.ch channel) with
      buf_num := buf.toNat, buf := nbuf, mode := ChMod.file, buf_len := 0 }
    ({ d1 with ch := updCh d1.ch channel c1 }, ST_OK)

/-- The tail of `create_file` after the optional directory-slot allocation
(lines 1082-1117): allocate the first data block starting the search just
before the directory track, write the provisional directory entry (type
bit 7 clear, the first block under the shadow track/sector when
overwriting), and arm the channel for writing. -/
def create_file_body (d : Drive) (channel : Nat) (name : List Nat) (name_len : Nat)
    (ftype : Nat) (overwrite : Bool) (buf : Nat) : Drive × Nat :=
  let dirTL : Int := if d.desc.type = .d81 then (D81_DIR_TRACK : Nat) else DIR_TRACK
  let il : Int := if d.desc.type = .d81 then (D81_INTERLEAVE : Nat) else DATA_INTERLEAVE
  let c1 := { (d.ch channel) with track := dirTL - 1, sector := -il }
  let d1 := { d with ch := updCh d.ch channel c1 }
  let r := drive_alloc_next_block d1 c1.track c1.sector il
  let d2 := r.1
  if ¬ r.2.1 then (free_buffer d2 buf, ST_OK)
  else
    let t := r.2.2.1
    let s := r.2.2.2
    let c2 := { (d2.ch channel) with track := t, sector := s, num_blocks := 1 }
    let e := c2.entry
    let base := 2 + e * 32
    let dir1 := lfill d2.dir base 32 0
    let dir2 := dir1.set base ftype
    let dir3 := if overwrite then (dir2.set (base + 26) t.toNat).set (base + 27) s.toNat
                else (dir2.set (base + 1) t.toNat).set (base + 2) s.toNat
    let dir4 := lfill dir3 (base + 3) 16 0xa0
    let dir5 := lsetRange dir4 (base + 3) (name.take (min name_len 16))
    let d3 := { d2 with dir := dir5, ch := updCh d2.ch channel c2 }
    let (d4, _) := write_sector d3 c2.dir_track c2.dir_sector dir5
    let c3 := { (d4.ch channel) with
      mode := ChMod.file, writing := true, buf_pos := 2, buf_len := 2 }
    ({ d4 with ch := updCh d4.ch channel c3 }, ST_OK)

/-- `create_file` (lines 1060-1118). -/
def create_file (d : Drive) (channel : Nat) (name : List Nat) (name_len : Nat)
    (ftype : Nat) (overwrite : Bool) : Drive × Nat :=
  let (d1, buf) := alloc_buffer d (-1)
  if buf = -1 then (d64_drive_set_error d1 .ERR_NOCHANNEL 0 0, ST_OK)
  else
    let c1 := { (d1.ch channel) with buf_num := buf.toNat, buf := List.replicate 256 0 }
    let d2 := { d1 with ch := updCh d1.ch channel c1 }
    if ¬ overwrite then
      match alloc_dir_entry d2 with
      | (d3, none) => (free_buffer d3 buf.toNat, ST_OK)
      | (d3, some (t, s, e)) =>
        let c2 := { (d3.ch channel) with dir_track := t, dir_sector := s, entry := e }
        create_file_body { d3 with ch := updCh d3.ch channel c2 }
          channel name name_len ftype overwrite buf.toNat
    else create_file_body d2 channel name name_len ftype overwrite buf.toNat

/-! ## Directory listing synthesis (lines 1123-1289) -/

def typeChar1 : List Nat := [68,83,80,85,82,69,69,82]  -- "DSPUREER"
def typeChar2 : List Nat := [69,69,82,83,69,76,81,71]  -- "EERSELQG"
def typeChar3 : List Nat := [76,81,71,82,76,63,63,63]  -- "LQGRL???"

/-- The quoted-name rendering of a listing line: the first `0xa0` pad byte
becomes the closing quote (`m` records that it was emitted), later pads
become spaces, and a full-length name is closed by a quote after it. -/
def dir_name_render (nm : Nat → Nat) : Nat → Bool → List Nat
  | 0, m => if m then [32] else [34]
  | k+1, m =>
    let c := nm (16 - (k + 1))
    if c = 0xa0 then
      if m then 32 :: dir_name_render nm k m
      else 34 :: dir_name_render nm k true
    else c :: dir_name_render nm k m

/-- One entry line of the `$` listing (lines 1206-1257): dummy link, block
count as line number, alignment spaces, quoted name, open-file `*` marker,
3-letter type, lock `<` marker, trailing spaces and terminator. -/
def dir_entry_line (de : Nat → Nat) : List Nat :=
  let n := de 29 * 256 + de 28
  [1, 1, de 28, de 29, 32]
  ++ (if n < 10 then [32] else []) ++ (if n < 100 then [32] else [])
  ++ [34] ++ dir_name_render (fun i => de (3 + i)) 16 false
  ++ [if de 0 &&& 0x80 ≠ 0 then 32 else 42]
  ++ [typeChar1.getD (de 0 &&& 7) 0, typeChar2.getD (de 0 &&& 7) 0,
      typeChar3.getD (de 0 &&& 7) 0]
  ++ [if de 0 &&& 0x40 ≠ 0 then 60 else 32]
  ++ [32] ++ (if n ≥ 10 then [32] else []) ++ (if n ≥ 100 then [32] else [])
  ++ [0]

/-- The directory block scan of `open_directory` (lines 1195-1260): follow
the chain from its root while the link track is nonzero and fewer than
`max_dir_sectors` blocks were visited, appending a line for every entry
with a nonzero type byte that matches the pattern; a read error stops the
scan.  `link` is the local `dir_buf` whose first two bytes hold the next
block address. -/
def dir_scan (pattern : List Nat) (plen maxDirSec : Nat) :
    Nat → Drive → List Nat → Nat → Drive × List Nat
  | 0, d, _, _ => (d, [])
  | fuel+1, d, link, nblocks =>
    if link.getD 0 0 = 0 ∨ nblocks ≥ maxDirSec then (d, [])
    else
      match read_sector d ((link.getD 0 0 : Nat) : Int) ((link.getD 1 0 : Nat) : Int) with
      | (d2, none) => (d2, [])
      | (d2, some blk) =>
        let lines := (List.range 8).foldl (fun acc j =>
          let de := fun k => blk.getD (2 + j * 32 + k) 0
          if de 0 ≠ 0 ∧ match_pat pattern plen (fun k => de (3 + k)) = true then
            acc ++ dir_entry_line de
          else acc) []
        let r := dir_scan pattern plen maxDirSec fuel d2 blk (nblocks + 1)
        (r.1, lines ++ r.2)

/-- The pattern preprocessing of `open_directory` (lines 1131-1148): an
optional leading `0` drive number, then everything after a `:`; with no
`:` the pattern is `*`. -/
def dir_pattern (pattern0 : List Nat) (plen0 : Nat) : List Nat × Nat :=
  let (pat1, plen1) :=
    if plen0 = 1 ∧ pattern0.getD 0 0 = 48 then (pattern0.drop 1, plen0 - 1)
    else (pattern0, plen0)
  match (pat1.take plen1).findIdx? (fun b => b = 58) with
  | some i => (pat1.drop (i + 1), plen1 - (i + 1))
  | none => ([42], 1)

/-- The disk-name source of the listing title (lines 1160-1171): the D81
header sector (read result ignored on failure; the stale buffer is
modelled as zeros) or the in-RAM BAM disk-name area (`BAM_DISK_NAME` =
144). -/
def dir_header (d : Drive) : Drive × (Nat → Nat) :=
  if d.desc.type = .d81 then
    match read_sector d ((D81_DIR_TRACK : Nat) : Int) 0 with
    | (dx, some b) => (dx, fun i => b.getD (4 + i) 0)
    | (dx, none) => (dx, fun _ => 0)
  else (d, fun i => d.bams.bam (144 + i))

/-- The free-block total of the `BLOCKS FREE.` line (lines 1263-1268):
the loop runs over tracks `1..max_track` where `max_track` is 80 for D81
and the constant 35 otherwise, skipping the directory track. -/
def dir_tail_count (ty : ImageType) (st : BamState) : Nat :=
  let maxT : Nat := if ty = .d81 then D81_NUM_TRACKS else 35
  let dirT : Nat := if ty = .d81 then D81_DIR_TRACK else DIR_TRACK
  (List.range maxT).foldl (fun acc i =>
    if i + 1 ≠ dirT then acc + num_free_blocks ty st ((i + 1 : Nat) : Int)
    else acc) 0

/-- The final `NNNN BLOCKS FREE.` listing line (lines 1270-1287). -/
def dir_tail_line (n : Nat) : List Nat :=
  [1, 1, n % 256, (n / 256) % 256]
    ++ [66,76,79,67,75,83,32,70,82,69,69,46]  -- "BLOCKS FREE."
    ++ List.replicate 13 32 ++ [0, 0, 0]

/-- `open_directory` (lines 1123-1289).  The 8 KB `dir_buf` host allocation
is modelled as always succeeding. -/
def open_directory (d : Drive) (pattern0 : List Nat) (plen0 : Nat) : Drive × Nat :=
  let (pat, plen) := dir_pattern pattern0 plen0
  let (d1, hdr) := dir_header d
  let title0 := [1, 4, 1, 1, 0, 0, 0x12, 34]
    ++ (List.range 23).map (fun i => let c := hdr i; if c = 0xa0 then 32 else c)
  let title := (title0.set (title0.length - 7) 34) ++ [0]
  let fdt : Nat := if d1.desc.type = .d81 then D81_DIR_TRACK else DIR_TRACK
  let fds : Nat := if d1.desc.type = .d81 then 3 else 1
  let maxDirSec : Nat :=
    if d1.desc.type = .d81 then D81_SECTORS_PER_TRACK else numSectors DIR_TRACK
  let link0 := (List.replicate 256 0).set 0 fdt |>.set 1 fds
  let (d2, entryLines) := dir_scan pat plen maxDirSec maxDirSec d1 link0 0
  let lst := title ++ entryLines ++ dir_tail_line (dir_tail_count d2.desc.type d2.bams)
  let c0 := { (d2.ch 0) with
    mode := ChMod.directory, buf := lst, buf_pos := 0, buf_len := lst.length }
  ({ d2 with ch := updCh d2.ch 0 c0 }, ST_OK)

/-- `open_direct` (lines 1294-1319). -/
def open_direct (d : Drive) (channel : Nat) (name : List Nat) : Drive × Nat :=
  let b1 := name.getD 1 0
  let (d1, buf) :=
    if b1 = 0 then alloc_buffer d (-1)
    else if 48 ≤ b1 ∧ b1 ≤ 51 ∧ name.getD 2 0 = 0 then alloc_buffer d ((b1 : Int) - 48)
    else (d, (-1 : Int))
  if buf = -1 then (d64_drive_set_error d1 .ERR_NOCHANNEL 0 0, ST_OK)
  else
    let nbuf := (List.replicate 256 0).set 1 (buf.toNat + 48)
    let c1 := { (d1.ch channel) with
      mode := ChMod.direct, buf := nbuf, buf_num := buf.toNat, buf_len := 1, buf_pos := 1 }
    ({ d1 with ch := updCh d1.ch channel c1 }, ST_OK)

/-! ## File name parsing (lines 1324-1374) -/

/-- The copy loop `while (*p != ',' && src_len-- > 0)`: on a comma the
length is untouched, otherwise it is decremented even by the exiting
test.  Bytes past the supplied buffer read as 0 (the C pointer reads
whatever follows; the only caller passes a larger zero-padded buffer). -/
def pfn_copy (src : List Nat) : Nat → Nat → Int → List Nat → List Nat × Nat × Int
  | 0, pos, rem, acc => (acc, pos, rem)
  | fuel+1, pos, rem, acc =>
    if src.getD pos 0 = 44 then (acc, pos, rem)
    else if rem > 0 then pfn_copy src fuel (pos + 1) (rem - 1) (acc ++ [src.getD pos 0])
    else (acc, pos, rem - 1)

/-- The skip-to-comma loop, same length discipline. -/
def pfn_skip (src : List Nat) : Nat → Nat → Int → Nat × Int
  | 0, pos, rem => (pos, rem)
  | fuel+1, pos, rem =>
    if src.getD pos 0 = 44 then (pos, rem)
    else if rem > 0 then pfn_skip src fuel (pos + 1) (rem - 1)
    else (pos, rem - 1)

/-- Strip trailing CRs. -/
def stripTrailCR (l : List Nat) : List Nat :=
  ((l.reverse).dropWhile (fun b => b = 13)).reverse

/-- The mode/type parameter loop of `d64_parse_file_name` (lines
1352-1373); `mode`, `ftype`, `rec` are the out-parameters. -/
def pfn_params (src : List Nat) : Nat → Nat → Int → Nat → Nat → Nat → Nat × Nat × Nat
  | 0, _, _, mode, ftype, rec => (mode, ftype, rec)
  | fuel+1, pos, rem, mode, ftype, rec =>
    if rem ≤ 0 then (mode, ftype, rec)
    else
      let c := src.getD pos 0
      let st :=
        if c = 68 then (pos, rem, mode, FTYPE_DEL, rec)
        else if c = 83 then (pos, rem, mode, FTYPE_SEQ, rec)
        else if c = 80 then (pos, rem, mode, FTYPE_PRG, rec)
        else if c = 85 then (pos, rem, mode, FTYPE_USR, rec)
        else if c = 76 then
          let sk := pfn_skip src (rem.toNat + 1) pos rem
          let p3 := sk.1 + 1
          let r3 := sk.2 - 1
          let rl := src.getD p3 0
          (p3 + 1, r3 - 1, mode, FTYPE_REL, if r3 - 1 < 0 then 0 else rl)
        else if c = 82 then (pos, rem, FMODE_READ, ftype, rec)
        else if c = 87 then (pos, rem, FMODE_WRITE, ftype, rec)
        else if c = 65 then (pos, rem, FMODE_APPEND, ftype, rec)
        else if c = 77 then (pos, rem, FMODE_M, ftype, rec)
        else (pos, rem, mode, ftype, rec)
      let sk2 := pfn_skip src (st.2.1.toNat + 1) st.1 st.2.1
      pfn_params src fuel (sk2.1 + 1) (sk2.2 - 1) st.2.2.1 st.2.2.2.1 st.2.2.2.2

/-- `d64_parse_file_name`: returns (name, name length, mode, type, record
length); the caller's initial values READ/DEL/0 are folded in (the C
function only overwrites the out-parameters it finds parameters for, and
its one caller initializes them to exactly these values). -/
def d64_parse_file_name (src : List Nat) (src_len : Nat) :
    List Nat × Nat × Nat × Nat × Nat :=
  let ci := (src.take src_len).findIdx? (fun b => b = 58)
  let pr : Nat × Int :=
    match ci with
    | some i => (i + 1, (src_len : Int) - ((i : Int) + 1))
    | none => (0, (src_len : Int))
  let cp := pfn_copy src (pr.2.toNat + 1) pr.1 pr.2 []
  let name := stripTrailCR cp.1
  let pp := pfn_params src (cp.2.2.toNat + 2) (cp.2.1 + 1) (cp.2.2 - 1)
              FMODE_READ FTYPE_DEL 0
  (name, name.length, pp.1, pp.2.1, pp.2.2)

/-! ## open_file (lines 1379-1482) -/

/-- The append-mode seek-to-end loop (lines 1445-1452). -/
def append_seek (channel : Nat) : Nat → Drive → Int → Int → Nat →
    Drive × Bool × Int × Int × Nat
  | 0, d, t, s, nb => (d, false, t, s, nb)
  | fuel+1, d, t, s, nb =>
    let c := d.ch channel
    if c.buf.getD 0 0 = 0 then (d, true, t, s, nb)
    else
      let t1 : Int := (c.buf.getD 0 0 : Nat)
      let s1 : Int := (c.buf.getD 1 0 : Nat)
      match read_sector d t1 s1 with
      | (d2, none) => (d2, false, t1, s1, nb)
      | (d2, some blk) =>
        let d3 := { d2 with ch := updCh d2.ch channel { (d2.ch channel) with buf := blk } }
        append_seek channel fuel d3 t1 s1 (nb + 1)

/-- `open_file` (lines 1379-1482). -/
def open_file (d : Drive) (channel : Nat) (name : List Nat) (name_len : Nat) :
    Drive × Nat :=
  let pr := d64_parse_file_name name name_len
  let pname := pr.1
  let plen := min pr.2.1 16
  let mode0 := pr.2.2.1
  let ftype0 := pr.2.2.2.1
  let mode1 := if channel = 0 ∨ channel = 1 then
                 (if channel = 0 then FMODE_READ else FMODE_WRITE) else mode0
  let ftype1 := if (channel = 0 ∨ channel = 1) ∧ ftype0 = FTYPE_DEL then FTYPE_PRG else ftype0
  let wr := mode1 = FMODE_WRITE ∨ mode1 = FMODE_APPEND
  let d1 := { d with ch := updCh d.ch channel { (d.ch channel) with writing := wr } }
  if wr ∧ ((pname.take plen).contains 42 ∨ (pname.take plen).contains 63) then
    (d64_drive_set_error d1 .ERR_SYNTAX33 0 0, ST_OK)
  else if wr ∧ d1.write_protected then
    (d64_drive_set_error d1 .ERR_WRITEPROTECT 0 0, ST_OK)
  else if ftype1 = FTYPE_REL then
    (d64_drive_set_error d1 .ERR_UNIMPLEMENTED 0 0, ST_OK)
  else
    let ff := find_first_file d1 pname plen
    let d2 := ff.1
    if ff.2.1 then
      let dt := ff.2.2.1
      let ds := ff.2.2.2.1
      let e := ff.2.2.2.2
      let c := { (d2.ch channel) with dir_track := dt, dir_sector := ds, entry := e }
      let d3 := { d2 with ch := updCh d2.ch channel c }
      let de := fun k => d3.dir.getD (2 + e * 32 + k) 0
      let ftype2 := if ftype1 = FTYPE_DEL then de 0 &&& 7 else ftype1
      if (de 0 &&& 7) ≠ ftype2 then (d64_drive_set_error d3 .ERR_FILETYPE 0 0, ST_OK)
      else if mode1 = FMODE_WRITE then
        if name.getD 0 0 = 64 then create_file d3 channel pname plen ftype2 true
        else (d64_drive_set_error d3 .ERR_FILEEXISTS 0 0, ST_OK)
      else if mode1 = FMODE_APPEND then
        let r0 := open_file_ts d3 channel ((de 1 : Nat) : Int) ((de 2 : Nat) : Int)
        let sk := append_seek channel 800 r0.1 0 0 0
        if ¬ sk.2.1 then (sk.1, ST_OK)
        else
          let d4 := sk.1
          let c2 := d4.ch channel
          let bl := c2.buf.getD 1 0 + 1
          let c3 := { c2 with
            writing := true, buf_len := bl, buf_pos := bl,
            track := sk.2.2.1, sector := sk.2.2.2.1, num_blocks := sk.2.2.2.2 }
          ({ d4 with ch := updCh d4.ch channel c3 }, ST_OK)
      else if mode1 = FMODE_M then
        open_file_ts d3 channel ((de 1 : Nat) : Int) ((de 2 : Nat) : Int)
      else
        if de 0 &&& 0x80 ≠ 0 then
          open_file_ts d3 channel ((de 1 : Nat) : Int) ((de 2 : Nat) : Int)
        else (d64_drive_set_error d3 .ERR_WRITEFILEOPEN 0 0, ST_OK)
    else
      let ftype2 := if ftype1 = FTYPE_DEL then FTYPE_SEQ else ftype1
      if mode1 = FMODE_WRITE then create_file d2 channel pname plen ftype2 false
      else (d64_drive_set_error d2 .ERR_FILENOTFOUND 0 0, ST_OK)

/-! ## BAM flush, reset, DOS commands (lines 262-303, 1729-1840) -/

def bam_as_list (f : Nat → Nat) : List Nat := (List.range 256).map f

/-- The dirty-BAM write-back shared by reset and unmount (guarded by
`file_open` in both callers). -/
def flush_bam (d : Drive) : Drive :=
  if d.file_open then
    if d.desc.type = .d81 then
      let d1 := if d.bams.bam_dirty then
          let r := write_sector d ((D81_DIR_TRACK : Nat) : Int) 1 (bam_as_list d.bams.bam)
          { r.1 with bams := { r.1.bams with bam_dirty := false } }
        else d
      if d1.bams.bam2_dirty then
        let r := write_sector d1 ((D81_DIR_TRACK : Nat) : Int) 2 (bam_as_list d1.bams.bam2)
        { r.1 with bams := { r.1.bams with bam2_dirty := false } }
      else d1
    else if d.bams.bam_dirty then
      let r := write_sector d ((DIR_TRACK : Nat) : Int) 0 (bam_as_list d.bams.bam)
      { r.1 with bams := { r.1.bams with bam_dirty := false } }
    else d
  else d

/-- Re-read the BAM mirror(s) from disk (read failures leave the mirrors
unchanged, as the unchecked `read_sector` calls do). -/
def reread_bam (d : Drive) : Drive :=
  if d.desc.type = .d81 then
    let d1 := match read_sector d ((D81_DIR_TRACK : Nat) : Int) 1 with
      | (dx, some b) => { dx with bams := { dx.bams with bam := fun i => b.getD i 0 } }
      | (dx, none) => dx
    match read_sector d1 ((D81_DIR_TRACK : Nat) : Int) 2 with
    | (dx, some b) => { dx with bams := { dx.bams with bam2 := fun i => b.getD i 0 } }
    | (dx, none) => dx
  else
    match read_sector d ((DIR_TRACK : Nat) : Int) 0 with
    | (dx, some b) => { dx with bams := { dx.bams with bam := fun i => b.getD i 0 } }
    | (dx, none) => dx

/-- `d64_drive_reset` (lines 262-303).  The `memset(ram)` clears buffer
RAM whose stale content is not separately modelled. -/
def d64_drive_reset (d : Drive) : Drive :=
  let d1 := close_all_channels d
  let d2 := { d1 with cmd_buf := [], buf_free := fun _ => true }
  let d3 := flush_bam d2
  let d4 := if d3.file_open then reread_bam d3 else d3
  d64_drive_set_error d4 .ERR_STARTUP 0 0

/-- The scratch do-while body (lines 1816-1825): skip locked entries,
free the data chain and the (side-sector) chain, zero the type byte,
write the directory block back, count, and continue with the next match. -/
def scratch_loop (files : List Nat) (flen : Nat) :
    Nat → Drive → Int → Int → Nat → Nat → Drive × Nat
  | 0, d, _, _, _, n => (d, n)
  | fuel+1, d, dt, ds, e, n =>
    let de := fun k => d.dir.getD (2 + e * 32 + k) 0
    let step : Drive × Nat :=
      if de 0 &&& 0x40 ≠ 0 then (d, n)
      else
        let r1 := free_block_chain d 4000 ((de 1 : Nat) : Int) ((de 2 : Nat) : Int)
        let r2 := free_block_chain r1.1 4000 ((de 19 : Nat) : Int) ((de 20 : Nat) : Int)
        let d3 := { r2.1 with dir := (r2.1.dir).set (2 + e * 32) 0 }
        let w := write_sector d3 dt ds d3.dir
        (w.1, n + 1)
    match find_next_file step.1 files flen e dt ds with
    | (d5, true, dt2, ds2, e2) => scratch_loop files flen fuel d5 dt2 ds2 e2 step.2
    | (d5, false, _, _, _) => (d5, step.2)

/-- The `'I'` (initialize) command body (lines 1743-1763). -/
def initialize_cmd (d : Drive) : Drive :=
  let d1 := close_all_channels d
  if d1.desc.type = .d81 then
    let da := if d1.bams.bam_dirty then
        let r := write_sector d1 ((D81_DIR_TRACK : Nat) : Int) 1 (bam_as_list d1.bams.bam)
        { r.1 with bams := { r.1.bams with bam_dirty := false } }
      else d1
    let db := if da.bams.bam2_dirty then
        let r := write_sector da ((D81_DIR_TRACK : Nat) : Int) 2 (bam_as_list da.bams.bam2)
        { r.1 with bams := { r.1.bams with bam2_dirty := false } }
      else da
    reread_bam db
  else
    let da := if d1.bams.bam_dirty then
        let r := write_sector d1 ((DIR_TRACK : Nat) : Int) 0 (bam_as_list d1.bams.bam)
        { r.1 with bams := { r.1.bams with bam_dirty := false } }
      else d1
    reread_bam da

/-- `d64_execute_cmd` (lines 1729-1840). -/
def d64_execute_cmd (d : Drive) (cmd0 : List Nat) (cmd_len0 : Nat) : Drive :=
  let cmd := stripTrailCR (cmd0.take cmd_len0)
  let cmd_len := cmd.length
  let d0 := d64_drive_set_error d .ERR_OK 0 0
  let colon := cmd.findIdx? (fun b => b = 58)
  let minusIdx := cmd.findIdx? (fun b => b = 45)
  let c0 := cmd.getD 0 0
  if c0 = 73 then initialize_cmd d0                 -- 'I'
  else if c0 = 85 then                              -- 'U'
    let c1 := cmd.getD 1 0
    if c1 = 48 then d0
    else if (c1 &&& 0x0f) = 9 ∨ (c1 &&& 0x0f) = 10 then d64_drive_reset d0
    else d64_drive_set_error d0 .ERR_UNIMPLEMENTED 0 0
  else if c0 = 66 then                              -- 'B'
    if minusIdx = none then d64_drive_set_error d0 .ERR_SYNTAX31 0 0
    else d64_drive_set_error d0 .ERR_UNIMPLEMENTED 0 0
  else if c0 = 77 ∨ c0 = 86 ∨ c0 = 78 then          -- 'M' 'V' 'N'
    d64_drive_set_error d0 .ERR_UNIMPLEMENTED 0 0
  else if c0 = 83 then                              -- 'S'
    match colon with
    | none => d64_drive_set_error d0 .ERR_SYNTAX34 0 0
    | some ci =>
      let files := cmd.drop (ci + 1)
      let flen := cmd_len - (ci + 1)
      if d0.write_protected then d64_drive_set_error d0 .ERR_WRITEPROTECT 0 0
      else
        let ff := find_first_file d0 files flen
        let r := if ff.2.1 then
            scratch_loop files flen 200 ff.1 ff.2.2.1 ff.2.2.2.1 ff.2.2.2.2 0
          else (ff.1, 0)
        d64_drive_set_error r.1 .ERR_SCRATCHED ((r.2 : Nat) : Int) 0
  else if c0 = 82 ∨ c0 = 67 then                    -- 'R' 'C'
    d64_drive_set_error d0 .ERR_UNIMPLEMENTED 0 0
  else d64_drive_set_error d0 .ERR_SYNTAX31 0 0

/-! ## Channel open/read/write dispatchers (lines 1487-1724) -/

/-- `d64_drive_open` (lines 1487-1517). -/
def d64_drive_open (d : Drive) (channel : Nat) (name : List Nat) (name_len : Nat) :
    Drive × Nat :=
  let d0 := d64_drive_set_error d .ERR_OK 0 0
  if channel = 15 then (d64_execute_cmd d0 name name_len, ST_OK)
  else if (d0.ch channel).mode ≠ .free then
    (d64_drive_set_error d0 .ERR_NOCHANNEL 0 0, ST_OK)
  else if name.getD 0 0 = 36 then                   -- '$'
    if channel ≠ 0 then
      let dtr : Int := if d0.desc.type = .d81 then (D81_DIR_TRACK : Nat) else DIR_TRACK
      open_file_ts d0 channel dtr 0
    else open_directory d0 (name.drop 1) (name_len - 1)
  else if name.getD 0 0 = 35 then open_direct d0 channel name   -- '#'
  else open_file d0 channel name name_len

/-- Deliver one byte from a FILE channel buffer (lines 1626-1634). -/
def read_deliver (d : Drive) (channel : Nat) : Drive × Option Nat × Nat :=
  let c := d.ch channel
  if c.buf_len > 0 then
    let b := c.buf.getD c.buf_pos 0
    let c1 := { c with buf_pos := c.buf_pos + 1, buf_len := c.buf_len - 1 }
    let d1 := { d with ch := updCh d.ch channel c1 }
    if c1.buf_len = 0 ∧ c1.buf.getD 0 0 = 0 then (d1, some b, ST_EOF)
    else (d1, some b, ST_OK)
  else (d, none, ST_READ_TIMEOUT)

/-- Deliver one byte from a DIRECTORY/DIRECT channel buffer (lines
1636-1646). -/
def read_dir_deliver (d : Drive) (channel : Nat) : Drive × Option Nat × Nat :=
  let c := d.ch channel
  if c.buf_len > 0 then
    let b := c.buf.getD c.buf_pos 0
    let c1 := { c with buf_pos := c.buf_pos + 1, buf_len := c.buf_len - 1 }
    let d1 := { d with ch := updCh d.ch channel c1 }
    if c1.buf_len ≠ 0 then (d1, some b, ST_OK) else (d1, some b, ST_EOF)
  else (d, none, ST_READ_TIMEOUT)

/-- `d64_drive_read` (lines 1592-1652): the returned `Option Nat` is the
byte written through the out-pointer (`none` when it is left untouched).
For the COMMAND channel the C pre-decrement of `error_len` is modelled
with the length always ≥ 1 after `set_error`, which every reachable state
satisfies. -/
def d64_drive_read (d : Drive) (channel : Nat) : Drive × Option Nat × Nat :=
  match (d.ch channel).mode with
  | .free =>
    if d.current_error = .ERR_OK then
      (d64_drive_set_error d .ERR_FILENOTOPEN 0 0, none, ST_READ_TIMEOUT)
    else (d, none, ST_READ_TIMEOUT)
  | .command =>
    let b := d.error_buf.getD d.error_pos 0
    let d1 := { d with error_pos := d.error_pos + 1, error_len := d.error_len - 1 }
    if d1.error_len ≠ 0 then (d1, some b, ST_OK)
    else (d64_drive_set_error d1 .ERR_OK 0 0, some b, ST_EOF)
  | .file =>
    let c := d.ch channel
    if c.writing then (d, none, ST_READ_TIMEOUT)
    else if d.current_error ≠ .ERR_OK then (d, none, ST_READ_TIMEOUT)
    else
      if c.buf_len = 0 ∧ c.buf.getD 0 0 ≠ 0 then
        match read_sector d ((c.buf.getD 0 0 : Nat) : Int) ((c.buf.getD 1 0 : Nat) : Int) with
        | (d2, none) => (d2, none, ST_READ_TIMEOUT)
        | (d2, some blk) =>
          let bl := if blk.getD 0 0 ≠ 0 then 254 else blk.getD 1 0 - 1
          let c2 := { (d2.ch channel) with buf := blk, buf_pos := 2, buf_len := bl }
          read_deliver { d2 with ch := updCh d2.ch channel c2 } channel
      else read_deliver d channel
  | .directory => read_dir_deliver d channel
  | .direct => read_dir_deliver d channel
  | .rel => (d, none, ST_READ_TIMEOUT)

/-- `d64_drive_write` (lines 1657-1724). -/
def d64_drive_write (d : Drive) (channel : Nat) (byte : Nat) (eoi : Bool) :
    Drive × Nat :=
  match (d.ch channel).mode with
  | .free =>
    if d.current_error = .ERR_OK then
      (d64_drive_set_error d .ERR_FILENOTOPEN 0 0, ST_TIMEOUT)
    else (d, ST_TIMEOUT)
  | .command =>
    if d.cmd_buf.length > 58 then (d64_drive_set_error d .ERR_SYNTAX32 0 0, ST_TIMEOUT)
    else
      let d1 := { d with cmd_buf := d.cmd_buf ++ [byte] }
      if eoi then
        let d2 := d64_execute_cmd d1 d1.cmd_buf d1.cmd_buf.length
        ({ d2 with cmd_buf := [] }, ST_OK)
      else (d1, ST_OK)
  | .directory => (d64_drive_set_error d .ERR_WRITEFILEOPEN 0 0, ST_TIMEOUT)
  | .file =>
    let c := d.ch channel
    if ¬ c.writing then (d, ST_TIMEOUT)
    else if d.current_error ≠ .ERR_OK then (d, ST_TIMEOUT)
    else
      if c.buf_len ≥ 256 then
        let il : Int := if d.desc.type = .d81 then (D81_INTERLEAVE : Nat) else DATA_INTERLEAVE
        let r := drive_alloc_next_block d c.track c.sector il
        let d1 := r.1
        if ¬ r.2.1 then (d1, ST_TIMEOUT)
        else
          let t := r.2.2.1
          let s := r.2.2.2
          let c1 := d1.ch channel
          let buf1 := (c1.buf.set 0 t.toNat).set 1 s.toNat
          let c2 := { c1 with num_blocks := c1.num_blocks + 1, buf := buf1 }
          let d2 := { d1 with ch := updCh d1.ch channel c2 }
          let w := write_sector d2 c2.track c2.sector buf1
          let c3 := { (w.1.ch channel) with
            buf := ((w.1.ch channel).buf.set 2 byte), buf_pos := 3, buf_len := 3,
            track := t, sector := s }
          ({ w.1 with ch := updCh w.1.ch channel c3 }, ST_OK)
      else
        let c1 := { c with
          buf := c.buf.set c.buf_pos byte, buf_pos := c.buf_pos + 1, buf_len := c.buf_len + 1 }
        ({ d with ch := updCh d.ch channel c1 }, ST_OK)
  | .direct =>
    let c := d.ch channel
    if c.buf_len < 256 then
      let c1 := { c with
        buf := c.buf.set c.buf_pos byte, buf_pos := c.buf_pos + 1, buf_len := c.buf_len + 1 }
      ({ d with ch := updCh d.ch channel c1 }, ST_OK)
    else (d, ST_TIMEOUT)
  | .rel => (d, ST_TIMEOUT)

/-! ## Image parsing and mount (lines 308-526, 1845-1860) -/

def x64_signature : List Nat := [0x43, 0x15, 0x41, 0x64, 0x01, 0x02]

/-- The format-selection branches of `parse_image_file` (lines 444-506):
X64 signature first (track byte 35-40 required), then the exact D81 and
D64 sizes. -/
def parse_image_core (file : List Nat) : Option ImageFileDesc :=
  let size := file.length
  if file.take 6 = x64_signature then
    let nt := file.getD 7 0
    if nt < 35 ∨ nt > 40 then none
    else some { type := .x64, header_size := 64, num_tracks := nt,
                has_error_info := false, error_info := fun _ => 1 }
  else if size = D81_SIZE ∨ size = D81_SIZE_ERR then
    some { type := .d81, header_size := 0, num_tracks := D81_NUM_TRACKS,
           has_error_info := size = D81_SIZE_ERR,
           error_info := if size = D81_SIZE_ERR then
               (fun i => if i < NUM_SECTORS_D81 then file.getD (D81_SIZE + i) 0 else 1)
             else fun _ => 1 }
  else if size = D64_SIZE_35 ∨ size = D64_SIZE_35_ERR ∨
          size = D64_SIZE_40 ∨ size = D64_SIZE_40_ERR then
    some { type := .d64, header_size := 0,
           num_tracks := if size = D64_SIZE_40 ∨ size = D64_SIZE_40_ERR then 40 else 35,
           has_error_info := size = D64_SIZE_35_ERR ∨ size = D64_SIZE_40_ERR,
           error_info :=
             if size = D64_SIZE_35_ERR then
               (fun i => if i < NUM_SECTORS_35 then file.getD (D64_SIZE_35 + i) 0 else 1)
             else if size = D64_SIZE_40_ERR then
               (fun i => if i < NUM_SECTORS_40 then file.getD (D64_SIZE_40 + i) 0 else 1)
             else fun _ => 1 }
  else none

/-- `parse_image_file` (lines 422-526) on the image file's bytes (the
`f_stat` size equals the byte count).  The header read fails for files
shorter than 64 bytes; the final disk-ID read from the BAM/header sector
is ignored when it would run past EOF, leaving the IDs zero. -/
def parse_image_file (file : List Nat) : Option ImageFileDesc :=
  if file.length < 64 then none
  else
    match parse_image_core file with
    | none => none
    | some dsc =>
      let bamTrack : Int := if dsc.type = .d81 then (D81_DIR_TRACK : Nat) else DIR_TRACK
      let off := d64_offset_from_ts dsc bamTrack 0
      if off + 256 ≤ file.length then
        if dsc.type = .d81 then
          some { dsc with id1 := file.getD (off + 22) 0, id2 := file.getD (off + 23) 0 }
        else
          some { dsc with id1 := file.getD (off + 162) 0, id2 := file.getD (off + 163) 0 }
      else some dsc

/-- `d64_drive_unmount` (lines 378-408). -/
def d64_drive_unmount (d : Drive) : Drive :=
  let d1 := if d.file_open then
      { (flush_bam (close_all_channels d)) with file_open := false }
    else d
  d64_drive_set_error { d1 with ready := false } .ERR_NOTREADY 0 0

/-- `d64_drive_mount` (lines 308-373) on an image given as its byte list:
unmount, open the host file (modelled reliable, read/write), parse, build
the sector map from the parsed geometry, load the BAM mirror(s), and mark
the drive ready. -/
def d64_drive_mount_model (d : Drive) (file : List Nat) : Drive × Bool :=
  let d0 := d64_drive_unmount d
  let d1 := { d0 with write_protected := false, file_open := true }
  match parse_image_file file with
  | none => ({ d1 with file_open := false }, false)
  | some dsc =>
    let d2 := { d1 with
      desc := dsc, file_size := file.length,
      disk := fun t s =>
        (file.drop (d64_offset_from_ts dsc ((t : Nat) : Int) ((s : Nat) : Int))).take 256 }
    if dsc.type = .d81 then
      match read_sector d2 ((D81_DIR_TRACK : Nat) : Int) 1 with
      | (dx, none) => ({ dx with file_open := false }, false)
      | (dx, some b1) =>
        match read_sector dx ((D81_DIR_TRACK : Nat) : Int) 2 with
        | (dy, none) => ({ dy with file_open := false }, false)
        | (dy, some b2) =>
          let nbams : BamState := { dy.bams with
            bam := fun i => b1.getD i 0, bam2 := fun i => b2.getD i 0,
            bam_dirty := false, bam2_dirty := false }
          let d3 := { dy with bams := nbams }
          (d64_drive_set_error { d3 with ready := true } .ERR_OK 0 0, true)
    else
      match read_sector d2 ((DIR_TRACK : Nat) : Int) 0 with
      | (dx, none) => ({ dx with file_open := false }, false)
      | (dx, some b1) =>
        let d3 := { dx with bams := { dx.bams with
          bam := fun i => b1.getD i 0, bam_dirty := false } }
        (d64_drive_set_error { d3 with ready := true } .ERR_OK 0 0, true)

/-- `d64_drive_is_mounted`. -/
def d64_drive_is_mounted (d : Drive) : Bool := d.file_open && d.ready

/-- `d64_is_disk_image` (lines 1845-1860): signature or exact-size check
on a candidate file's header bytes and size. -/
def d64_is_disk_image (header : List Nat) (size : Nat) : Bool :=
  if header.take 6 = x64_signature then true
  else if size = D81_SIZE ∨ size = D81_SIZE_ERR then true
  else decide (size = D64_SIZE_35 ∨ size = D64_SIZE_35_ERR ∨
               size = D64_SIZE_40 ∨ size = D64_SIZE_40_ERR)

/-! ## A concrete scenario: a freshly formatted, mounted 35-track D64

The directory track holds only the BAM sector (18,0) and the empty first
directory sector (18,1); every other block is free.  This is the state the
round-trip (C1), EOI (C3) and scratch (C8 witness) scenarios start from. -/

/-- Byte `j` (0 = free count, 1-3 = bitmap) of the BAM entry of track `t`
on the fresh disk: all sectors free except sectors 0 and 1 of track 18. -/
def freshTrackByte (t j : Nat) : Nat :=
  if j = 0 then (if t = 18 then 17 else numSectors t)
  else
    let lo := 8 * (j - 1)
    let n := numSectors t
    let base := if n ≤ lo then 0 else if lo + 8 ≤ n then 255 else 2 ^ (n - lo) - 1
    if t = 18 ∧ j = 1 then base - 3 else base

/-- The 256 BAM-sector bytes of the fresh disk (directory link, DOS format
marker 0x41, 35 track entries, `0xa0`-padded disk name, ID "00", "2A"). -/
def freshBamByte (i : Nat) : Nat :=
  if i = 0 then 18 else if i = 1 then 1 else if i = 2 then 0x41 else if i = 3 then 0
  else if i < 144 then freshTrackByte ((i - 4) / 4 + 1) ((i - 4) % 4)
  else if i < 162 then 0xa0
  else if i < 164 then 48
  else if i = 164 then 0xa0
  else if i = 165 then 50
  else if i = 166 then 65
  else 0

def freshBamSector : List Nat := (List.range 256).map freshBamByte

/-- The fresh disk's sector map. -/
def freshDisk : Nat → Nat → List Nat := fun t s =>
  if t = 18 ∧ s = 0 then freshBamSector
  else if t = 18 ∧ s = 1 then 0 :: 255 :: List.replicate 254 0
  else List.replicate 256 0

/-- The mounted fresh drive. -/
def freshDrive : Drive :=
  { led := .off, ready := true, file_open := true, file_size := D64_SIZE_35,
    write_protected := false,
    desc := { type := .d64, num_tracks := 35 },
    disk := freshDisk,
    bams := { bam := freshBamByte, bam2 := fun _ => 0,
              bam_dirty := false, bam2_dirty := false },
    ch := fun i => if i = 15 then { mode := .command } else {},
    buf_free := fun _ => true,
    error_buf := errMessage .ERR_OK 0 0,
    error_len := (errMessage .ERR_OK 0 0).length,
    error_pos := 0, current_error := .ERR_OK,
    cmd_buf := [], dir := List.replicate 256 0 }

/-! ## Round-trip pipeline (claims C1 and C3) -/

/-- Write a byte list to a channel with `eoi = false` throughout, dropping
the statuses (under the proved invariants every call returns `ST_OK`). -/
def writeList (channel : Nat) : Drive → List Nat → Drive
  | d, [] => d
  | d, b :: bs => writeList channel (d64_drive_write d channel b false).1 bs

/-- Write a byte list passing each byte's EOI flag through (used for the
claim C3 scenario where the final byte carries `eoi = true`). -/
def writeListEoi (channel : Nat) : Drive → List (Nat × Bool) → Drive
  | d, [] => d
  | d, b :: bs => writeListEoi channel (d64_drive_write d channel b.1 b.2).1 bs

/-- Read a channel until the status differs from `ST_OK`, collecting the
delivered bytes (the EOF byte included) and the final status. -/
def readToEof (channel : Nat) : Nat → Drive → List Nat × Nat
  | 0, _ => ([], 999)
  | fuel+1, d =>
    match d64_drive_read d channel with
    | (d1, some b, st) =>
      if st = ST_OK then
        let r := readToEof channel fuel d1
        (b :: r.1, r.2)
      else if st = ST_EOF then ([b], ST_EOF)
      else ([], st)
    | (_, none, st) => ([], st)

def fileNameA : List Nat := [65]  -- "A"

/-- The claim C1 scenario: on the fresh drive, open channel 1 (SAVE, i.e.
write/PRG) with name "A", write the data byte by byte, close the channel,
open channel 0 (LOAD, i.e. read/PRG) with the same name, read to EOF. -/
def c1_pipeline (data : List Nat) : List Nat × Nat :=
  let d1 := (d64_drive_open freshDrive 1 fileNameA 1).1
  let d2 := writeList 1 d1 data
  let d3 := (d64_drive_close d2 1).1
  let d4 := (d64_drive_open d3 0 fileNameA 1).1
  readToEof 0 (data.length + 600) d4

/-- The claim C3 scenario: same, but exactly 3 bytes are written and the
third write call carries `eoi = true`. -/
def c3_pipeline (b1 b2 b3 : Nat) : List Nat × Nat :=
  let d1 := (d64_drive_open freshDrive 1 fileNameA 1).1
  let d2 := writeListEoi 1 d1 [(b1, false), (b2, false), (b3, true)]
  let d3 := (d64_drive_close d2 1).1
  let d4 := (d64_drive_open d3 0 fileNameA 1).1
  readToEof 0 700 d4

/-! ## Offset-mapping facts (claim C7) -/

/-- The accumulated-sector table entry of each track equals the sum of the
sectors of all tracks before it. -/
lemma accumNumSectors_eq_sum : ∀ t, t < 41 →
    accumNumSectors t = ∑ i ∈ Finset.range t, numSectors i := by
  decide

lemma numSectors_le (t : Nat) : numSectors t ≤ 21 := by
  unfold numSectors
  split <;> try omega
  split <;> try omega
  split <;> try omega
  split <;> try omega
  split <;> omega

/-- C7: `d64_offset_from_ts` returns
`header_size + 256 * (accumulated sectors of all tracks before the track
+ sector)` for every in-range D64/X64 pair (with the variable 21/19/18/17
zone geometry), `header_size + 256 * ((track - 1) * 40 + sector)` for
every in-range D81 pair, and the INVALID marker `0xFFFFFFFF` for every
out-of-range track or sector. -/
theorem c7_offset_from_ts (desc : ImageFileDesc) (t s : Int)
    (hnt : desc.type ≠ .d81 → desc.num_tracks ≤ 40) :
    (desc.type ≠ .d81 →
      ((1 ≤ t ∧ t ≤ (desc.num_tracks : Int) ∧ 0 ≤ s ∧ s < (numSectors t.toNat : Int)) →
        d64_offset_from_ts desc t s =
          desc.header_size + 256 * ((∑ i ∈ Finset.range t.toNat, numSectors i) + s.toNat)) ∧
      (¬ (1 ≤ t ∧ t ≤ (desc.num_tracks : Int) ∧ 0 ≤ s ∧ s < (numSectors t.toNat : Int)) →
        d64_offset_from_ts desc t s = INVALID_OFFSET)) ∧
    (desc.type = .d81 →
      ((1 ≤ t ∧ t ≤ 80 ∧ 0 ≤ s ∧ s < 40) →
        d64_offset_from_ts desc t s =
          desc.header_size + 256 * ((t.toNat - 1) * 40 + s.toNat)) ∧
      (¬ (1 ≤ t ∧ t ≤ 80 ∧ 0 ≤ s ∧ s < 40) →
        d64_offset_from_ts desc t s = INVALID_OFFSET)) := by
  constructor
  · intro hty
    rw [d64_offset_from_ts, if_neg hty]
    constructor
    · rintro ⟨h1, h2, h3, h4⟩
      have hb : desc.num_tracks ≤ 40 := hnt hty
      rw [if_neg (by omega)]
      have htle : t.toNat < 41 := by omega
      rw [accumNumSectors_eq_sum t.toNat htle]
      ring
    · intro h
      rw [if_pos (by omega)]
  · intro hty
    rw [d64_offset_from_ts, if_pos hty]
    constructor
    · rintro ⟨h1, h2, h3, h4⟩
      rw [if_neg (by simp only [D81_NUM_TRACKS, D81_SECTORS_PER_TRACK]; omega)]
      simp only [D81_SECTORS_PER_TRACK]
      ring_nf
      omega
    · intro h
      rw [if_pos (by simp only [D81_NUM_TRACKS, D81_SECTORS_PER_TRACK]; omega)]

/-- Witness for C7 at a concrete in-range input. -/
theorem c7_offset_from_ts_witness :
    (({ type := .d64, num_tracks := 35 } : ImageFileDesc).type ≠ .d81 → (35 : Nat) ≤ 40) ∧
    d64_offset_from_ts { type := .d64, num_tracks := 35 } 18 1 =
      0 + 256 * ((∑ i ∈ Finset.range 18, numSectors i) + 1) := by
  refine ⟨fun _ => by norm_num, ?_⟩
  have h := (c7_offset_from_ts { type := .d64, num_tracks := 35 } 18 1
    (fun _ => by norm_num)).1 (by decide)
  have h2 := h.1 (by constructor <;> [decide; constructor <;> [decide; constructor <;> decide]])
  simpa using h2

/-! ## Format recognition (claim C6) -/

/-- The recognition rule stated by the (amended) claim, written from the
spec's words: the X64 signature is checked first and requires a readable
64-byte header and a track byte in 35-40; otherwise the exact file size
selects the format; anything else is rejected. -/
def c6_expected (file : List Nat) : Option (ImageType × Nat × Nat × Bool) :=
  if 64 ≤ file.length ∧ file.take 6 = x64_signature then
    if 35 ≤ file.getD 7 0 ∧ file.getD 7 0 ≤ 40 then
      some (.x64, 64, file.getD 7 0, false)
    else none
  else if file.length = 174848 then some (.d64, 0, 35, false)
  else if file.length = 175531 then some (.d64, 0, 35, true)
  else if file.length = 196608 then some (.d64, 0, 40, false)
  else if file.length = 197376 then some (.d64, 0, 40, true)
  else if file.length = 819200 then some (.d81, 0, 80, false)
  else if file.length = 822400 then some (.d81, 0, 80, true)
  else none

/-- A 64-byte file carrying the X64 signature but a track-count byte of 0:
the claim's signature clause calls it an X64 image, the code rejects it. -/
def c6_bad_x64_file : List Nat := x64_signature ++ [0, 0] ++ List.replicate 56 0

/-- C6 counterexample: a file whose first 6 bytes equal the X64 signature
is NOT always recognized as an X64 image — with a track byte outside
35-40 the parse and the mount fail. -/
theorem c6_counterexample :
    c6_bad_x64_file.take 6 = x64_signature ∧
    (parse_image_file c6_bad_x64_file).isSome = false ∧
    (d64_drive_mount_model {} c6_bad_x64_file).2 = false ∧
    (d64_drive_mount_model {} c6_bad_x64_file).1.ready = false := by
  decide

/-- The format/geometry projection of an image descriptor. -/
def descProj (dsc : ImageFileDesc) : ImageType × Nat × Nat × Bool :=
  (dsc.type, dsc.header_size, dsc.num_tracks, dsc.has_error_info)

lemma parse_map_proj (file : List Nat) :
    (parse_image_file file).map descProj =
      if file.length < 64 then none else (parse_image_core file).map descProj := by
  unfold parse_image_file
  by_cases h : file.length < 64
  · simp [h]
  · simp only [if_neg h]
    rcases hc : parse_image_core file with _ | dsc
    · rfl
    · simp only []
      split_ifs <;> simp [descProj]

lemma parse_core_spec (file : List Nat) :
    (parse_image_core file).map descProj =
      if file.take 6 = x64_signature then
        if 35 ≤ file.getD 7 0 ∧ file.getD 7 0 ≤ 40 then
          some (ImageType.x64, 64, file.getD 7 0, false)
        else none
      else if file.length = 174848 then some (.d64, 0, 35, false)
      else if file.length = 175531 then some (.d64, 0, 35, true)
      else if file.length = 196608 then some (.d64, 0, 40, false)
      else if file.length = 197376 then some (.d64, 0, 40, true)
      else if file.length = 819200 then some (.d81, 0, 80, false)
      else if file.length = 822400 then some (.d81, 0, 80, true)
      else none := by
  unfold parse_image_core
  simp only [show D81_SIZE = 819200 from rfl, show D81_SIZE_ERR = 822400 from rfl,
    show D64_SIZE_35 = 174848 from rfl, show D64_SIZE_35_ERR = 175531 from rfl,
    show D64_SIZE_40 = 196608 from rfl, show D64_SIZE_40_ERR = 197376 from rfl,
    show D81_NUM_TRACKS = 80 from rfl]
  by_cases hsig : file.take 6 = x64_signature
  · simp only [if_pos hsig]
    by_cases hnt : file.getD 7 0 < 35 ∨ file.getD 7 0 > 40
    · rw [if_pos hnt, if_neg (by omega)]; rfl
    · rw [if_neg hnt, if_pos (by omega)]; rfl
  · simp only [if_neg hsig]
    split_ifs <;> simp_all [descProj]

/-- C6 amended: recognition checks the X64 signature before any size
check and additionally requires the X64 track byte in 35-40; otherwise
the exact sizes 174848/175531/196608/197376 select a 35/35/40/40-track
D64 (error info present for the 257-bytes-per-sector sizes) and
819200/822400 select a D81 (822400 with error info); every other
size/signature (including files shorter than 64 bytes, whose header read
fails) fails the parse, and a failed parse leaves the mount unsuccessful
with the drive not ready. -/
theorem c6_amended_recognition (file : List Nat) :
    (parse_image_file file).map descProj = c6_expected file ∧
    (parse_image_file file = none →
      (d64_drive_mount_model {} file).2 = false ∧
      (d64_drive_mount_model {} file).1.ready = false) := by
  constructor
  · rw [parse_map_proj, parse_core_spec, c6_expected]
    by_cases hlen : file.length < 64
    · rw [if_pos hlen, if_neg (fun h => absurd h.1 (by omega))]
      rw [if_neg (by omega), if_neg (by omega), if_neg (by omega),
        if_neg (by omega), if_neg (by omega), if_neg (by omega)]
    · rw [if_neg hlen]
      by_cases hsig : file.take 6 = x64_signature
      · have hc : 64 ≤ file.length ∧ file.take 6 = x64_signature := ⟨by omega, hsig⟩
        rw [if_pos hsig, if_pos hc]
      · rw [if_neg hsig]
        simp only [eq_false hsig, and_false, if_false]
  · intro hnone
    rw [d64_drive_mount_model]
    simp only [hnone]
    exact ⟨trivial, rfl⟩

/-! ## The command/error channel (claim C10) -/

/-- Perform `n` reads on channel 15, collecting (byte, status) pairs (the
command channel always delivers a byte; `getD 0` is never the default). -/
def readErrSeq : Nat → Drive → List (Nat × Nat) × Drive
  | 0, d => ([], d)
  | n+1, d =>
    let r := d64_drive_read d 15
    let rest := readErrSeq n r.1
    ((r.2.1.getD 0, r.2.2) :: rest.1, rest.2)

lemma errMessage_length_pos (e : IecError) (t s : Int) :
    0 < (errMessage e t s).length := by
  simp [errMessage]

/-- One read on the command channel, as an equation. -/
lemma read_command_step (d : Drive) (hm : (d.ch 15).mode = .command) :
    d64_drive_read d 15 =
      if d.error_len - 1 ≠ 0 then
        ({ d with error_pos := d.error_pos + 1, error_len := d.error_len - 1 },
         some (d.error_buf.getD d.error_pos 0), ST_OK)
      else
        (d64_drive_set_error
           { d with error_pos := d.error_pos + 1, error_len := d.error_len - 1 }
           .ERR_OK 0 0,
         some (d.error_buf.getD d.error_pos 0), ST_EOF) := by
  rw [d64_drive_read, hm]

/-- `set_error` overwrites all error fields, so prior error-field updates
are absorbed. -/
lemma set_error_absorb (d : Drive) (p l : Nat) (e : IecError) (t s : Int) :
    d64_drive_set_error { d with error_pos := p, error_len := l } e t s =
      d64_drive_set_error d e t s := by
  rw [d64_drive_set_error, d64_drive_set_error]

/-- Reading the command channel `k` times, where `k` is the remaining
length of the error message, delivers the remaining message bytes in
order, with status OK on all but the last read, EOF on the last, and
leaves the drive reset to the formatted OK message. -/
lemma errorChannelRead (k : Nat) : ∀ (d : Drive),
    (d.ch 15).mode = .command →
    1 ≤ k →
    d.error_len = k →
    d.error_pos + k = d.error_buf.length →
    (readErrSeq k d).1.map Prod.fst = d.error_buf.drop d.error_pos ∧
    (readErrSeq k d).1.map Prod.snd = List.replicate (k - 1) ST_OK ++ [ST_EOF] ∧
    (readErrSeq k d).2 = d64_drive_set_error d .ERR_OK 0 0 := by
  induction k with
  | zero => intro d _ hk; omega
  | succ n ih =>
    intro d hm hk hlen hpos
    have hposlt : d.error_pos < d.error_buf.length := by omega
    have hdrop : d.error_buf.drop d.error_pos =
        d.error_buf.getD d.error_pos 0 :: d.error_buf.drop (d.error_pos + 1) := by
      rw [List.getD_eq_getElem d.error_buf 0 hposlt]
      exact List.drop_eq_getElem_cons hposlt
    rw [readErrSeq, read_command_step d hm, hlen]
    by_cases hn : n = 0
    · subst hn
      rw [if_neg (by omega)]
      refine ⟨?_, rfl, ?_⟩
      · rw [hdrop]
        have : d.error_buf.drop (d.error_pos + 1) = [] := by
          apply List.drop_eq_nil_of_le
          omega
        rw [this]
        rfl
      · show (readErrSeq 0 _).2 = _
        rw [readErrSeq]
        exact set_error_absorb d _ _ _ _ _
    · rw [if_pos (by omega)]
      have ihd := ih { d with error_pos := d.error_pos + 1, error_len := n + 1 - 1 }
        hm (by omega) (by show n + 1 - 1 = n; omega)
        (by show d.error_pos + 1 + n = d.error_buf.length; omega)
      refine ⟨?_, ?_, ?_⟩
      · show _ :: (readErrSeq n _).1.map Prod.fst = _
        rw [ihd.1, hdrop]
        rfl
      · show _ :: (readErrSeq n _).1.map Prod.snd = _
        rw [ihd.2.1]
        show ST_OK :: (List.replicate (n - 1) ST_OK ++ [ST_EOF]) = _
        have : List.replicate (n + 1 - 1) ST_OK = ST_OK :: List.replicate (n - 1) ST_OK := by
          rcases n with _ | m
          · omega
          · rfl
        rw [this]
        rfl
      · show (readErrSeq n _).2 = _
        rw [ihd.2.2]
        exact set_error_absorb d _ _ _ _ _

/-- C10: with the error message freshly formatted into the channel-15
buffer, reading channel 15 returns the message bytes in order with status
OK, the read delivering the final byte returns EOF (0x40) and resets the
stored error to OK, and subsequent reads deliver the formatted
"00, OK,00,00" message. -/
theorem c10_command_channel_read (d : Drive) (e : IecError) (t s : Int)
    (hm : (d.ch 15).mode = .command)
    (hbuf : d.error_buf = errMessage e t s)
    (hpos : d.error_pos = 0)
    (hlen : d.error_len = d.error_buf.length) :
    (readErrSeq d.error_buf.length d).1.map Prod.fst = errMessage e t s ∧
    (readErrSeq d.error_buf.length d).1.map Prod.snd =
      List.replicate (d.error_buf.length - 1) ST_OK ++ [ST_EOF] ∧
    ((readErrSeq d.error_buf.length d).2).current_error = .ERR_OK ∧
    ((readErrSeq d.error_buf.length d).2).error_buf = errMessage .ERR_OK 0 0 ∧
    (readErrSeq (errMessage .ERR_OK 0 0).length
        ((readErrSeq d.error_buf.length d).2)).1.map Prod.fst =
      errMessage .ERR_OK 0 0 := by
  have hk : 1 ≤ d.error_buf.length := by
    rw [hbuf]; exact errMessage_length_pos e t s
  have h1 := errorChannelRead d.error_buf.length d hm hk hlen (by omega)
  have hfin : (readErrSeq d.error_buf.length d).2 = d64_drive_set_error d .ERR_OK 0 0 :=
    h1.2.2
  have hok2 : 1 ≤ (errMessage IecError.ERR_OK 0 0).length := errMessage_length_pos _ 0 0
  have h2 := errorChannelRead (errMessage .ERR_OK 0 0).length
    (d64_drive_set_error d .ERR_OK 0 0)
    (by show (d.ch 15).mode = _; exact hm) hok2
    (by rw [d64_drive_set_error])
    (by rw [d64_drive_set_error]
        show 0 + (errMessage IecError.ERR_OK 0 0).length =
          (errMessage IecError.ERR_OK 0 0).length
        omega)
  refine ⟨?_, h1.2.1, ?_, ?_, ?_⟩
  · rw [h1.1, hpos, hbuf]
    rfl
  · rw [hfin, d64_drive_set_error]
  · rw [hfin, d64_drive_set_error]
  · rw [hfin, h2.1]
    rw [d64_drive_set_error]
    show _ = List.drop 0 (errMessage IecError.ERR_OK 0 0)
    rfl

/-! ## BAM consistency (claim C2) -/

/-- Popcount of the low 8 bits of a byte. -/
def bitCount8 (b : Nat) : Nat :=
  ((Finset.range 8).filter (fun i => b.testBit i)).card

/-- The per-entry consistency: the free-count byte at the entry base
equals the popcount of the `w` bitmap bytes following it. -/
def entryCount (f : Nat → Nat) (B w : Nat) : Nat :=
  ∑ j ∈ Finset.Icc 1 w, bitCount8 (f (B + j))

def entryConsistent (f : Nat → Nat) (B w : Nat) : Prop :=
  f B = entryCount f B w

instance (f : Nat → Nat) (B w : Nat) : Decidable (entryConsistent f B w) :=
  decidable_of_iff (f B = entryCount f B w) (by rw [entryConsistent])

/-- The claim C2 invariant: for every BAM-covered track of the image, the
free-count byte equals the popcount of the track's bitmap (D64/X64: 4-byte
entries at offset 4 for tracks 1-35; D81: 6-byte entries at offset 16 in
each of the two BAM sectors for tracks 1-40 and 41-80). -/
def bamConsistent (ty : ImageType) (st : BamState) : Prop :=
  if ty = .d81 then
    (∀ k, k < 40 → entryConsistent st.bam (16 + k * 6) 5) ∧
    (∀ k, k < 40 → entryConsistent st.bam2 (16 + k * 6) 5)
  else ∀ k, k < 35 → entryConsistent st.bam (4 + k * 4) 3

instance (ty : ImageType) (st : BamState) : Decidable (bamConsistent ty st) :=
  if h : ty = .d81 then
    decidable_of_iff ((∀ k ∈ Finset.range 40, entryConsistent st.bam (16 + k * 6) 5) ∧
        (∀ k ∈ Finset.range 40, entryConsistent st.bam2 (16 + k * 6) 5))
      (by rw [bamConsistent, if_pos h]; simp [Finset.mem_range])
  else
    decidable_of_iff (∀ k ∈ Finset.range 35, entryConsistent st.bam (4 + k * 4) 3)
      (by rw [bamConsistent, if_neg h]; simp [Finset.mem_range])

lemma bitCount8_le (b : Nat) : bitCount8 b ≤ 8 := by
  unfold bitCount8
  calc ((Finset.range 8).filter _).card ≤ (Finset.range 8).card :=
        Finset.card_filter_le _ _
    _ = 8 := Finset.card_range 8

lemma bitCount8_pos {b : Nat} {i : Nat} (hi : i < 8) (h : b.testBit i = true) :
    1 ≤ bitCount8 b := by
  unfold bitCount8
  have : i ∈ (Finset.range 8).filter (fun j => b.testBit j) :=
    Finset.mem_filter.2 ⟨Finset.mem_range.2 hi, h⟩
  exact Finset.card_pos.2 ⟨i, this⟩

lemma testBit_clear_mask (b i j : Nat) (hj : j < 8) :
    (b &&& (255 ^^^ (1 <<< i))).testBit j = (b.testBit j && !(decide (i = j))) := by
  rw [Nat.testBit_and, Nat.testBit_xor]
  have h255 : (255 : Nat) = 2 ^ 8 - 1 := by norm_num
  rw [h255, Nat.testBit_two_pow_sub_one]
  have hsh : (1 : Nat) <<< i = 2 ^ i := by rw [Nat.shiftLeft_eq, one_mul]
  rw [hsh, Nat.testBit_two_pow]
  simp [hj]

lemma testBit_set_mask (b i j : Nat) :
    (b ||| (1 <<< i)).testBit j = (b.testBit j || decide (i = j)) := by
  rw [Nat.testBit_or]
  have hsh : (1 : Nat) <<< i = 2 ^ i := by rw [Nat.shiftLeft_eq, one_mul]
  rw [hsh, Nat.testBit_two_pow]

lemma bitCount8_clear {b i : Nat} (hi : i < 8) (h : b.testBit i = true) :
    bitCount8 (b &&& (255 ^^^ (1 <<< i))) = bitCount8 b - 1 := by
  unfold bitCount8
  have hfe : (Finset.range 8).filter (fun j => (b &&& (255 ^^^ (1 <<< i))).testBit j) =
      ((Finset.range 8).filter (fun j => b.testBit j)).erase i := by
    ext x
    simp only [Finset.mem_filter, Finset.mem_erase, Finset.mem_range]
    constructor
    · intro ⟨hx8, hx⟩
      rw [testBit_clear_mask b i x hx8] at hx
      simp only [Bool.and_eq_true, Bool.not_eq_true', decide_eq_false_iff_not] at hx
      exact ⟨fun he => hx.2 he.symm, hx8, hx.1⟩
    · intro ⟨hne, hx8, hx⟩
      refine ⟨hx8, ?_⟩
      rw [testBit_clear_mask b i x hx8]
      simp only [Bool.and_eq_true, Bool.not_eq_true', decide_eq_false_iff_not]
      exact ⟨hx, fun he => hne he.symm⟩
  rw [hfe, Finset.card_erase_of_mem
    (Finset.mem_filter.2 ⟨Finset.mem_range.2 hi, h⟩)]

lemma bitCount8_set {b i : Nat} (hi : i < 8) (h : b.testBit i = false) :
    bitCount8 (b ||| (1 <<< i)) = bitCount8 b + 1 := by
  unfold bitCount8
  have hfe : (Finset.range 8).filter (fun j => (b ||| (1 <<< i)).testBit j) =
      insert i ((Finset.range 8).filter (fun j => b.testBit j)) := by
    ext x
    simp only [Finset.mem_filter, Finset.mem_insert, Finset.mem_range]
    constructor
    · intro ⟨hx8, hx⟩
      rw [testBit_set_mask b i x] at hx
      simp only [Bool.or_eq_true, decide_eq_true_eq] at hx
      rcases hx with hx | hx
      · exact Or.inr ⟨hx8, hx⟩
      · exact Or.inl hx.symm
    · intro hx
      rcases hx with hx | ⟨hx8, hx⟩
      · subst hx
        rw [testBit_set_mask b x x]
        simp [hi]
      · rw [testBit_set_mask b i x]
        simp [hx8, hx]
  rw [hfe, Finset.card_insert_of_not_mem]
  intro hmem
  rw [Finset.mem_filter] at hmem
  rw [hmem.2] at h
  exact Bool.noConfusion h

/-- The counter is at most `8 w` under the entry invariant. -/
lemma entryCount_le (f : Nat → Nat) (B w : Nat) : entryCount f B w ≤ 8 * w := by
  unfold entryCount
  calc ∑ j ∈ Finset.Icc 1 w, bitCount8 (f (B + j))
      ≤ ∑ _j ∈ Finset.Icc 1 w, 8 := Finset.sum_le_sum (fun j _ => bitCount8_le _)
    _ = (Finset.Icc 1 w).card * 8 := by rw [Finset.sum_const, smul_eq_mul]
    _ = w * 8 := by rw [Nat.card_Icc]; norm_num
    _ = 8 * w := Nat.mul_comm w 8

lemma entryCount_congr {f g : Nat → Nat} {B w : Nat}
    (h : ∀ j, 1 ≤ j → j ≤ w → f (B + j) = g (B + j)) :
    entryCount f B w = entryCount g B w := by
  unfold entryCount
  apply Finset.sum_congr rfl
  intro j hj
  rw [Finset.mem_Icc] at hj
  rw [h j hj.1 hj.2]

lemma updByte_same (f : Nat → Nat) (i v : Nat) : updByte f i v i = v := by
  simp [updByte]

lemma updByte_other (f : Nat → Nat) (i v j : Nat) (h : j ≠ i) :
    updByte f i v j = f j := by
  simp [updByte, h]

/-- Allocating a set bit inside one BAM entry preserves that entry's
count/popcount equality: the bit is cleared and the `uint8_t` counter
decrement is an exact `- 1` because the counter equals a popcount
(at most `8 w ≤ 40`). -/
lemma alloc_entry_update (f : Nat → Nat) (B w j0 i : Nat)
    (hj1 : 1 ≤ j0) (hjw : j0 ≤ w) (hi : i < 8) (hw : w ≤ 5)
    (hset : (f (B + j0)).testBit i = true)
    (hcons : entryConsistent f B w) :
    entryConsistent
      (updByte (updByte f (B + j0) (f (B + j0) &&& (255 ^^^ (1 <<< i)))) B
        ((updByte f (B + j0) (f (B + j0) &&& (255 ^^^ (1 <<< i))) B + 255) % 256)) B w := by
  set v := f (B + j0) &&& (255 ^^^ (1 <<< i)) with hv
  set f1 := updByte f (B + j0) v with hf1
  have hBne : B ≠ B + j0 := by omega
  have hf1B : f1 B = f B := updByte_other f (B + j0) v B hBne
  have hj0mem : j0 ∈ Finset.Icc 1 w := Finset.mem_Icc.2 ⟨hj1, hjw⟩
  have hterm : 1 ≤ bitCount8 (f (B + j0)) := bitCount8_pos hi hset
  have hsplit : ∀ g : Nat → Nat,
      entryCount g B w =
        (∑ j ∈ (Finset.Icc 1 w).erase j0, bitCount8 (g (B + j))) +
          bitCount8 (g (B + j0)) := by
    intro g
    unfold entryCount
    rw [Finset.sum_erase_add _ _ hj0mem]
  have herase : (∑ j ∈ (Finset.Icc 1 w).erase j0, bitCount8 (f1 (B + j))) =
      ∑ j ∈ (Finset.Icc 1 w).erase j0, bitCount8 (f (B + j)) := by
    apply Finset.sum_congr rfl
    intro j hj
    have hjne : j ≠ j0 := (Finset.mem_erase.1 hj).1
    rw [hf1, updByte_other f (B + j0) v (B + j) (by omega)]
  have hcnt1 : entryCount f1 B w = entryCount f B w - 1 := by
    rw [hsplit f1, hsplit f, herase]
    have : f1 (B + j0) = v := updByte_same f (B + j0) v
    rw [this, hv, bitCount8_clear hi hset]
    omega
  have hle : entryCount f B w ≤ 40 :=
    le_trans (entryCount_le f B w) (by omega)
  have hpos : 1 ≤ entryCount f B w := by
    rw [hsplit f]; omega
  unfold entryConsistent
  rw [updByte_same]
  have hcnt2 : entryCount (updByte f1 B ((f1 B + 255) % 256)) B w = entryCount f1 B w := by
    apply entryCount_congr
    intro j hj1j hjwj
    exact updByte_other f1 B _ (B + j) (by omega)
  rw [hcnt2, hcnt1, hf1B]
  rw [entryConsistent] at hcons
  rw [hcons]
  omega

/-- Freeing a clear bit inside one BAM entry preserves the entry
invariant; the counter increment cannot wrap because the counter is a
popcount bounded by `8 w ≤ 40`. -/
lemma free_entry_update (f : Nat → Nat) (B w j0 i : Nat)
    (hj1 : 1 ≤ j0) (hjw : j0 ≤ w) (hi : i < 8) (hw : w ≤ 5)
    (hclear : (f (B + j0)).testBit i = false)
    (hcons : entryConsistent f B w) :
    entryConsistent
      (updByte (updByte f (B + j0) (f (B + j0) ||| (1 <<< i))) B
        ((updByte f (B + j0) (f (B + j0) ||| (1 <<< i)) B + 1) % 256)) B w := by
  set v := f (B + j0) ||| (1 <<< i) with hv
  set f1 := updByte f (B + j0) v with hf1
  have hBne : B ≠ B + j0 := by omega
  have hf1B : f1 B = f B := updByte_other f (B + j0) v B hBne
  have hj0mem : j0 ∈ Finset.Icc 1 w := Finset.mem_Icc.2 ⟨hj1, hjw⟩
  have hsplit : ∀ g : Nat → Nat,
      entryCount g B w =
        (∑ j ∈ (Finset.Icc 1 w).erase j0, bitCount8 (g (B + j))) +
          bitCount8 (g (B + j0)) := by
    intro g
    unfold entryCount
    rw [Finset.sum_erase_add _ _ hj0mem]
  have herase : (∑ j ∈ (Finset.Icc 1 w).erase j0, bitCount8 (f1 (B + j))) =
      ∑ j ∈ (Finset.Icc 1 w).erase j0, bitCount8 (f (B + j)) := by
    apply Finset.sum_congr rfl
    intro j hj
    have hjne : j ≠ j0 := (Finset.mem_erase.1 hj).1
    rw [hf1, updByte_other f (B + j0) v (B + j) (by omega)]
  have hcnt1 : entryCount f1 B w = entryCount f B w + 1 := by
    rw [hsplit f1, hsplit f, herase]
    have : f1 (B + j0) = v := updByte_same f (B + j0) v
    rw [this, hv, bitCount8_set hi hclear]
    omega
  have hle : entryCount f B w ≤ 40 :=
    le_trans (entryCount_le f B w) (by omega)
  unfold entryConsistent
  rw [updByte_same]
  have hcnt2 : entryCount (updByte f1 B ((f1 B + 1) % 256)) B w = entryCount f1 B w := by
    apply entryCount_congr
    intro j hj1j hjwj
    exact updByte_other f1 B _ (B + j) (by omega)
  rw [hcnt2, hcnt1, hf1B]
  rw [entryConsistent] at hcons
  rw [hcons]
  omega

/-- An update confined to the byte range of one entry leaves every
disjoint entry's invariant untouched. -/
lemma entry_update_other (f : Nat → Nat) (B j0 v c B' w' : Nat)
    (hdisj : ∀ j, j ≤ w' → B' + j ≠ B ∧ B' + j ≠ B + j0)
    (hcons : entryConsistent f B' w') :
    entryConsistent (updByte (updByte f (B + j0) v) B c) B' w' := by
  unfold entryConsistent at *
  have h0 := hdisj 0 (Nat.zero_le _)
  have hB' : updByte (updByte f (B + j0) v) B c B' = f B' := by
    have h0' : B' ≠ B ∧ B' ≠ B + j0 := by simpa using h0
    rw [updByte_other _ _ _ _ h0'.1, updByte_other _ _ _ _ h0'.2]
  rw [hB', hcons]
  apply entryCount_congr
  intro j hj1 hjw
  have hj := hdisj j hjw
  rw [updByte_other _ _ _ _ hj.1, updByte_other _ _ _ _ hj.2]

/-- Index disjointness of distinct D81 BAM entries. -/
lemma d81_entry_disjoint {k kt j0 : Nat} (hne : k ≠ kt) (hj0 : j0 ≤ 5) :
    ∀ j, j ≤ 5 → 16 + k * 6 + j ≠ 16 + kt * 6 ∧ 16 + k * 6 + j ≠ 16 + kt * 6 + j0 := by
  intro j hj
  omega

/-- Index disjointness of distinct D64 BAM entries. -/
lemma d64_entry_disjoint {k kt j0 : Nat} (hne : k ≠ kt) (hj0 : j0 ≤ 3) :
    ∀ j, j ≤ 3 → 4 + k * 4 + j ≠ 4 + kt * 4 ∧ 4 + k * 4 + j ≠ 4 + kt * 4 + j0 := by
  intro j hj
  omega

/-- `alloc_block` preserves the per-track count/popcount invariant. -/
lemma alloc_block_consistent (ty : ImageType) (st : BamState) (t s : Int)
    (hc : bamConsistent ty st) : bamConsistent ty (alloc_block ty st t s).1 := by
  by_cases hty : ty = .d81
  · subst hty
    rw [alloc_block]
    simp only [if_pos rfl]
    by_cases hrange : t < 1 ∨ t > (D81_NUM_TRACKS : Int) ∨ s < 0 ∨
        s ≥ (D81_SECTORS_PER_TRACK : Int)
    · simp only [if_pos hrange]; exact hc
    · simp only [if_neg hrange]
      push_neg at hrange
      obtain ⟨h1, h2, h3, h4⟩ := hrange
      have hsn : s.toNat < 40 := by
        simp only [D81_SECTORS_PER_TRACK, Nat.cast_ofNat] at h4; omega
      have hj01 : 1 ≤ s.toNat / 8 + 1 := by omega
      have hj05 : s.toNat / 8 + 1 ≤ 5 := by omega
      have hbit8 : s.toNat % 8 < 8 := Nat.mod_lt _ (by omega)
      rw [bamConsistent, if_pos rfl] at hc ⊢
      by_cases huse : t ≤ (40 : Int)
      · simp only [if_pos huse]
        by_cases hbit : (st.bam (16 + (t - 1).toNat * 6 + (s.toNat / 8 + 1))).testBit
            (s.toNat % 8) = true
        · simp only [if_pos hbit]
          refine ⟨?_, hc.2⟩
          intro k hk
          by_cases hkt : k = (t - 1).toNat
          · subst hkt
            exact alloc_entry_update st.bam _ 5 _ _ hj01 hj05 hbit8 (by omega) hbit
              (hc.1 _ hk)
          · exact entry_update_other st.bam _ _ _ _ _ 5
              (d81_entry_disjoint hkt hj05) (hc.1 k hk)
        · simp only [if_neg hbit]; exact hc
      · simp only [if_neg huse]
        by_cases hbit : (st.bam2 (16 + (t - 40 - 1).toNat * 6 + (s.toNat / 8 + 1))).testBit
            (s.toNat % 8) = true
        · simp only [if_pos hbit]
          refine ⟨hc.1, ?_⟩
          intro k hk
          by_cases hkt : k = (t - 40 - 1).toNat
          · subst hkt
            exact alloc_entry_update st.bam2 _ 5 _ _ hj01 hj05 hbit8 (by omega) hbit
              (hc.2 _ hk)
          · exact entry_update_other st.bam2 _ _ _ _ _ 5
              (d81_entry_disjoint hkt hj05) (hc.2 k hk)
        · simp only [if_neg hbit]; exact hc
  · rw [alloc_block]
    simp only [if_neg hty]
    by_cases hrange : t < 1 ∨ t > (35 : Int) ∨ s < 0 ∨ s ≥ (numSectors t.toNat : Int)
    · simp only [if_pos hrange]; exact hc
    · simp only [if_neg hrange]
      push_neg at hrange
      obtain ⟨h1, h2, h3, h4⟩ := hrange
      have hsn : s.toNat < 21 := by
        have := numSectors_le t.toNat; omega
      have hj01 : 1 ≤ s.toNat / 8 + 1 := by omega
      have hj03 : s.toNat / 8 + 1 ≤ 3 := by omega
      have hbit8 : s.toNat % 8 < 8 := Nat.mod_lt _ (by omega)
      rw [bamConsistent, if_neg hty] at hc ⊢
      by_cases hbit : (st.bam (4 + (t - 1).toNat * 4 + (s.toNat / 8 + 1))).testBit
          (s.toNat % 8) = true
      · simp only [if_pos hbit]
        intro k hk
        by_cases hkt : k = (t - 1).toNat
        · subst hkt
          exact alloc_entry_update st.bam _ 3 _ _ hj01 hj03 hbit8 (by omega) hbit
            (hc _ hk)
        · exact entry_update_other st.bam _ _ _ _ _ 3
            (d64_entry_disjoint hkt hj03) (hc k hk)
      · simp only [if_neg hbit]; exact hc

/-- `free_block` preserves the per-track count/popcount invariant. -/
lemma free_block_consistent (ty : ImageType) (st : BamState) (t s : Int)
    (hc : bamConsistent ty st) : bamConsistent ty (free_block ty st t s).1 := by
  by_cases hty : ty = .d81
  · subst hty
    rw [free_block]
    simp only [if_pos rfl]
    by_cases hrange : t < 1 ∨ t > (D81_NUM_TRACKS : Int) ∨ s < 0 ∨
        s ≥ (D81_SECTORS_PER_TRACK : Int)
    · simp only [if_pos hrange]; exact hc
    · simp only [if_neg hrange]
      push_neg at hrange
      obtain ⟨h1, h2, h3, h4⟩ := hrange
      have hsn : s.toNat < 40 := by
        simp only [D81_SECTORS_PER_TRACK, Nat.cast_ofNat] at h4; omega
      have hj01 : 1 ≤ s.toNat / 8 + 1 := by omega
      have hj05 : s.toNat / 8 + 1 ≤ 5 := by omega
      have hbit8 : s.toNat % 8 < 8 := Nat.mod_lt _ (by omega)
      rw [bamConsistent, if_pos rfl] at hc ⊢
      by_cases huse : t ≤ (40 : Int)
      · simp only [if_pos huse]
        by_cases hbit : (st.bam (16 + (t - 1).toNat * 6 + (s.toNat / 8 + 1))).testBit
            (s.toNat % 8) = true
        · simp only [if_pos hbit]; exact hc
        · simp only [if_neg hbit]
          refine ⟨?_, hc.2⟩
          intro k hk
          by_cases hkt : k = (t - 1).toNat
          · subst hkt
            exact free_entry_update st.bam _ 5 _ _ hj01 hj05 hbit8 (by omega)
              (by simpa using hbit) (hc.1 _ hk)
          · exact entry_update_other st.bam _ _ _ _ _ 5
              (d81_entry_disjoint hkt hj05) (hc.1 k hk)
      · simp only [if_neg huse]
        by_cases hbit : (st.bam2 (16 + (t - 40 - 1).toNat * 6 + (s.toNat / 8 + 1))).testBit
            (s.toNat % 8) = true
        · simp only [if_pos hbit]; exact hc
        · simp only [if_neg hbit]
          refine ⟨hc.1, ?_⟩
          intro k hk
          by_cases hkt : k = (t - 40 - 1).toNat
          · subst hkt
            exact free_entry_update st.bam2 _ 5 _ _ hj01 hj05 hbit8 (by omega)
              (by simpa using hbit) (hc.2 _ hk)
          · exact entry_update_other st.bam2 _ _ _ _ _ 5
              (d81_entry_disjoint hkt hj05) (hc.2 k hk)
  · rw [free_block]
    simp only [if_neg hty]
    by_cases hrange : t < 1 ∨ t > (35 : Int) ∨ s < 0 ∨ s ≥ (numSectors t.toNat : Int)
    · simp only [if_pos hrange]; exact hc
    · simp only [if_neg hrange]
      push_neg at hrange
      obtain ⟨h1, h2, h3, h4⟩ := hrange
      have hsn : s.toNat < 21 := by
        have := numSectors_le t.toNat; omega
      have hj01 : 1 ≤ s.toNat / 8 + 1 := by omega
      have hj03 : s.toNat / 8 + 1 ≤ 3 := by omega
      have hbit8 : s.toNat % 8 < 8 := Nat.mod_lt _ (by omega)
      rw [bamConsistent, if_neg hty] at hc ⊢
      by_cases hbit : (st.bam (4 + (t - 1).toNat * 4 + (s.toNat / 8 + 1))).testBit
          (s.toNat % 8) = true
      · simp only [if_pos hbit]; exact hc
      · simp only [if_neg hbit]
        intro k hk
        by_cases hkt : k = (t - 1).toNat
        · subst hkt
          exact free_entry_update st.bam _ 3 _ _ hj01 hj03 hbit8 (by omega)
            (by simpa using hbit) (hc _ hk)
        · exact entry_update_other st.bam _ _ _ _ _ 3
            (d64_entry_disjoint hkt hj03) (hc k hk)

/-- `read_sector` touches only the error state. -/
lemma read_sector_pres (d : Drive) (t s : Int) :
    (read_sector d t s).1.bams = d.bams ∧ (read_sector d t s).1.desc = d.desc := by
  rw [read_sector]
  dsimp only
  split_ifs <;> exact ⟨rfl, rfl⟩

/-- `write_sector` touches only the disk map, the file size and the error
state. -/
lemma write_sector_pres (d : Drive) (t s : Int) (buf : List Nat) :
    (write_sector d t s buf).1.bams = d.bams ∧
    (write_sector d t s buf).1.desc = d.desc := by
  rw [write_sector]
  dsimp only
  split_ifs <;> exact ⟨rfl, rfl⟩

/-- The successful outcome of `alloc_next_block` is an `alloc_block`
result; the failing outcomes leave the BAM untouched. -/
lemma alloc_next_block_cases (ty : ImageType) (st : BamState) (t s il : Int) :
    (∃ tt ss, alloc_next_block ty st t s il = .ok (alloc_block ty st tt ss).1 tt ss) ∨
    (∃ e tt ss, alloc_next_block ty st t s il = .fail e tt ss) ∨
    alloc_next_block ty st t s il = .fuelOut := by
  rw [alloc_next_block]
  generalize walkTrack ty st _ _ _ t s false = w
  rcases w with _ | ⟨_ | ⟨t1, s1⟩⟩
  · exact Or.inr (Or.inr rfl)
  · exact Or.inr (Or.inl ⟨_, _, _, rfl⟩)
  · dsimp only
    generalize probeSector ty st t1 _ _ _ = pr
    rcases pr with _ | sf
    · exact Or.inr (Or.inl ⟨_, _, _, rfl⟩)
    · exact Or.inl ⟨_, _, rfl⟩

/-- `drive_alloc_next_block` preserves the descriptor and the BAM
invariant. -/
lemma drive_alloc_next_pres (d : Drive) (t s il : Int) :
    (drive_alloc_next_block d t s il).1.desc = d.desc ∧
    (bamConsistent d.desc.type d.bams →
      bamConsistent d.desc.type (drive_alloc_next_block d t s il).1.bams) := by
  rw [drive_alloc_next_block]
  rcases alloc_next_block_cases d.desc.type d.bams t s il with
    ⟨tt, ss, h⟩ | ⟨e, tt, ss, h⟩ | h <;> rw [h]
  · exact ⟨rfl, fun hc => alloc_block_consistent _ _ _ _ hc⟩
  · exact ⟨rfl, fun hc => hc⟩
  · exact ⟨rfl, fun hc => hc⟩

/-- `drive_free_block` preserves the descriptor and the BAM invariant. -/
lemma drive_free_block_pres (d : Drive) (t s : Int) :
    (drive_free_block d t s).1.desc = d.desc ∧
    (bamConsistent d.desc.type d.bams →
      bamConsistent d.desc.type (drive_free_block d t s).1.bams) :=
  ⟨rfl, fun hc => free_block_consistent _ _ _ _ hc⟩

/-- `drive_alloc_block` preserves the descriptor and the BAM invariant. -/
lemma drive_alloc_block_pres (d : Drive) (t s : Int) :
    (drive_alloc_block d t s).1.desc = d.desc ∧
    (bamConsistent d.desc.type d.bams →
      bamConsistent d.desc.type (drive_alloc_block d t s).1.bams) :=
  ⟨rfl, fun hc => alloc_block_consistent _ _ _ _ hc⟩

/-- `free_block_chain` preserves the descriptor and the BAM invariant. -/
lemma free_block_chain_pres : ∀ (fuel : Nat) (d : Drive) (t s : Int),
    (free_block_chain d fuel t s).1.desc = d.desc ∧
    (bamConsistent d.desc.type d.bams →
      bamConsistent d.desc.type (free_block_chain d fuel t s).1.bams) := by
  intro fuel
  induction fuel with
  | zero => exact fun d t s => ⟨rfl, fun h => h⟩
  | succ n ih =>
    intro d t s
    rw [free_block_chain]
    by_cases he : (drive_free_block d t s).2 = .ERR_OK
    · rw [if_pos he]
      rcases hr : read_sector (drive_free_block d t s).1 t s with ⟨d2, rb⟩
      have hd2 : d2.bams = (drive_free_block d t s).1.bams ∧
          d2.desc = (drive_free_block d t s).1.desc := by
        have := read_sector_pres (drive_free_block d t s).1 t s
        rw [hr] at this
        exact this
      rcases rb with _ | buf
      · simp only []
        refine ⟨by rw [hd2.2]; exact (drive_free_block_pres d t s).1, fun hc => ?_⟩
        rw [hd2.1]
        exact (drive_free_block_pres d t s).2 hc
      · simp only []
        have hih := ih d2 ((buf.getD 0 0 : Nat) : Int) ((buf.getD 1 0 : Nat) : Int)
        have hdesc2 : d2.desc = d.desc := by
          rw [hd2.2]; exact (drive_free_block_pres d t s).1
        refine ⟨by rw [hih.1, hdesc2], fun hc => ?_⟩
        have hc2 : bamConsistent d2.desc.type d2.bams := by
          rw [hdesc2, hd2.1]
          exact (drive_free_block_pres d t s).2 hc
        have := hih.2 hc2
        rw [hdesc2] at this
        exact this
    · rw [if_neg he]
      exact drive_free_block_pres d t s

/-- The BAM-mutating operations of the drive: `alloc_block`, `free_block`,
`alloc_next_block`, and the chain-freeing loop that the scratch command
uses. -/
inductive BamOp
  | opAlloc (track sector : Int)
  | opFree (track sector : Int)
  | opAllocNext (track sector interleave : Int)
  | opFreeChain (track sector : Int) (fuel : Nat)

def applyBamOp (d : Drive) : BamOp → Drive
  | .opAlloc t s => (drive_alloc_block d t s).1
  | .opFree t s => (drive_free_block d t s).1
  | .opAllocNext t s il => (drive_alloc_next_block d t s il).1
  | .opFreeChain t s fuel => (free_block_chain d fuel t s).1

def applyBamOps (d : Drive) (ops : List BamOp) : Drive := ops.foldl applyBamOp d

lemma applyBamOp_pres (d : Drive) (op : BamOp) :
    (applyBamOp d op).desc = d.desc ∧
    (bamConsistent d.desc.type d.bams →
      bamConsistent d.desc.type (applyBamOp d op).bams) := by
  rcases op with ⟨t, s⟩ | ⟨t, s⟩ | ⟨t, s, il⟩ | ⟨t, s, fuel⟩
  · exact drive_alloc_block_pres d t s
  · exact drive_free_block_pres d t s
  · exact drive_alloc_next_pres d t s il
  · exact free_block_chain_pres fuel d t s

lemma applyBamOps_pres : ∀ (ops : List BamOp) (d : Drive),
    (applyBamOps d ops).desc = d.desc ∧
    (bamConsistent d.desc.type d.bams →
      bamConsistent d.desc.type (applyBamOps d ops).bams)
  | [], d => ⟨rfl, fun h => h⟩
  | op :: ops, d => by
    have h1 := applyBamOp_pres d op
    have h2 := applyBamOps_pres ops (applyBamOp d op)
    rw [applyBamOps] at h2 ⊢
    rw [List.foldl_cons]
    refine ⟨by rw [h2.1, h1.1], fun hc => ?_⟩
    have := h2.2 (by rw [h1.1]; exact h1.2 hc)
    rw [h1.1] at this
    exact this

/-- The directory search touches only the error state and the in-memory
directory buffer. -/
lemma find_file_loop_pres (pattern : List Nat) (plen maxD : Nat) :
    ∀ (fuel : Nat) (d : Drive) (nb e : Nat) (dt ds : Int),
    (find_file_loop pattern plen maxD fuel d nb e dt ds).1.bams = d.bams ∧
    (find_file_loop pattern plen maxD fuel d nb e dt ds).1.desc = d.desc := by
  intro fuel
  induction fuel with
  | zero => exact fun d nb e dt ds => ⟨rfl, rfl⟩
  | succ n ih =>
    intro d nb e dt ds
    rw [find_file_loop]
    by_cases h1 : nb ≥ maxD
    · rw [if_pos h1]; exact ⟨rfl, rfl⟩
    · rw [if_neg h1]
      by_cases h2 : e + 1 ≥ 8
      · rw [if_pos h2]
        by_cases h3 : d.dir.getD 0 0 = 0
        · rw [if_pos h3]; exact ⟨rfl, rfl⟩
        · rw [if_neg h3]
          dsimp only
          rcases hr : read_sector d ((d.dir.getD 0 0 : Nat) : Int)
              ((d.dir.getD 1 0 : Nat) : Int) with ⟨d2, rb⟩
          have hd2 : d2.bams = d.bams ∧ d2.desc = d.desc := by
            have := read_sector_pres d ((d.dir.getD 0 0 : Nat) : Int)
              ((d.dir.getD 1 0 : Nat) : Int)
            rw [hr] at this
            exact this
          rcases rb with _ | blk
          · exact hd2
          · dsimp only
            split_ifs
            · exact hd2
            · have := ih { d2 with dir := blk } (nb + 1) 0
                ((d.dir.getD 0 0 : Nat) : Int) ((d.dir.getD 1 0 : Nat) : Int)
              exact ⟨by rw [this.1]; exact hd2.1, by rw [this.2]; exact hd2.2⟩
      · rw [if_neg h2]
        split_ifs
        · exact ⟨rfl, rfl⟩
        · exact ih d nb (e + 1) dt ds

lemma find_file_pres (d : Drive) (pattern : List Nat) (plen e : Nat) (dt ds : Int)
    (cont : Bool) :
    (find_file d pattern plen e dt ds cont).1.bams = d.bams ∧
    (find_file d pattern plen e dt ds cont).1.desc = d.desc := by
  rw [find_file]
  dsimp only
  by_cases hc : cont
  · rw [if_pos hc]
    exact find_file_loop_pres pattern plen _ 200 d 0 e dt ds
  · rw [if_neg hc]
    exact find_file_loop_pres pattern plen _ 200 _ 0 8 dt ds

/-- The scratch loop mutates the BAM only through `free_block_chain`. -/
lemma scratch_loop_pres (files : List Nat) (flen : Nat) :
    ∀ (fuel : Nat) (d : Drive) (dt ds : Int) (e n : Nat),
    (scratch_loop files flen fuel d dt ds e n).1.desc = d.desc ∧
    (bamConsistent d.desc.type d.bams →
      bamConsistent d.desc.type (scratch_loop files flen fuel d dt ds e n).1.bams) := by
  intro fuel
  induction fuel with
  | zero => exact fun d dt ds e n => ⟨rfl, fun h => h⟩
  | succ m ih =>
    intro d dt ds e n
    rw [scratch_loop]
    dsimp only
    -- the processed-entry step
    set step : Drive × Nat :=
      if (fun k => d.dir.getD (2 + e * 32 + k) 0) 0 &&& 0x40 ≠ 0 then (d, n)
      else
        let r1 := free_block_chain d 4000
          (((fun k => d.dir.getD (2 + e * 32 + k) 0) 1 : Nat) : Int)
          (((fun k => d.dir.getD (2 + e * 32 + k) 0) 2 : Nat) : Int)
        let r2 := free_block_chain r1.1 4000
          (((fun k => d.dir.getD (2 + e * 32 + k) 0) 19 : Nat) : Int)
          (((fun k => d.dir.getD (2 + e * 32 + k) 0) 20 : Nat) : Int)
        let d3 := { r2.1 with dir := (r2.1.dir).set (2 + e * 32) 0 }
        let w := write_sector d3 dt ds d3.dir
        (w.1, n + 1) with hstep
    have hstep_pres : step.1.desc = d.desc ∧
        (bamConsistent d.desc.type d.bams →
          bamConsistent d.desc.type step.1.bams) := by
      rw [hstep]
      split_ifs
      · exact ⟨rfl, fun h => h⟩
      · dsimp only
        have h1 := free_block_chain_pres 4000 d
          ((d.dir.getD (2 + e * 32 + 1) 0 : Nat) : Int)
          ((d.dir.getD (2 + e * 32 + 2) 0 : Nat) : Int)
        set d1 := (free_block_chain d 4000
          ((d.dir.getD (2 + e * 32 + 1) 0 : Nat) : Int)
          ((d.dir.getD (2 + e * 32 + 2) 0 : Nat) : Int)).1 with hd1
        have h2 := free_block_chain_pres 4000 d1
          ((d.dir.getD (2 + e * 32 + 19) 0 : Nat) : Int)
          ((d.dir.getD (2 + e * 32 + 20) 0 : Nat) : Int)
        set d2 := (free_block_chain d1 4000
          ((d.dir.getD (2 + e * 32 + 19) 0 : Nat) : Int)
          ((d.dir.getD (2 + e * 32 + 20) 0 : Nat) : Int)).1 with hd2
        have h3 := write_sector_pres { d2 with dir := d2.dir.set (2 + e * 32) 0 } dt ds
          (d2.dir.set (2 + e * 32) 0)
        refine ⟨by rw [h3.2]; show d2.desc = d.desc; rw [h2.1, h1.1], fun hc => ?_⟩
        rw [h3.1]
        show bamConsistent d.desc.type d2.bams
        have hc1 : bamConsistent d1.desc.type d1.bams := by
          rw [h1.1]; exact h1.2 hc
        have := h2.2 hc1
        rw [h1.1] at this
        exact this
    rcases hf : find_next_file step.1 files flen e dt ds with ⟨d5, fb, dt2, ds2, e2⟩
    have hd5 : d5.bams = step.1.bams ∧ d5.desc = step.1.desc := by
      have := find_file_pres step.1 files flen e dt ds true
      rw [find_next_file] at hf
      rw [hf] at this
      exact this
    rcases fb with _ | _
    · dsimp only
      refine ⟨by rw [hd5.2, hstep_pres.1], fun hc => ?_⟩
      rw [hd5.1]
      exact hstep_pres.2 hc
    · dsimp only
      have hih := ih d5 dt2 ds2 e2 step.2
      have hdesc : d5.desc = d.desc := by rw [hd5.2, hstep_pres.1]
      refine ⟨by rw [hih.1, hdesc], fun hc => ?_⟩
      have hc5 : bamConsistent d5.desc.type d5.bams := by
        rw [hdesc, hd5.1]
        exact hstep_pres.2 hc
      have := hih.2 hc5
      rw [hdesc] at this
      exact this

lemma set_error_desc (d : Drive) (e : IecError) (t s : Int) :
    (d64_drive_set_error d e t s).desc = d.desc := rfl

lemma set_error_bams (d : Drive) (e : IecError) (t s : Int) :
    (d64_drive_set_error d e t s).bams = d.bams := rfl

lemma find_first_file_pres (d : Drive) (pattern : List Nat) (plen : Nat) :
    (find_first_file d pattern plen).1.bams = d.bams ∧
    (find_first_file d pattern plen).1.desc = d.desc :=
  find_file_pres d pattern plen 0 0 0 false

/-- Executing a `S` (scratch) DOS command keeps the image descriptor and
preserves the BAM free-count invariant: the only BAM mutations on this
path go through `free_block_chain`. -/
lemma execute_scratch_pres (d : Drive) (cmd : List Nat) (clen : Nat)
    (hs : (stripTrailCR (cmd.take clen)).getD 0 0 = 83) :
    (d64_execute_cmd d cmd clen).desc = d.desc ∧
    (bamConsistent d.desc.type d.bams →
      bamConsistent d.desc.type (d64_execute_cmd d cmd clen).bams) := by
  have h73 : (stripTrailCR (cmd.take clen)).getD 0 0 ≠ 73 := by rw [hs]; decide
  have h85 : (stripTrailCR (cmd.take clen)).getD 0 0 ≠ 85 := by rw [hs]; decide
  have h66 : (stripTrailCR (cmd.take clen)).getD 0 0 ≠ 66 := by rw [hs]; decide
  have hmvn : ¬((stripTrailCR (cmd.take clen)).getD 0 0 = 77 ∨
      (stripTrailCR (cmd.take clen)).getD 0 0 = 86 ∨
      (stripTrailCR (cmd.take clen)).getD 0 0 = 78) := by rw [hs]; decide
  rw [d64_execute_cmd]
  dsimp only
  rw [if_neg h73, if_neg h85, if_neg h66, if_neg hmvn, if_pos hs]
  split
  · exact ⟨rfl, fun h => h⟩
  · rename_i ci hcol
    by_cases hw : (d64_drive_set_error d .ERR_OK 0 0).write_protected = true
    · rw [if_pos hw]
      exact ⟨rfl, fun h => h⟩
    · rw [if_neg hw]
      have hff := find_first_file_pres (d64_drive_set_error d .ERR_OK 0 0)
        ((stripTrailCR (cmd.take clen)).drop (ci + 1))
        ((stripTrailCR (cmd.take clen)).length - (ci + 1))
      rcases hf : find_first_file (d64_drive_set_error d .ERR_OK 0 0)
          ((stripTrailCR (cmd.take clen)).drop (ci + 1))
          ((stripTrailCR (cmd.take clen)).length - (ci + 1)) with ⟨d1, found, dt, ds, e⟩
      rw [hf] at hff
      dsimp only at hff ⊢
      by_cases hb : found = true
      · rw [if_pos hb]
        have hsl := scratch_loop_pres ((stripTrailCR (cmd.take clen)).drop (ci + 1))
          ((stripTrailCR (cmd.take clen)).length - (ci + 1)) 200 d1 dt ds e 0
        rw [set_error_desc, set_error_bams]
        refine ⟨by rw [hsl.1]; exact hff.2, fun h => ?_⟩
        have h1 : bamConsistent d1.desc.type d1.bams := by
          rw [hff.2, hff.1]; exact h
        have h2 := hsl.2 h1
        rw [hff.2] at h2
        exact h2
      · rw [if_neg hb]
        rw [set_error_desc, set_error_bams]
        refine ⟨hff.2, fun h => ?_⟩
        rw [hff.1]
        exact h

/-- C2: the free-count/popcount invariant `bamConsistent` — for every
BAM-covered track of the image the per-track free-count byte equals the
popcount of that track's allocation bitmap — is preserved by every
sequence of `alloc_block` / `free_block` / `alloc_next_block` /
`free_block_chain` operations and additionally by executing a `S`
(scratch) DOS command afterwards: each allocation clears one bitmap bit
and decrements the matching counter, each free sets one bit and
increments it. -/
theorem c2_free_count_popcount_invariant (d : Drive) (ops : List BamOp)
    (cmd : List Nat) (clen : Nat)
    (hs : (stripTrailCR (cmd.take clen)).getD 0 0 = 83)
    (h : bamConsistent d.desc.type d.bams) :
    bamConsistent d.desc.type (applyBamOps d ops).bams ∧
    bamConsistent d.desc.type (d64_execute_cmd (applyBamOps d ops) cmd clen).bams := by
  have hp := applyBamOps_pres ops d
  have h1 := hp.2 h
  refine ⟨h1, ?_⟩
  have he := execute_scratch_pres (applyBamOps d ops) cmd clen hs
  have h2 := he.2 (by rw [hp.1]; exact h1)
  rw [hp.1] at h2
  exact h2

/-- Witness for C2: the freshly mounted 35-track disk satisfies the
invariant, and it survives an alloc/free pair followed by a `S:A` scratch
command. -/
theorem c2_free_count_popcount_invariant_witness :
    bamConsistent freshDrive.desc.type freshDrive.bams ∧
    bamConsistent freshDrive.desc.type
      (applyBamOps freshDrive [.opAlloc 17 0, .opFree 17 0]).bams ∧
    bamConsistent freshDrive.desc.type
      (d64_execute_cmd (applyBamOps freshDrive [.opAlloc 17 0, .opFree 17 0])
        [83, 58, 65] 3).bams := by
  have h : bamConsistent freshDrive.desc.type freshDrive.bams := by decide
  have hc := c2_free_count_popcount_invariant freshDrive [.opAlloc 17 0, .opFree 17 0]
    [83, 58, 65] 3 (by decide) h
  exact ⟨h, hc.1, hc.2⟩

/-! ## The free-sector probe of `alloc_next_block` (claims C4 and C5) -/

/-- The observable outcome of `alloc_next_block`: the chosen block on
success. -/
def allocResultTS : AllocResult → Option (Int × Int)
  | .ok _ t s => some (t, s)
  | _ => none

/-- The track walk stops only on a track with a nonzero free count. -/
lemma walkTrack_found (ty : ImageType) (st : BamState) (dirT maxT : Int) :
    ∀ (fuel : Nat) (t0 s0 : Int) (side : Bool) (t s : Int),
    walkTrack ty st dirT maxT fuel t0 s0 side = some (some (t, s)) →
    num_free_blocks ty st t ≠ 0 := by
  intro fuel
  induction fuel with
  | zero =>
    intro t0 s0 side t s h
    rw [walkTrack] at h
    exact Option.noConfusion h
  | succ n ih =>
    intro t0 s0 side t s h
    rw [walkTrack] at h
    by_cases h0 : num_free_blocks ty st t0 = 0
    · rw [if_pos h0] at h
      split_ifs at h
      all_goals first
        | (exact ih _ _ _ _ _ h)
        | (exact Option.noConfusion (Option.some.inj h))
    · rw [if_neg h0] at h
      simp only [Option.some.injEq, Prod.mk.injEq] at h
      rw [← h.1]
      exact h0

/-- A sector returned by the probe is free and within the track. -/
lemma probeSector_some_free (ty : ImageType) (st : BamState) (t : Int)
    (num : Int) (hnum : 0 < num) :
    ∀ (fuel : Nat) (s sf : Int), 0 ≤ s → s < num →
    probeSector ty st t num fuel s = some sf →
    is_block_free ty st t sf = true ∧ 0 ≤ sf ∧ sf < num := by
  intro fuel
  induction fuel with
  | zero =>
    intro s sf _ _ h
    rw [probeSector] at h
    exact Option.noConfusion h
  | succ n ih =>
    intro s sf hs0 hsn h
    rw [probeSector] at h
    by_cases hf : is_block_free ty st t s = true
    · rw [if_pos hf] at h
      simp only [Option.some.injEq] at h
      rw [← h]
      exact ⟨hf, hs0, hsn⟩
    · rw [if_neg hf] at h
      dsimp only at h
      by_cases hw : s + 1 ≥ num
      · rw [if_pos hw] at h
        exact ih 0 sf le_rfl hnum h
      · rw [if_neg hw] at h
        exact ih (s + 1) sf (by omega) (by omega) h

/-- If the probe fails, every sector it visited — `fuel` consecutive
positions from the start, wrapping at `num` — is allocated. -/
lemma probeSector_none_window (ty : ImageType) (st : BamState) (t : Int)
    (num : Int) (hnum : 0 < num) :
    ∀ (fuel : Nat) (s : Int), 0 ≤ s → s < num →
    probeSector ty st t num fuel s = none →
    ∀ j : Nat, j < fuel → is_block_free ty st t ((s + j) % num) = false := by
  intro fuel
  induction fuel with
  | zero =>
    intro s _ _ _ j hj
    exact absurd hj (by omega)
  | succ n ih =>
    intro s hs0 hsn h j hj
    rw [probeSector] at h
    by_cases hf : is_block_free ty st t s = true
    · rw [if_pos hf] at h
      exact Option.noConfusion h
    · rw [if_neg hf] at h
      dsimp only at h
      rcases j with _ | j
      · have hz : (s + ((0 : Nat) : Int)) % num = s := by
          rw [Nat.cast_zero, add_zero]
          exact Int.emod_eq_of_lt hs0 hsn
        rw [hz]
        exact eq_false_of_ne_true hf
      · by_cases hw : s + 1 ≥ num
        · rw [if_pos hw] at h
          have hstep := ih 0 le_rfl hnum h j (by omega)
          have heq : ((0 : Int) + j) % num = (s + ((j + 1 : Nat) : Int)) % num := by
            rw [zero_add]
            have h2 : s + ((j + 1 : Nat) : Int) = num + j := by push_cast; omega
            have h3 : num + (j : Int) = (j : Int) + num * 1 := by ring
            rw [h2, h3, Int.add_mul_emod_self_left]
          rw [← heq]
          exact hstep
        · rw [if_neg hw] at h
          have hstep := ih (s + 1) (by omega) (by omega) h j (by omega)
          have heq : (s + 1 + j) % num = (s + ((j + 1 : Nat) : Int)) % num := by
            have h2 : s + ((j + 1 : Nat) : Int) = s + 1 + j := by push_cast; ring
            rw [h2]
          rw [← heq]
          exact hstep

/-- A failed full-revolution probe started inside the track means no
sector of the track is free at all. -/
lemma probeSector_none_all (ty : ImageType) (st : BamState) (t : Int)
    (num : Int) (hnum : 0 < num) (s : Int) (hs0 : 0 ≤ s) (hsn : s < num)
    (h : probeSector ty st t num num.toNat s = none) :
    ∀ k : Int, 0 ≤ k → k < num → is_block_free ty st t k = false := by
  intro k hk0 hkn
  have hm0 : 0 ≤ (k - s) % num := Int.emod_nonneg _ (by omega)
  have hmn : (k - s) % num < num := Int.emod_lt_of_pos _ hnum
  have hj : ((k - s) % num).toNat < num.toNat := by omega
  have hwin := probeSector_none_window ty st t num hnum num.toNat s hs0 hsn h
    ((k - s) % num).toNat hj
  have hcast : ((((k - s) % num).toNat : Int)) = (k - s) % num :=
    Int.toNat_of_nonneg hm0
  rw [hcast] at hwin
  have heq : (s + (k - s) % num) % num = k := by
    rw [Int.add_emod, Int.emod_emod_of_dvd _ dvd_rfl, ← Int.add_emod]
    have h2 : s + (k - s) = k := by ring
    rw [h2]
    exact Int.emod_eq_of_lt hk0 hkn
  rw [heq] at hwin
  exact hwin

/-- `alloc_block` on a free in-range block clears its BAM bit. -/
lemma alloc_block_clears (ty : ImageType) (st : BamState) (t s : Int)
    (ht1 : 1 ≤ t) (ht2 : t ≤ (if ty = .d81 then (D81_NUM_TRACKS : Int) else 35))
    (hs0 : 0 ≤ s)
    (hsn : s < (if ty = .d81 then (D81_SECTORS_PER_TRACK : Int)
                else (numSectors t.toNat : Int)))
    (hfree : is_block_free ty st t s = true) :
    is_block_free ty (alloc_block ty st t s).1 t s = false := by
  have hbit8 : s.toNat % 8 < 8 := Nat.mod_lt _ (by omega)
  by_cases hty : ty = .d81
  · subst hty
    rw [if_pos rfl] at ht2 hsn
    have h80 : (D81_NUM_TRACKS : Int) = 80 := rfl
    have h40 : (D81_SECTORS_PER_TRACK : Int) = 40 := rfl
    rw [h80] at ht2
    rw [h40] at hsn
    rw [is_block_free, if_pos rfl] at hfree ⊢
    rw [alloc_block, if_pos rfl]
    have hrange : ¬(t < 1 ∨ t > (D81_NUM_TRACKS : Int) ∨ s < 0 ∨
        s ≥ (D81_SECTORS_PER_TRACK : Int)) := by
      rw [h80, h40]
      omega
    rw [if_neg hrange]
    dsimp only at hfree ⊢
    by_cases huse : t ≤ (40 : Int)
    · simp only [if_pos huse] at hfree ⊢
      rw [if_pos hfree]
      dsimp only
      rw [updByte_other _ _ _ _ (by omega), updByte_same,
        testBit_clear_mask _ _ _ hbit8]
      simp
    · simp only [if_neg huse] at hfree ⊢
      rw [if_pos hfree]
      dsimp only
      rw [updByte_other _ _ _ _ (by omega), updByte_same,
        testBit_clear_mask _ _ _ hbit8]
      simp
  · rw [if_neg hty] at ht2 hsn
    rw [is_block_free, if_neg hty] at hfree ⊢
    rw [alloc_block, if_neg hty]
    have hrange : ¬(t < 1 ∨ t > 35 ∨ s < 0 ∨
        s ≥ (numSectors t.toNat : Int)) := by omega
    rw [if_neg hrange]
    dsimp only at hfree ⊢
    rw [if_pos hfree]
    dsimp only
    rw [updByte_other _ _ _ _ (by omega), updByte_same,
      testBit_clear_mask _ _ _ hbit8]
    simp

/-- C4 (amended): once the track walk has chosen a candidate track `t`
(with last sector `s`), that track's free count is nonzero, and the free
sector search probes forward linearly with wraparound starting from the
interleave-advanced position `s2` — which on wrap is `s + interleave -
num - 1` (one less than the claimed `(s + interleave) mod num`) unless
that remainder is zero.  If one full revolution finds no free sector the
call fails with `ERR_DIRERROR`; on success the found sector was free and
is allocated in the returned BAM before the call returns. -/
theorem c4_next_free_sector_search (ty : ImageType) (st : BamState)
    (track sector interleave t s num s2 : Int)
    (hw : walkTrack ty st
        (if ty = .d81 then (D81_DIR_TRACK : Int) else (DIR_TRACK : Int))
        (if ty = .d81 then (D81_NUM_TRACKS : Int) else 35)
        (2 * (if ty = .d81 then (D81_NUM_TRACKS : Int) else 35).toNat + 4)
        track sector false = some (some (t, s)))
    (hnum : num = (if ty = .d81 then (D81_SECTORS_PER_TRACK : Int)
        else (numSectors t.toNat : Int)))
    (hs2 : s2 = if s + interleave ≥ num then
        (if s + interleave - num ≠ 0 then s + interleave - num - 1
         else s + interleave - num)
      else s + interleave)
    (hs2r : 0 ≤ s2 ∧ s2 < num)
    (ht : 1 ≤ t ∧ t ≤ (if ty = .d81 then (D81_NUM_TRACKS : Int) else 35)) :
    num_free_blocks ty st t ≠ 0 ∧
    ((∀ k : Int, 0 ≤ k → k < num → is_block_free ty st t k = false) →
      alloc_next_block ty st track sector interleave = .fail .ERR_DIRERROR t s2) ∧
    (∀ sf : Int, probeSector ty st t num num.toNat s2 = some sf →
      alloc_next_block ty st track sector interleave = .ok (alloc_block ty st t sf).1 t sf) ∧
    (∀ sf : Int, (stf : BamState) →
      alloc_next_block ty st track sector interleave = .ok stf t sf →
      is_block_free ty st t sf = true ∧ is_block_free ty stf t sf = false) := by
  have hnumpos : 0 < num := by
    rw [hnum]
    by_cases hty : ty = .d81
    · rw [if_pos hty]
      show (0 : Int) < ((D81_SECTORS_PER_TRACK : Nat) : Int)
      norm_num [D81_SECTORS_PER_TRACK]
    · rw [if_neg hty]
      rw [if_neg hty] at ht
      have hns : 17 ≤ numSectors t.toNat := by
        unfold numSectors
        split_ifs <;> omega
      omega
  have hred : alloc_next_block ty st track sector interleave =
      (match probeSector ty st t num num.toNat s2 with
       | some sf => AllocResult.ok (alloc_block ty st t sf).1 t sf
       | none => AllocResult.fail .ERR_DIRERROR t s2) := by
    rw [alloc_next_block]
    dsimp only
    rw [hw]
    dsimp only
    rw [← hnum, ← hs2]
  refine ⟨walkTrack_found ty st _ _ _ track sector false t s hw, ?_, ?_, ?_⟩
  · intro hall
    have hnone : probeSector ty st t num num.toNat s2 = none := by
      rcases hp : probeSector ty st t num num.toNat s2 with _ | sf
      · rfl
      · have hfr := probeSector_some_free ty st t num hnumpos num.toNat s2 sf
          hs2r.1 hs2r.2 hp
        rw [hall sf hfr.2.1 hfr.2.2] at hfr
        exact Bool.noConfusion hfr.1
    rw [hnone] at hred
    exact hred
  · intro sf hp
    rw [hp] at hred
    exact hred
  · intro sf stf hok
    rcases hp : probeSector ty st t num num.toNat s2 with _ | sf'
    · rw [hp] at hred
      rw [hred] at hok
      exact AllocResult.noConfusion hok
    · rw [hp] at hred
      rw [hred] at hok
      dsimp only at hok
      have hinj : (alloc_block ty st t sf').1 = stf ∧ sf' = sf := by
        injection hok with h1 _ h3
        exact ⟨h1, h3⟩
      have hfr := probeSector_some_free ty st t num hnumpos num.toNat s2 sf'
        hs2r.1 hs2r.2 hp
      refine ⟨by rw [← hinj.2]; exact hfr.1, ?_⟩
      rw [← hinj.1, ← hinj.2]
      exact alloc_block_clears ty st t sf' ht.1 ht.2 hfr.2.1 (by rw [← hnum]; exact hfr.2.2)
        hfr.1

/-- Witness for C4: from track 17, sector 20, interleave 10 on the fresh
disk the walk stays put and the probe starts at sector 8. -/
theorem c4_next_free_sector_search_witness :
    (walkTrack .d64 freshDrive.bams
        (if ImageType.d64 = .d81 then (D81_DIR_TRACK : Int) else (DIR_TRACK : Int))
        (if ImageType.d64 = .d81 then (D81_NUM_TRACKS : Int) else 35)
        (2 * (if ImageType.d64 = .d81 then (D81_NUM_TRACKS : Int) else 35).toNat + 4)
        17 20 false = some (some (17, 20))) ∧
    num_free_blocks .d64 freshDrive.bams 17 ≠ 0 ∧
    (∀ sf : Int, probeSector .d64 freshDrive.bams 17 21 (21 : Int).toNat 8 = some sf →
      alloc_next_block .d64 freshDrive.bams 17 20 10 =
        .ok (alloc_block .d64 freshDrive.bams 17 sf).1 17 sf) := by
  have hw : walkTrack .d64 freshDrive.bams
      (if ImageType.d64 = .d81 then (D81_DIR_TRACK : Int) else (DIR_TRACK : Int))
      (if ImageType.d64 = .d81 then (D81_NUM_TRACKS : Int) else 35)
      (2 * (if ImageType.d64 = .d81 then (D81_NUM_TRACKS : Int) else 35).toNat + 4)
      17 20 false = some (some (17, 20)) := by decide
  have hc := c4_next_free_sector_search .d64 freshDrive.bams 17 20 10 17 20 21 8
    hw (by decide) (by decide) (by decide) (by decide)
  exact ⟨hw, hc.1, hc.2.2.1⟩

/-- C4 counterexample: on the fresh disk every sector of track 17 is free,
so a probe started at the claimed `(20 + 10) % 21 = 9` would return
sector 9; the code allocates sector 8 instead, because the source's wrap
adjustment `s -= num; if (s) s--;` subtracts one more than the modulus. -/
theorem c4_counterexample :
    allocResultTS (alloc_next_block .d64 freshDrive.bams 17 20 10) = some (17, 8) ∧
    is_block_free .d64 freshDrive.bams 17 9 = true ∧
    ((20 + 10) % 21 : Int) = 9 := by decide

/-- Termination measure for the track walk: remaining steps before the
walk must stop, by side.  After the (at most one) reversal the walk runs
monotonically into a boundary or the directory track. -/
def walkMeasure (dirT maxT t : Int) : Bool → Nat
  | true => if dirT < t then (maxT - t).toNat + 1 else t.toNat + 1
  | false => if dirT < t then (maxT - t).toNat + 1 + dirT.toNat + 1
             else t.toNat + 1 + (maxT - dirT).toNat + 1

/-- The track walk terminates within its measure: it never exhausts fuel
at least `walkMeasure` for any in-range starting track when the directory
track is interior. -/
lemma walkTrack_total (ty : ImageType) (st : BamState) (dirT maxT : Int)
    (hd2 : 2 ≤ dirT) (hdm : dirT + 1 ≤ maxT) :
    ∀ (fuel : Nat) (t s : Int) (side : Bool),
    1 ≤ t → t ≤ maxT → walkMeasure dirT maxT t side ≤ fuel →
    walkTrack ty st dirT maxT fuel t s side ≠ none := by
  intro fuel
  induction fuel with
  | zero =>
    intro t s side h1 h2 hm
    exfalso
    rcases side with _ | _ <;>
      (simp only [walkMeasure] at hm; split_ifs at hm <;> omega)
  | succ n ih =>
    intro t s side h1 h2 hm
    rw [walkTrack]
    by_cases h0 : num_free_blocks ty st t = 0
    · rw [if_pos h0]
      by_cases hdt : t = dirT
      · rw [if_pos hdt]
        exact fun hc => Option.noConfusion hc
      · rw [if_neg hdt]
        by_cases hgt : t > dirT
        · rw [if_pos hgt]
          by_cases hovf : t + 1 > maxT
          · rw [if_pos hovf]
            rcases side with _ | _
            · rw [if_neg Bool.false_ne_true]
              refine ih (dirT - 1) 0 true (by omega) (by omega) ?_
              simp only [walkMeasure] at hm ⊢
              split_ifs at hm ⊢ <;> omega
            · rw [if_pos rfl]
              exact fun hc => Option.noConfusion hc
          · rw [if_neg hovf]
            refine ih (t + 1) s side (by omega) (by omega) ?_
            rcases side with _ | _ <;>
              (simp only [walkMeasure] at hm ⊢; split_ifs at hm ⊢ <;> omega)
        · rw [if_neg hgt]
          by_cases hun : t - 1 < 1
          · rw [if_pos hun]
            rcases side with _ | _
            · rw [if_neg Bool.false_ne_true]
              refine ih (dirT + 1) 0 true (by omega) (by omega) ?_
              simp only [walkMeasure] at hm ⊢
              split_ifs at hm ⊢ <;> omega
            · rw [if_pos rfl]
              exact fun hc => Option.noConfusion hc
          · rw [if_neg hun]
            refine ih (t - 1) s side (by omega) (by omega) ?_
            rcases side with _ | _ <;>
              (simp only [walkMeasure] at hm ⊢; split_ifs at hm ⊢ <;> omega)
    · rw [if_neg h0]
      exact fun hc => Option.noConfusion hc

/-- C5: for any in-range starting track the track walk of
`alloc_next_block` terminates within the modelled fuel `2*max_track + 4`
(the C loop, which carries no fuel, thus always terminates: at most one
reversal to the other side of the directory track is performed, the
`side_changed` guard stopping a second one), and when the walk ends by
passing the second boundary without finding a track with free blocks the
call fails reporting `ERR_DISKFULL`. -/
theorem c5_walk_termination (ty : ImageType) (st : BamState)
    (track sector interleave dirT maxT : Int)
    (hdir : dirT = (if ty = .d81 then (D81_DIR_TRACK : Int) else (DIR_TRACK : Int)))
    (hmax : maxT = (if ty = .d81 then (D81_NUM_TRACKS : Int) else 35))
    (ht1 : 1 ≤ track) (ht2 : track ≤ maxT) :
    walkTrack ty st dirT maxT (2 * maxT.toNat + 4) track sector false ≠ none ∧
    (walkTrack ty st dirT maxT (2 * maxT.toNat + 4) track sector false = some none →
      alloc_next_block ty st track sector interleave = .fail .ERR_DISKFULL 0 0) := by
  have hd : 2 ≤ dirT ∧ dirT + 1 ≤ maxT := by
    rw [hdir, hmax]
    by_cases hty : ty = .d81
    · rw [if_pos hty, if_pos hty]
      constructor
      · show (2 : Int) ≤ ((D81_DIR_TRACK : Nat) : Int)
        norm_num [D81_DIR_TRACK]
      · show ((D81_DIR_TRACK : Nat) : Int) + 1 ≤ ((D81_NUM_TRACKS : Nat) : Int)
        norm_num [D81_DIR_TRACK, D81_NUM_TRACKS]
    · rw [if_neg hty, if_neg hty]
      constructor
      · show (2 : Int) ≤ ((DIR_TRACK : Nat) : Int)
        norm_num [DIR_TRACK]
      · show ((DIR_TRACK : Nat) : Int) + 1 ≤ 35
        norm_num [DIR_TRACK]
  constructor
  · exact walkTrack_total ty st dirT maxT hd.1 hd.2 _ track sector false ht1 ht2
      (by simp only [walkMeasure]; split_ifs <;> omega)
  · intro hwalk
    rw [alloc_next_block]
    dsimp only
    rw [← hdir, ← hmax, hwalk]

/-- Witness for C5: the fresh D64 geometry from track 1. -/
theorem c5_walk_termination_witness :
    walkTrack .d64 freshDrive.bams 18 35 (2 * (35 : Int).toNat + 4) 1 0 false ≠
      none := by
  exact (c5_walk_termination .d64 freshDrive.bams 1 0 10 18 35 (by decide) (by decide)
    (by decide) (by decide)).1

/-! ## The BLOCKS FREE tail of the `$` listing (claim C9) -/

/-- The directory-listing scan touches only the error state. -/
lemma dir_scan_pres (pattern : List Nat) (plen maxDirSec : Nat) :
    ∀ (fuel : Nat) (d : Drive) (link : List Nat) (nb : Nat),
    (dir_scan pattern plen maxDirSec fuel d link nb).1.bams = d.bams ∧
    (dir_scan pattern plen maxDirSec fuel d link nb).1.desc = d.desc := by
  intro fuel
  induction fuel with
  | zero => exact fun d link nb => ⟨rfl, rfl⟩
  | succ n ih =>
    intro d link nb
    rw [dir_scan]
    by_cases h1 : link.getD 0 0 = 0 ∨ nb ≥ maxDirSec
    · rw [if_pos h1]
      exact ⟨rfl, rfl⟩
    · rw [if_neg h1]
      rcases hr : read_sector d ((link.getD 0 0 : Nat) : Int) ((link.getD 1 0 : Nat) : Int)
        with ⟨d2, rb⟩
      have hd2 : d2.bams = d.bams ∧ d2.desc = d.desc := by
        have := read_sector_pres d ((link.getD 0 0 : Nat) : Int) ((link.getD 1 0 : Nat) : Int)
        rw [hr] at this
        exact this
      rcases rb with _ | blk
      · exact hd2
      · dsimp only
        have hih := ih d2 blk (nb + 1)
        exact ⟨by rw [hih.1, hd2.1], by rw [hih.2, hd2.2]⟩

lemma dir_header_pres (d : Drive) :
    (dir_header d).1.bams = d.bams ∧ (dir_header d).1.desc = d.desc := by
  rw [dir_header]
  by_cases h : d.desc.type = .d81
  · rw [if_pos h]
    rcases hr : read_sector d ((D81_DIR_TRACK : Nat) : Int) 0 with ⟨dx, rb⟩
    have hdx : dx.bams = d.bams ∧ dx.desc = d.desc := by
      have := read_sector_pres d ((D81_DIR_TRACK : Nat) : Int) 0
      rw [hr] at this
      exact this
    rcases rb with _ | b
    · exact hdx
    · exact hdx
  · rw [if_neg h]
    exact ⟨rfl, rfl⟩

/-- Every directory listing ends with the `BLOCKS FREE.` line computed
from the pre-scan BAM state. -/
lemma open_directory_buf (d : Drive) (p : List Nat) (l : Nat) :
    ∃ pre, ((open_directory d p l).1.ch 0).buf =
      pre ++ dir_tail_line (dir_tail_count d.desc.type d.bams) := by
  rw [open_directory]
  dsimp only [updCh]
  rw [if_pos rfl]
  dsimp only
  rw [(dir_scan_pres _ _ _ _ _ _ _).1, (dir_scan_pres _ _ _ _ _ _ _).2,
    (dir_header_pres d).1, (dir_header_pres d).2]
  exact ⟨_, rfl⟩

/-- The free-count loop of the listing tail as a set sum. -/
lemma foldl_free_count (ty : ImageType) (st : BamState) (dirT : Nat) :
    ∀ (m acc : Nat),
    (List.range m).foldl (fun a i =>
      if i + 1 ≠ dirT then a + num_free_blocks ty st ((i + 1 : Nat) : Int) else a) acc =
      acc + ∑ t ∈ (Finset.Icc 1 m).erase dirT, num_free_blocks ty st (t : Int) := by
  intro m
  induction m with
  | zero => intro acc; simp
  | succ k ih =>
    intro acc
    rw [List.range_succ, List.foldl_append]
    simp only [List.foldl_cons, List.foldl_nil]
    rw [ih]
    have hicc : Finset.Icc 1 (k + 1) = insert (k + 1) (Finset.Icc 1 k) := by
      ext x
      simp only [Finset.mem_Icc, Finset.mem_insert]
      omega
    have hnotmem : k + 1 ∉ Finset.Icc 1 k := by
      simp only [Finset.mem_Icc]
      omega
    by_cases hd : k + 1 = dirT
    · rw [if_neg (not_not_intro hd), hicc, ← hd, Finset.erase_insert hnotmem,
        Finset.erase_eq_of_not_mem hnotmem]
    · rw [if_pos hd, hicc, Finset.erase_insert_of_ne hd,
        Finset.sum_insert (fun hmem => hnotmem (Finset.mem_of_mem_erase hmem))]
      omega

/-- C9 (amended): the synthesized `$` listing ends with a `BLOCKS FREE.`
line whose count sums the per-track free counts over tracks 1-35 for
D64/X64 images (the constant 35 — not the image's track count, so a
40-track image's tracks 36-40 are not included) or 1-80 for D81 images,
excluding the directory track. -/
theorem c9_blocks_free_count (d : Drive) (p : List Nat) (l : Nat)
    (maxT dirT : Nat)
    (hmax : maxT = if d.desc.type = .d81 then D81_NUM_TRACKS else 35)
    (hdir : dirT = if d.desc.type = .d81 then D81_DIR_TRACK else DIR_TRACK) :
    ∃ pre, ((open_directory d p l).1.ch 0).buf =
      pre ++ dir_tail_line (∑ t ∈ (Finset.Icc 1 maxT).erase dirT,
        num_free_blocks d.desc.type d.bams (t : Int)) := by
  obtain ⟨pre, hpre⟩ := open_directory_buf d p l
  refine ⟨pre, ?_⟩
  rw [hpre]
  have hcnt : dir_tail_count d.desc.type d.bams =
      ∑ t ∈ (Finset.Icc 1 maxT).erase dirT,
        num_free_blocks d.desc.type d.bams (t : Int) := by
    rw [dir_tail_count]
    rw [foldl_free_count, zero_add, ← hmax, ← hdir]
  rw [hcnt]

/-- Witness for C9: the freshly mounted 35-track disk. -/
theorem c9_blocks_free_count_witness :
    ∃ pre, ((open_directory freshDrive [] 0).1.ch 0).buf =
      pre ++ dir_tail_line (∑ t ∈ (Finset.Icc 1 35).erase 18,
        num_free_blocks freshDrive.desc.type freshDrive.bams (t : Int)) := by
  exact c9_blocks_free_count freshDrive [] 0 35 18 (by decide) (by decide)

/-- A 40-track D64 image mounted (the fresh 35-track BAM extended by the
disk-name area that the extra tracks' BAM entries would alias). -/
def freshDrive40 : Drive :=
  { freshDrive with
    desc := { type := .d64, num_tracks := 40 },
    file_size := D64_SIZE_40 }

/-- C9 counterexample: on a mounted 40-track D64 image the listing's
`BLOCKS FREE.` count is 664 — the sum over tracks 1-35 minus the
directory track only — while the sum over every track of the image except
the directory track is 1464 (tracks 36-40 alias the disk-name bytes,
free count 160 each), and no listing tail carries that count. -/
theorem c9_counterexample :
    (dir_tail_line 664).isSuffixOf ((open_directory freshDrive40 [] 0).1.ch 0).buf = true ∧
    freshDrive40.desc.num_tracks = 40 ∧
    (∑ t ∈ (Finset.Icc 1 freshDrive40.desc.num_tracks).erase 18,
      num_free_blocks freshDrive40.desc.type freshDrive40.bams (t : Int)) = 1464 ∧
    (dir_tail_line 1464).isSuffixOf ((open_directory freshDrive40 [] 0).1.ch 0).buf
      = false := by
  decide

/-! ## Round-trip machinery (claims C1 and C3): list access helpers -/

lemma getD_set_self {α : Type} (l : List α) (i : Nat) (v dflt : α) (h : i < l.length) :
    (l.set i v).getD i dflt = v := by
  rw [List.getD_eq_getElem?_getD, List.getElem?_set_self]
  · simp
  · exact h

lemma getD_set_other {α : Type} (l : List α) (i j : Nat) (v dflt : α) (h : j ≠ i) :
    (l.set i v).getD j dflt = l.getD j dflt := by
  rw [List.getD_eq_getElem?_getD, List.getElem?_set_ne (fun he => h he.symm),
    ← List.getD_eq_getElem?_getD]

lemma getD_append_left {α : Type} (l l2 : List α) (i : Nat) (dflt : α) (h : i < l.length) :
    (l ++ l2).getD i dflt = l.getD i dflt := by
  rw [List.getD_eq_getElem?_getD, List.getElem?_append_left h, ← List.getD_eq_getElem?_getD]

lemma getD_append_right {α : Type} (l l2 : List α) (i : Nat) (dflt : α) (h : l.length ≤ i) :
    (l ++ l2).getD i dflt = l2.getD (i - l.length) dflt := by
  rw [List.getD_eq_getElem?_getD, List.getElem?_append_right h, ← List.getD_eq_getElem?_getD]

lemma upd2_same (f : Nat → Nat → List Nat) (t s : Nat) (v : List Nat) :
    upd2 f t s v t s = v := by
  rw [upd2]
  exact if_pos ⟨rfl, rfl⟩

lemma upd2_other (f : Nat → Nat → List Nat) (t s : Nat) (v : List Nat) (a b : Nat)
    (h : ¬ (a = t ∧ b = s)) : upd2 f t s v a b = f a b := by
  rw [upd2]
  exact if_neg h

/-! ## Raw D64 BAM accessors and the effect of `alloc_block` -/

/-- The D64 BAM bit of track `t` (1-35), sector index `j` (< 24), as the
byte/bit addressing used by `is_block_free`. -/
def rawBit (st : BamState) (t j : Nat) : Bool :=
  (st.bam (4 + (t - 1) * 4 + (j / 8 + 1))).testBit (j % 8)

/-- The D64 per-track free-count byte. -/
def nfb (st : BamState) (t : Nat) : Nat := st.bam (4 + (t - 1) * 4)

lemma is_block_free_raw (st : BamState) (t s : Int) (h1 : 1 ≤ t) :
    is_block_free .d64 st t s = rawBit st t.toNat s.toNat := by
  have hc : (t - 1).toNat = t.toNat - 1 := by omega
  rw [is_block_free, if_neg (by decide)]
  dsimp only
  rw [hc, rawBit]

lemma num_free_blocks_raw (st : BamState) (t : Int) (h1 : 1 ≤ t) :
    num_free_blocks .d64 st t = nfb st t.toNat := by
  have hc : (t - 1).toNat = t.toNat - 1 := by omega
  rw [num_free_blocks, if_neg (by decide)]
  rw [hc, nfb]

/-- Bits beyond the last sector of each track are clear (true for the
fresh BAM and preserved by allocations, which only clear bits). -/
def highBitsZero (st : BamState) : Prop :=
  ∀ t, t < 36 → 1 ≤ t → ∀ j, j < 24 → numSectors t ≤ j → rawBit st t j = false

instance (st : BamState) : Decidable (highBitsZero st) := by
  unfold highBitsZero
  infer_instance

/-- `alloc_block` on a free in-range D64 block: all other raw bits, and
all other tracks' free counts, are untouched; the target bit is cleared
and the track's count byte becomes `(count + 255) % 256`. -/
lemma alloc_block_d64_effect (st : BamState) (t s : Nat)
    (ht1 : 1 ≤ t) (ht2 : t ≤ 35) (hsn : s < numSectors t)
    (hfree : rawBit st t s = true) :
    (∀ t' j, 1 ≤ t' → j < 24 → (t', j) ≠ (t, s) →
      rawBit (alloc_block .d64 st (t : Int) (s : Int)).1 t' j = rawBit st t' j) ∧
    rawBit (alloc_block .d64 st (t : Int) (s : Int)).1 t s = false ∧
    (∀ t', 1 ≤ t' → t' ≠ t →
      nfb (alloc_block .d64 st (t : Int) (s : Int)).1 t' = nfb st t') ∧
    nfb (alloc_block .d64 st (t : Int) (s : Int)).1 t = (nfb st t + 255) % 256 := by
  have hns := numSectors_le t
  have hbit8 : s % 8 < 8 := Nat.mod_lt _ (by omega)
  have hc1 : ((t : Int) - 1).toNat = t - 1 := by omega
  have hc2 : ((s : Int)).toNat = s := by omega
  have hc3 : ((t : Int)).toNat = t := by omega
  have hrange : ¬((t : Int) < 1 ∨ (t : Int) > 35 ∨ (s : Int) < 0 ∨
      (s : Int) ≥ (numSectors ((t : Int)).toNat : Int)) := by
    rw [hc3]
    omega
  rw [alloc_block, if_neg (by decide), if_neg hrange]
  rw [hc1, hc2]
  have hbit : (st.bam (4 + (t - 1) * 4 + (s / 8 + 1))).testBit (s % 8) = true := hfree
  rw [if_pos hbit]
  refine ⟨?_, ?_, ?_, ?_⟩
  · intro t' j ht'1 hj24 hne
    rw [rawBit, rawBit]
    dsimp only
    have hnep : 4 + (t' - 1) * 4 + (j / 8 + 1) ≠ 4 + (t - 1) * 4 := by omega
    rw [updByte_other _ _ _ _ hnep]
    by_cases hii : 4 + (t' - 1) * 4 + (j / 8 + 1) = 4 + (t - 1) * 4 + (s / 8 + 1)
    · have htt : t' = t ∧ j / 8 = s / 8 := by omega
      have hjs : j ≠ s := by
        intro he
        exact hne (by rw [htt.1, he])
      have hmod : ¬ (s % 8 = j % 8) := by omega
      have hj8 : j % 8 < 8 := Nat.mod_lt _ (by omega)
      rw [hii, updByte_same, testBit_clear_mask _ _ _ hj8]
      simp [hmod, hii]
    · rw [updByte_other _ _ _ _ hii]
  · rw [rawBit]
    dsimp only
    have hnep : 4 + (t - 1) * 4 + (s / 8 + 1) ≠ 4 + (t - 1) * 4 := by omega
    rw [updByte_other _ _ _ _ hnep, updByte_same, testBit_clear_mask _ _ _ hbit8]
    simp
  · intro t' ht'1 hne
    rw [nfb, nfb]
    dsimp only
    have h1 : 4 + (t' - 1) * 4 ≠ 4 + (t - 1) * 4 := by omega
    have h2 : 4 + (t' - 1) * 4 ≠ 4 + (t - 1) * 4 + (s / 8 + 1) := by omega
    rw [updByte_other _ _ _ _ h1, updByte_other _ _ _ _ h2]
  · rw [nfb, nfb]
    dsimp only
    rw [updByte_same,
      updByte_other _ _ _ _ (by omega : 4 + (t - 1) * 4 ≠ 4 + (t - 1) * 4 + (s / 8 + 1))]

/-- The track walk stops immediately on a track with free blocks. -/
lemma walk_found_here (ty : ImageType) (st : BamState) (dirT maxT : Int)
    (fuel : Nat) (t s : Int) (side : Bool) (h : num_free_blocks ty st t ≠ 0) :
    walkTrack ty st dirT maxT (fuel + 1) t s side = some (some (t, s)) := by
  rw [walkTrack, if_neg h]

/-- With the current track exhausted (below the directory track, above
track 1) the walk moves exactly one track down. -/
lemma walk_found_down (ty : ImageType) (st : BamState) (dirT maxT : Int)
    (fuel : Nat) (t s : Int) (side : Bool)
    (h0 : num_free_blocks ty st t = 0) (hne : ¬ t = dirT) (hgt : ¬ t > dirT)
    (hb : ¬ t - 1 < 1) (h1 : num_free_blocks ty st (t - 1) ≠ 0) :
    walkTrack ty st dirT maxT (fuel + 2) t s side = some (some (t - 1, s)) := by
  rw [show fuel + 2 = (fuel + 1) + 1 from rfl, walkTrack, if_pos h0, if_neg hne,
    if_neg hgt, if_neg hb]
  exact walk_found_here ty st dirT maxT fuel (t - 1) s side h1

/-- After a successful track walk, `alloc_next_block` reduces to the probe
over the chosen track from the interleave-advanced start position. -/
lemma alloc_next_block_reduce (ty : ImageType) (st : BamState)
    (track sector interleave t s num s2 : Int)
    (hw : walkTrack ty st
        (if ty = .d81 then (D81_DIR_TRACK : Int) else (DIR_TRACK : Int))
        (if ty = .d81 then (D81_NUM_TRACKS : Int) else 35)
        (2 * (if ty = .d81 then (D81_NUM_TRACKS : Int) else 35).toNat + 4)
        track sector false = some (some (t, s)))
    (hnum : num = (if ty = .d81 then (D81_SECTORS_PER_TRACK : Int)
        else (numSectors t.toNat : Int)))
    (hs2 : s2 = if s + interleave ≥ num then
        (if s + interleave - num ≠ 0 then s + interleave - num - 1
         else s + interleave - num)
      else s + interleave) :
    alloc_next_block ty st track sector interleave =
      (match probeSector ty st t num num.toNat s2 with
       | some sf => AllocResult.ok (alloc_block ty st t sf).1 t sf
       | none => AllocResult.fail .ERR_DIRERROR t s2) := by
  rw [alloc_next_block]
  dsimp only
  rw [hw]
  dsimp only
  rw [← hnum, ← hs2]

/-- If some in-range sector is free, the full-revolution probe succeeds. -/
lemma probeSector_finds (ty : ImageType) (st : BamState) (t : Int) (num : Int)
    (hnum : 0 < num) (s2 : Int) (h0 : 0 ≤ s2) (h1 : s2 < num)
    (k : Int) (hk0 : 0 ≤ k) (hk1 : k < num) (hfree : is_block_free ty st t k = true) :
    ∃ sf, probeSector ty st t num num.toNat s2 = some sf := by
  rcases hp : probeSector ty st t num num.toNat s2 with _ | sf
  · exact absurd (probeSector_none_all ty st t num hnum s2 h0 h1 hp k hk0 hk1)
      (by simp [hfree])
  · exact ⟨sf, rfl⟩

lemma entryCount3 (f : Nat → Nat) (B : Nat) :
    entryCount f B 3 =
      bitCount8 (f (B + 1)) + bitCount8 (f (B + 2)) + bitCount8 (f (B + 3)) := by
  rw [entryCount, show Finset.Icc (1 : Nat) 3 = {1, 2, 3} from by decide,
    Finset.sum_insert (by decide), Finset.sum_insert (by decide), Finset.sum_singleton]
  ring

lemma bitCount8_pos_exists {b : Nat} (h : bitCount8 b ≠ 0) :
    ∃ k, k < 8 ∧ b.testBit k = true := by
  by_contra hc
  push_neg at hc
  apply h
  unfold bitCount8
  rw [Finset.card_eq_zero]
  ext x
  simp only [Finset.mem_filter, Finset.mem_range, Finset.not_mem_empty, iff_false,
    not_and]
  intro hx hb
  exact (hc x hx) hb

/-- The D64 entry-consistency fact for one track. -/
lemma nfb_entry (st : BamState) (t : Nat) (ht1 : 1 ≤ t) (ht2 : t ≤ 35)
    (hcons : bamConsistent .d64 st) :
    nfb st t = bitCount8 (st.bam (4 + (t - 1) * 4 + 1)) +
      bitCount8 (st.bam (4 + (t - 1) * 4 + 2)) +
      bitCount8 (st.bam (4 + (t - 1) * 4 + 3)) := by
  rw [bamConsistent, if_neg (by decide)] at hcons
  have hk := hcons (t - 1) (by omega)
  rw [entryConsistent, entryCount3] at hk
  have hbase : 4 + (t - 1) * 4 = 4 + (t - 1) * 4 := rfl
  rw [nfb]
  exact hk

lemma nfb_le_24 (st : BamState) (t : Nat) (ht1 : 1 ≤ t) (ht2 : t ≤ 35)
    (hcons : bamConsistent .d64 st) : nfb st t ≤ 24 := by
  rw [nfb_entry st t ht1 ht2 hcons]
  have h1 := bitCount8_le (st.bam (4 + (t - 1) * 4 + 1))
  have h2 := bitCount8_le (st.bam (4 + (t - 1) * 4 + 2))
  have h3 := bitCount8_le (st.bam (4 + (t - 1) * 4 + 3))
  omega

/-- A nonzero free count yields a free sector within the track. -/
lemma nfb_pos_free (st : BamState) (t : Nat) (ht1 : 1 ≤ t) (ht2 : t ≤ 35)
    (hcons : bamConsistent .d64 st) (hhb : highBitsZero st)
    (hnz : nfb st t ≠ 0) :
    ∃ s, s < numSectors t ∧ rawBit st t s = true := by
  rw [nfb_entry st t ht1 ht2 hcons] at hnz
  have hj : ∃ j, 1 ≤ j ∧ j ≤ 3 ∧ bitCount8 (st.bam (4 + (t - 1) * 4 + j)) ≠ 0 := by
    by_cases h1 : bitCount8 (st.bam (4 + (t - 1) * 4 + 1)) ≠ 0
    · exact ⟨1, by omega, by omega, h1⟩
    by_cases h2 : bitCount8 (st.bam (4 + (t - 1) * 4 + 2)) ≠ 0
    · exact ⟨2, by omega, by omega, h2⟩
    by_cases h3 : bitCount8 (st.bam (4 + (t - 1) * 4 + 3)) ≠ 0
    · exact ⟨3, by omega, by omega, h3⟩
    · omega
  obtain ⟨j, hj1, hj3, hjnz⟩ := hj
  obtain ⟨k, hk8, hkb⟩ := bitCount8_pos_exists hjnz
  refine ⟨(j - 1) * 8 + k, ?_, ?_⟩
  · by_contra hge
    push_neg at hge
    have := hhb t (by omega) ht1 ((j - 1) * 8 + k) (by omega) hge
    rw [rawBit, show ((j - 1) * 8 + k) / 8 + 1 = j from by omega,
      show ((j - 1) * 8 + k) % 8 = k from by omega] at this
    rw [this] at hkb
    exact Bool.noConfusion hkb
  · rw [rawBit, show ((j - 1) * 8 + k) / 8 + 1 = j from by omega,
      show ((j - 1) * 8 + k) % 8 = k from by omega]
    exact hkb

/-- The free count of a track holding a free bit is positive. -/
lemma nfb_pos_of_bit (st : BamState) (t s : Nat) (ht1 : 1 ≤ t) (ht2 : t ≤ 35)
    (hs : s < 24) (hcons : bamConsistent .d64 st) (hbit : rawBit st t s = true) :
    1 ≤ nfb st t := by
  rw [nfb_entry st t ht1 ht2 hcons]
  rw [rawBit] at hbit
  have hb8 : s % 8 < 8 := Nat.mod_lt _ (by omega)
  have hpos := bitCount8_pos hb8 hbit
  have hj : s / 8 + 1 = 1 ∨ s / 8 + 1 = 2 ∨ s / 8 + 1 = 3 := by omega
  rcases hj with h | h | h <;> rw [h] at hpos <;> omega

/-- One sector-probe step of the claim C1 write phase, after the walk has
chosen track `tt`. -/
lemma alloc_step_probe (st : BamState) (ct cs tt : Nat)
    (htt1 : 1 ≤ tt) (htt2 : tt ≤ 17) (hcs : cs < 21)
    (hcons : bamConsistent .d64 st) (hhb : highBitsZero st)
    (hnz : nfb st tt ≠ 0)
    (hw : walkTrack .d64 st
        (if ImageType.d64 = .d81 then (D81_DIR_TRACK : Int) else (DIR_TRACK : Int))
        (if ImageType.d64 = .d81 then (D81_NUM_TRACKS : Int) else 35)
        (2 * (if ImageType.d64 = .d81 then (D81_NUM_TRACKS : Int) else 35).toNat + 4)
        (ct : Int) (cs : Int) false = some (some ((tt : Int), (cs : Int)))) :
    ∃ s : Nat, alloc_next_block .d64 st (ct : Int) (cs : Int) 10 =
        .ok (alloc_block .d64 st (tt : Int) (s : Int)).1 (tt : Int) (s : Int) ∧
      s < 21 ∧ rawBit st tt s = true := by
  have hns : numSectors tt = 21 := by
    unfold numSectors
    split_ifs <;> omega
  have hnum : (21 : Int) = (if ImageType.d64 = .d81 then (D81_SECTORS_PER_TRACK : Int)
      else (numSectors ((tt : Int)).toNat : Int)) := by
    rw [if_neg (by decide), show ((tt : Int)).toNat = tt from by omega, hns]
    norm_num
  set s2 : Int := if (cs : Int) + 10 ≥ 21 then
      (if (cs : Int) + 10 - 21 ≠ 0 then (cs : Int) + 10 - 21 - 1 else (cs : Int) + 10 - 21)
    else (cs : Int) + 10 with hs2def
  have hs2r : 0 ≤ s2 ∧ s2 < 21 := by
    rw [hs2def]
    split_ifs <;> omega
  have hred := alloc_next_block_reduce .d64 st (ct : Int) (cs : Int) 10 (tt : Int)
    (cs : Int) 21 s2 hw hnum hs2def
  obtain ⟨sfree, hsl, hsb⟩ := nfb_pos_free st tt htt1 (by omega) hcons hhb hnz
  have hfreeI : is_block_free .d64 st (tt : Int) (sfree : Int) = true := by
    rw [is_block_free_raw st _ _ (by omega),
      show ((tt : Int)).toNat = tt from by omega,
      show ((sfree : Int)).toNat = sfree from by omega]
    exact hsb
  obtain ⟨sf, hp⟩ := probeSector_finds .d64 st (tt : Int) 21 (by norm_num) s2
    hs2r.1 hs2r.2 (sfree : Int) (by omega) (by omega) hfreeI
  have hsf := probeSector_some_free .d64 st (tt : Int) 21 (by norm_num) (21 : Int).toNat
    s2 sf hs2r.1 hs2r.2 hp
  refine ⟨sf.toNat, ?_, by omega, ?_⟩
  · rw [hred, hp]
    rw [show ((sf.toNat : Nat) : Int) = sf from by omega]
  · have h1 := hsf.1
    rw [is_block_free_raw st _ _ (by omega),
      show ((tt : Int)).toNat = tt from by omega] at h1
    exact h1

/-- One data-block allocation of the claim C1 write phase: on a consistent
D64 BAM, `alloc_next_block` from block `(ct, cs)` with the data interleave
10 succeeds, choosing the current track while it has free blocks and the
next lower track otherwise. -/
lemma alloc_step_d64 (st : BamState) (ct cs : Nat)
    (hct1 : 1 ≤ ct) (hct2 : ct ≤ 17) (hcs : cs < 21)
    (hcons : bamConsistent .d64 st) (hhb : highBitsZero st)
    (hsucc : nfb st ct ≠ 0 ∨ (2 ≤ ct ∧ nfb st (ct - 1) ≠ 0)) :
    ∃ t s : Nat, alloc_next_block .d64 st (ct : Int) (cs : Int) 10 =
        .ok (alloc_block .d64 st (t : Int) (s : Int)).1 (t : Int) (s : Int) ∧
      (nfb st ct ≠ 0 → t = ct) ∧
      (nfb st ct = 0 → t = ct - 1 ∧ 2 ≤ ct) ∧
      1 ≤ t ∧ t ≤ 17 ∧ s < 21 ∧ rawBit st t s = true := by
  have hneg : ¬ (ImageType.d64 = ImageType.d81) := by decide
  have hD : ((DIR_TRACK : Nat) : Int) = 18 := rfl
  by_cases h0 : nfb st ct = 0
  · obtain ⟨h2ct, h1nz⟩ := hsucc.resolve_left (fun hc => hc h0)
    have hw : walkTrack .d64 st
        (if ImageType.d64 = .d81 then (D81_DIR_TRACK : Int) else (DIR_TRACK : Int))
        (if ImageType.d64 = .d81 then (D81_NUM_TRACKS : Int) else 35)
        (2 * (if ImageType.d64 = .d81 then (D81_NUM_TRACKS : Int) else 35).toNat + 4)
        (ct : Int) (cs : Int) false = some (some (((ct - 1 : Nat) : Int), (cs : Int))) := by
      simp only [if_neg hneg]
      rw [show (((ct - 1 : Nat)) : Int) = (ct : Int) - 1 from by omega,
        show 2 * ((35 : Int)).toNat + 4 = (2 * ((35 : Int)).toNat + 2) + 2 from by omega]
      apply walk_found_down
      · rw [num_free_blocks_raw st _ (by omega),
          show ((ct : Int)).toNat = ct from by omega]
        exact h0
      · rw [hD]; omega
      · rw [hD]; omega
      · omega
      · rw [num_free_blocks_raw st _ (by omega),
          show ((ct : Int) - 1).toNat = ct - 1 from by omega]
        exact h1nz
    obtain ⟨s, hs⟩ := alloc_step_probe st ct cs (ct - 1) (by omega) (by omega) hcs
      hcons hhb h1nz hw
    exact ⟨ct - 1, s, hs.1, fun hc => absurd h0 hc, fun _ => ⟨rfl, h2ct⟩,
      by omega, by omega, hs.2.1, hs.2.2⟩
  · have hw : walkTrack .d64 st
        (if ImageType.d64 = .d81 then (D81_DIR_TRACK : Int) else (DIR_TRACK : Int))
        (if ImageType.d64 = .d81 then (D81_NUM_TRACKS : Int) else 35)
        (2 * (if ImageType.d64 = .d81 then (D81_NUM_TRACKS : Int) else 35).toNat + 4)
        (ct : Int) (cs : Int) false = some (some ((ct : Int), (cs : Int))) := by
      rw [show 2 * ((if ImageType.d64 = .d81 then (D81_NUM_TRACKS : Int) else 35)).toNat + 4
          = (2 * ((if ImageType.d64 = .d81 then (D81_NUM_TRACKS : Int) else 35)).toNat + 3) + 1
        from by omega]
      apply walk_found_here
      rw [num_free_blocks_raw st _ (by omega),
        show ((ct : Int)).toNat = ct from by omega]
      exact h0
    obtain ⟨s, hs⟩ := alloc_step_probe st ct cs ct hct1 hct2 hcs hcons hhb h0 hw
    exact ⟨ct, s, hs.1, fun _ => rfl, fun hc => absurd hc h0, hct1, hct2, hs.2.1, hs.2.2⟩

/-- Valid offsets of a 35-track D64 image. -/
lemma offset_ok (d : Drive) (hty : d.desc.type = .d64) (hnt : d.desc.num_tracks = 35)
    (hhs : d.desc.header_size = 0) (t s : Nat)
    (ht1 : 1 ≤ t) (ht2 : t ≤ 35) (hs : s < numSectors t) :
    d64_offset_from_ts d.desc (t : Int) (s : Int) = (accumNumSectors t + s) * 256 ∧
    (accumNumSectors t + s) * 256 + 256 ≤ 174848 := by
  have hsum : accumNumSectors t + numSectors t ≤ 683 := by
    have hall : ∀ u, u < 36 → accumNumSectors u + numSectors u ≤ 683 := by decide
    exact hall t (by omega)
  refine ⟨?_, by omega⟩
  rw [d64_offset_from_ts, hty, if_neg (by decide), hnt]
  have hrange : ¬((t : Int) < 1 ∨ (t : Int) > ((35 : Nat) : Int) ∨ (s : Int) < 0 ∨
      (s : Int) ≥ (numSectors ((t : Int)).toNat : Int)) := by
    rw [show ((t : Int)).toNat = t from by omega]
    omega
  rw [if_neg hrange, hhs,
    show ((t : Int)).toNat = t from by omega, show ((s : Int)).toNat = s from by omega]
  omega

/-- In the claim C1 setting `read_sector` succeeds, returns the sector-map
content and leaves the drive untouched. -/
lemma read_sector_ok (d : Drive) (t s : Nat)
    (hty : d.desc.type = .d64) (hnt : d.desc.num_tracks = 35)
    (hhs : d.desc.header_size = 0) (hei : d.desc.has_error_info = false)
    (hopen : d.file_open = true) (hfs : d.file_size = 174848)
    (ht1 : 1 ≤ t) (ht2 : t ≤ 35) (hs : s < numSectors t) :
    read_sector d (t : Int) (s : Int) = (d, some (d.disk t s)) := by
  obtain ⟨hoff, hbound⟩ := offset_ok d hty hnt hhs t s ht1 ht2 hs
  rw [read_sector, if_neg (not_not_intro hopen)]
  dsimp only
  rw [hoff]
  have hninv : ¬ ((accumNumSectors t + s) * 256 = INVALID_OFFSET) := by
    simp only [INVALID_OFFSET]
    omega
  rw [if_neg hninv]
  rw [if_neg (show ¬ d.file_size < (accumNumSectors t + s) * 256 + 256 from by
    rw [hfs]; omega)]
  rw [hei, if_neg Bool.false_ne_true,
    show ((t : Int)).toNat = t from by omega, show ((s : Int)).toNat = s from by omega]

/-- In the claim C1 setting `write_sector` succeeds, stores the first 256
buffer bytes at the sector and leaves the file size unchanged. -/
lemma write_sector_ok (d : Drive) (t s : Nat) (buf : List Nat)
    (hty : d.desc.type = .d64) (hnt : d.desc.num_tracks = 35)
    (hhs : d.desc.header_size = 0) (hopen : d.file_open = true)
    (hwp : d.write_protected = false) (hfs : d.file_size = 174848)
    (ht1 : 1 ≤ t) (ht2 : t ≤ 35) (hs : s < numSectors t) :
    write_sector d (t : Int) (s : Int) buf =
      ({ d with disk := upd2 d.disk t s (buf.take 256) }, true) := by
  obtain ⟨hoff, hbound⟩ := offset_ok d hty hnt hhs t s ht1 ht2 hs
  have hwpf : ¬ (d.write_protected = true) := by
    rw [hwp]
    exact Bool.false_ne_true
  rw [write_sector, if_neg (not_not_intro hopen), if_neg hwpf]
  dsimp only
  rw [hoff]
  have hninv : ¬ ((accumNumSectors t + s) * 256 = INVALID_OFFSET) := by
    simp only [INVALID_OFFSET]
    omega
  rw [if_neg hninv]
  have hmax : max d.file_size ((accumNumSectors t + s) * 256 + 256) = d.file_size := by
    rw [hfs]
    exact Nat.max_eq_left (by omega)
  rw [hmax, show ((t : Int)).toNat = t from by omega,
    show ((s : Int)).toNat = s from by omega]

/-- The directory block of the claim C1 scenario after `create_file` wrote
the provisional entry for file `A` on the fresh disk: PRG type with bit 7
clear, first data block (17,0), name "A" padded with `0xa0`. -/
def c1_dir_block : List Nat :=
  [0, 255, 2, 17, 0, 65] ++ List.replicate 15 160 ++ List.replicate 235 0

/-- The write-phase invariant of the claim C1 scenario.  `written` is the
data accepted so far, `chain` the flushed full blocks in order, `(ct, cs)`
the current (not yet written) block. -/
structure C1Inv (d : Drive) (written : List Nat) (chain : List (Nat × Nat))
    (ct cs : Nat) : Prop where
  hty : d.desc.type = .d64
  hnt : d.desc.num_tracks = 35
  hhs : d.desc.header_size = 0
  hei : d.desc.has_error_info = false
  hopen : d.file_open = true
  hwp : d.write_protected = false
  hfs : d.file_size = 174848
  herr : d.current_error = .ERR_OK
  hch0 : (d.ch 0).mode = .free
  hbf3 : d.buf_free 3 = false
  hmode : (d.ch 1).mode = .file
  hwr : (d.ch 1).writing = true
  hbufnum : (d.ch 1).buf_num = 3
  htrk : (d.ch 1).track = (ct : Int)
  hsec : (d.ch 1).sector = (cs : Int)
  hnb : (d.ch 1).num_blocks = chain.length + 1
  hpos : (d.ch 1).buf_pos = (d.ch 1).buf_len
  hlen : (d.ch 1).buf_len = 2 + (written.length - 254 * chain.length)
  hbuflen : (d.ch 1).buf.length = 256
  hdata : ∀ i, i < written.length - 254 * chain.length →
    (d.ch 1).buf.getD (2 + i) 0 = written.getD (254 * chain.length + i) 0
  harith : 254 * chain.length ≤ written.length ∧
    written.length ≤ 254 * chain.length + 254 ∧
    (written.length = 254 * chain.length → chain = [])
  hlim : written.length ≤ 65535
  hdir : d.disk 18 1 = c1_dir_block
  hfirst : (chain ++ [(ct, cs)]).getD 0 (0, 0) = (17, 0)
  hblocks : ∀ k, k < chain.length →
    (d.disk (chain.getD k (0, 0)).1 (chain.getD k (0, 0)).2).length = 256 ∧
    (d.disk (chain.getD k (0, 0)).1 (chain.getD k (0, 0)).2).getD 0 0 =
      ((chain ++ [(ct, cs)]).getD (k + 1) (0, 0)).1 ∧
    (d.disk (chain.getD k (0, 0)).1 (chain.getD k (0, 0)).2).getD 1 0 =
      ((chain ++ [(ct, cs)]).getD (k + 1) (0, 0)).2 ∧
    ∀ i, i < 254 →
      (d.disk (chain.getD k (0, 0)).1 (chain.getD k (0, 0)).2).getD (2 + i) 0 =
        written.getD (254 * k + i) 0
  hvalid : ∀ a ∈ chain ++ [(ct, cs)], 1 ≤ a.1 ∧ a.1 ≤ 17 ∧ a.2 < 21
  hdistinct : List.Pairwise (· ≠ ·) (chain ++ [(ct, cs)])
  hcons : bamConsistent .d64 d.bams
  hhbz : highBitsZero d.bams
  halloc : ∀ a ∈ chain ++ [(ct, cs)], rawBit d.bams a.1 a.2 = false
  hfree : ∀ u, u < ct → 1 ≤ u → nfb d.bams u = 21 ∧ ∀ v, v < 21 → rawBit d.bams u v = true
  hcnt : chain.length + 1 = (17 - ct) * 21 + (21 - nfb d.bams ct)
  hcnt21 : nfb d.bams ct ≤ 21

/-- Opening file `A` for writing on the fresh drive establishes the
invariant with the first data block (17,0) current and nothing written. -/
lemma c1_init : C1Inv (d64_drive_open freshDrive 1 fileNameA 1).1 [] [] 17 0 :=
  { hty := by decide
    hnt := by decide
    hhs := by decide
    hei := by decide
    hopen := by decide
    hwp := by decide
    hfs := by decide
    herr := by decide
    hch0 := by decide
    hbf3 := by decide
    hmode := by decide
    hwr := by decide
    hbufnum := by decide
    htrk := by decide
    hsec := by decide
    hnb := by decide
    hpos := by decide
    hlen := by decide
    hbuflen := by decide
    hdata := by intro i hi; simp at hi
    harith := by refine ⟨by simp, by simp, fun _ => rfl⟩
    hlim := by simp
    hdir := by decide
    hfirst := by decide
    hblocks := by intro k hk; simp at hk
    hvalid := by decide
    hdistinct := by decide
    hcons := by decide
    hhbz := by decide
    halloc := by decide
    hfree := by decide
    hcnt := by decide
    hcnt21 := by decide }

/-- Witness for C10: the fresh drive with the startup message set. -/
theorem c10_command_channel_read_witness :
    ((d64_drive_set_error freshDrive .ERR_STARTUP 0 0).ch 15).mode = .command ∧
    (readErrSeq (d64_drive_set_error freshDrive .ERR_STARTUP 0 0).error_buf.length
        (d64_drive_set_error freshDrive .ERR_STARTUP 0 0)).1.map Prod.fst =
      errMessage .ERR_STARTUP 0 0 := by
  refine ⟨rfl, ?_⟩
  exact (c10_command_channel_read (d64_drive_set_error freshDrive .ERR_STARTUP 0 0)
    .ERR_STARTUP 0 0 rfl rfl rfl rfl).1

end D64
